/-
Verification of the Hermes front-end lowering pipeline fragments:
semantic validation entry points, IR-generation function contexts,
function lowering (prologue, capture initialization, epilogue, lazy
stubs, closures), and the GC cell construction contract.

The IR generator (ESTreeIRGen.cpp fragment) is embedded as explicit
state passing over `IRGenState`.  The IR builder collaborators are
given their obvious small-step semantics; helpers whose bodies are
outside the provided sources are modelled from the spec and marked as
such in their doc comments.
-/
import Mathlib

namespace Hermes

/-- A source range, as a pair of byte locations (SMRange). -/
structure SMRange where
  startLoc : Nat
  endLoc : Nat
deriving DecidableEq

/-- AST node kinds relevant to function-like nodes. -/
inductive NodeKind where
  | functionDeclaration
  | functionExpression
  | arrowFunctionExpression
deriving DecidableEq

/-- Function::DefinitionKind. -/
inductive DefinitionKind where
  | es5Function
  | es6Arrow
deriving DecidableEq

/-- The lazy resumption descriptor persisted on an IR function
(Function::LazySource): source buffer id, original node kind, node
source range. -/
structure LazySource where
  bufferId : Nat
  nodeKind : NodeKind
  functionRange : SMRange
deriving DecidableEq

/-- IR values: literals, parameters, frame variables, instruction
results, each referenced by an id. -/
inductive Value where
  | litUndefined
  | paramRef (id : Nat)
  | varRef (id : Nat)
  | instRef (id : Nat)
deriving DecidableEq

/-- A storage location: a frame Variable or a global object property. -/
inductive Storage where
  | frameVar (id : Nat)
  | globalProp (name : String)
deriving DecidableEq

/-- Payloads of the IR instructions this fragment emits. -/
inductive InstrData where
  | branch (dest : Nat)
  | ret (v : Value)
  | storeFrame (v : Value) (dest : Nat)
  | storeGlobalProp (v : Value) (propName : String)
  | getNewTarget
  | createArguments
  | createFunction (funcId : Nat)
  | loweredStmt (tag : Nat)
deriving DecidableEq

/-- An emitted instruction: unique id, source location, payload. -/
structure Instr where
  id : Nat
  loc : Nat
  data : InstrData
deriving DecidableEq

/-- A basic block: id, owning function, and ordered instructions. -/
structure BasicBlock where
  id : Nat
  parent : Nat
  instrs : List Instr
deriving DecidableEq

/-- A function body: either a block statement (with its lazy flag,
buffer id, source range, and statements, abstracted as tags), or a
non-block (expression) body. -/
inductive FuncBody where
  | block (isLazyFunctionBody : Bool) (bufferId : Nat) (range : SMRange) (stmts : List Nat)
  | expr (tag : Nat) (range : SMRange)
deriving DecidableEq

/-- Source range of the body node. -/
def FuncBody.range : FuncBody → SMRange
  | .block _ _ r _ => r
  | .expr _ r => r

/-- A function-like AST node together with its semantic record: the
optional name, formal parameter names, strictness, source range, node
kind, body, and the semantic record contents (hoisted variable
declarations, hoisted function declarations, capture flags, label
count). -/
inductive FuncNode : Type where
  | mk (idName : Option String) (params : List String) (strict : Bool)
      (range : SMRange) (kind : NodeKind) (body : FuncBody)
      (semDecls : List String) (semClosures : List FuncNode)
      (semContainsArrowFunctions : Bool)
      (semContainsArrowFunctionsUsingArguments : Bool)
      (semLabelsCount : Nat) : FuncNode

def FuncNode.idName : FuncNode → Option String
  | .mk i _ _ _ _ _ _ _ _ _ _ => i

def FuncNode.params : FuncNode → List String
  | .mk _ p _ _ _ _ _ _ _ _ _ => p

def FuncNode.strict : FuncNode → Bool
  | .mk _ _ s _ _ _ _ _ _ _ _ => s

def FuncNode.range : FuncNode → SMRange
  | .mk _ _ _ r _ _ _ _ _ _ _ => r

def FuncNode.kind : FuncNode → NodeKind
  | .mk _ _ _ _ k _ _ _ _ _ _ => k

def FuncNode.body : FuncNode → FuncBody
  | .mk _ _ _ _ _ b _ _ _ _ _ => b

def FuncNode.semDecls : FuncNode → List String
  | .mk _ _ _ _ _ _ d _ _ _ _ => d

def FuncNode.semClosures : FuncNode → List FuncNode
  | .mk _ _ _ _ _ _ _ c _ _ _ => c

def FuncNode.semContainsArrowFunctions : FuncNode → Bool
  | .mk _ _ _ _ _ _ _ _ a _ _ => a

def FuncNode.semContainsArrowFunctionsUsingArguments : FuncNode → Bool
  | .mk _ _ _ _ _ _ _ _ _ u _ => u

def FuncNode.semLabelsCount : FuncNode → Nat
  | .mk _ _ _ _ _ _ _ _ _ _ n => n

/-- The per-function semantic record (sem::FunctionInfo) as consumed
by IR generation. -/
structure SemInfo where
  decls : List String
  closures : List FuncNode
  containsArrowFunctions : Bool
  containsArrowFunctionsUsingArguments : Bool
  labelsCount : Nat

/-- FunctionLikeNode::getSemInfo(). -/
def FuncNode.getSemInfo (n : FuncNode) : SemInfo :=
  { decls := n.semDecls
    closures := n.semClosures
    containsArrowFunctions := n.semContainsArrowFunctions
    containsArrowFunctionsUsingArguments := n.semContainsArrowFunctionsUsingArguments
    labelsCount := n.semLabelsCount }

/-- An IR function record. -/
structure IRFunction where
  id : Nat
  name : String
  defKind : DefinitionKind
  strict : Bool
  range : SMRange
  params : List (Nat × String)
  vars : List (Nat × String)
  lazyClosureAlias : Option Nat
  lazyScope : Option (List (List (String × Storage)))
  lazySource : Option LazySource
  statementCount : Option Nat
deriving DecidableEq

/-- Mutable fields of an active lowering FunctionContext.  The entry
terminator is remembered as the pair (block that holds it, its
instruction id), mirroring an Instruction pointer that knows its
parent block. -/
structure FnCtxData where
  function : Nat
  semInfo : Option SemInfo
  scopeRef : Nat
  capturedThis : Option Nat
  capturedNewTarget : Value
  capturedArguments : Option Nat
  entryTerminator : Option (Nat × Nat)
  labelsSize : Nat
  anonymousLabelCounter : Nat
  savedInsertionBlock : Option Nat
  savedLoc : Nat

/-- The lowering function-context stack: each context links to the
previously current one (FunctionContext::oldContext_). -/
inductive FnCtx : Type where
  | mk (data : FnCtxData) (oldContext : Option FnCtx) : FnCtx

def FnCtx.data : FnCtx → FnCtxData
  | .mk d _ => d

def FnCtx.oldContext : FnCtx → Option FnCtx
  | .mk _ o => o

/-- The whole IR generator state: id supply, module contents (functions,
flat block list, declared global properties), builder state (location,
insertion block), the scoped name table (head scope innermost), the
current function context, and a trace counter of context pushes. -/
structure IRGenState where
  nextId : Nat
  functions : List IRFunction
  blocks : List BasicBlock
  globalProps : List String
  loc : Nat
  insertionBlock : Option Nat
  nameTable : List (List (String × Storage))
  functionContext : Option FnCtx
  contextPushes : Nat

/-! ### IR builder primitives (external collaborator, obvious semantics) -/

def findFunction (g : IRGenState) (fid : Nat) : Option IRFunction :=
  g.functions.find? (fun f => f.id == fid)

def updFunction (g : IRGenState) (fid : Nat) (u : IRFunction → IRFunction) : IRGenState :=
  { g with functions := g.functions.map (fun f => if f.id == fid then u f else f) }

def findBlock (g : IRGenState) (b : Nat) : Option BasicBlock :=
  g.blocks.find? (fun blk => blk.id == b)

def updBlock (g : IRGenState) (b : Nat) (u : BasicBlock → BasicBlock) : IRGenState :=
  { g with blocks := g.blocks.map (fun blk => if blk.id == b then u blk else blk) }

/-- IRBuilder::createFunction. -/
def createFunction (g : IRGenState) (name : String) (kind : DefinitionKind)
    (strict : Bool) (range : SMRange) : Nat × IRGenState :=
  (g.nextId,
    { g with
      nextId := g.nextId + 1
      functions := g.functions ++
        [{ id := g.nextId, name := name, defKind := kind, strict := strict,
           range := range, params := [], vars := [], lazyClosureAlias := none,
           lazyScope := none, lazySource := none, statementCount := none }] })

/-- IRBuilder::createBasicBlock. -/
def createBasicBlock (g : IRGenState) (fid : Nat) : Nat × IRGenState :=
  (g.nextId,
    { g with
      nextId := g.nextId + 1
      blocks := g.blocks ++ [{ id := g.nextId, parent := fid, instrs := [] }] })

/-- IRBuilder::createParameter. -/
def createParameter (g : IRGenState) (fid : Nat) (name : String) : Nat × IRGenState :=
  (g.nextId,
    updFunction { g with nextId := g.nextId + 1 } fid
      (fun f => { f with params := f.params ++ [(g.nextId, name)] }))

/-- IRBuilder::createVariable (in the given function's scope). -/
def createVariable (g : IRGenState) (fid : Nat) (name : String) : Nat × IRGenState :=
  (g.nextId,
    updFunction { g with nextId := g.nextId + 1 } fid
      (fun f => { f with vars := f.vars ++ [(g.nextId, name)] }))

/-- IRBuilder::setLocation. -/
def setLocation (g : IRGenState) (l : Nat) : IRGenState := { g with loc := l }

/-- IRBuilder::setInsertionBlock. -/
def setInsertionBlock (g : IRGenState) (b : Option Nat) : IRGenState :=
  { g with insertionBlock := b }

/-- Emit an instruction at the builder's current location into the
current insertion block; fails when there is no valid insertion
point. -/
def emit (g : IRGenState) (d : InstrData) : Option (Nat × IRGenState) :=
  match g.insertionBlock with
  | none => none
  | some b =>
    match findBlock g b with
    | none => none
    | some _ =>
      some (g.nextId,
        updBlock { g with nextId := g.nextId + 1 } b
          (fun blk =>
            { blk with instrs := blk.instrs ++ [{ id := g.nextId, loc := g.loc, data := d }] }))

/-- Builder.getFunction(): the function owning the insertion block. -/
def builderGetFunction (g : IRGenState) : Option Nat :=
  match g.insertionBlock with
  | none => none
  | some b => (findBlock g b).map (fun blk => blk.parent)

/-- Function::getThisParameter(): the first created parameter. -/
def getThisParameter (g : IRGenState) (fid : Nat) : Option Nat :=
  match findFunction g fid with
  | none => none
  | some f => f.params.head?.map (fun p => p.1)

/-- SourceErrorManager::convertEndToLocation. -/
def convertEndToLocation (r : SMRange) : Nat := r.endLoc

/-- Function::clearStatementCount. -/
def clearStatementCount (g : IRGenState) (fid : Nat) : IRGenState :=
  updFunction g fid (fun f => { f with statementCount := none })

/-! ### The scoped name table -/

def ntPush (nt : List (List (String × Storage))) : List (List (String × Storage)) :=
  [] :: nt

def ntPop : List (List (String × Storage)) → List (List (String × Storage))
  | [] => []
  | _ :: t => t

/-- Insert a binding into the innermost scope. -/
def ntInsert (nt : List (List (String × Storage))) (n : String) (s : Storage) :
    List (List (String × Storage)) :=
  match nt with
  | [] => [[(n, s)]]
  | h :: t => ((n, s) :: h) :: t

def scopeLookup : List (String × Storage) → String → Option Storage
  | [], _ => none
  | (m, s) :: rest, n => if m = n then some s else scopeLookup rest n

/-- Look a name up, innermost scope first, most recent binding first. -/
def ntLookup : List (List (String × Storage)) → String → Option Storage
  | [], _ => none
  | h :: t, n =>
    match scopeLookup h n with
    | some s => some s
    | none => ntLookup t n

/-- Insert a binding into the scope identified by its depth from the
bottom of the scope stack (ScopedHashTable::insertIntoScope). -/
def ntInsertIntoScope (nt : List (List (String × Storage))) (ref : Nat)
    (n : String) (s : Storage) : List (List (String × Storage)) :=
  if ref < nt.length then
    nt.mapIdx (fun i sc => if i = nt.length - 1 - ref then (n, s) :: sc else sc)
  else nt

/-! ### The lowering FunctionContext (constructor and destructor) -/

/-- FunctionContext::FunctionContext: saves the generator's current
context pointer and the builder state, opens a name-table scope,
initializes capturedNewTarget to undefined, sizes the label table from
the semantic record, and installs itself as current.  The push is also
counted in a trace field. -/
def mkFunctionContext (g : IRGenState) (fid : Nat) (si : Option SemInfo) : IRGenState :=
  { g with
    functionContext := some (FnCtx.mk
      { function := fid
        semInfo := si
        scopeRef := g.nameTable.length
        capturedThis := none
        capturedNewTarget := Value.litUndefined
        capturedArguments := none
        entryTerminator := none
        labelsSize := (match si with | some s => s.labelsCount | none => 0)
        anonymousLabelCounter := 0
        savedInsertionBlock := g.insertionBlock
        savedLoc := g.loc }
      g.functionContext)
    nameTable := ntPush g.nameTable
    contextPushes := g.contextPushes + 1 }

/-- FunctionContext::~FunctionContext: restores the saved context
pointer; the scope and builder save-state members pop the name-table
scope and restore the builder insertion state. -/
def destroyFunctionContext (g : IRGenState) : IRGenState :=
  match g.functionContext with
  | none => g
  | some c =>
    { g with
      functionContext := c.oldContext
      nameTable := ntPop g.nameTable
      insertionBlock := c.data.savedInsertionBlock
      loc := c.data.savedLoc }

/-- Update the data of the current function context in place. -/
def setCtxData (g : IRGenState) (u : FnCtxData → FnCtxData) : IRGenState :=
  match g.functionContext with
  | none => g
  | some (FnCtx.mk d old) => { g with functionContext := some (FnCtx.mk (u d) old) }

/-- FunctionContext::genAnonymousLabelName (invoked through the
generator on the current context): builds "?anon_<k>_<hint>" from the
context's counter and bumps the counter. -/
def genAnonymousLabelNameCtx (g : IRGenState) (hint : String) : Option (String × IRGenState) :=
  match g.functionContext with
  | none => none
  | some c =>
    some ("?anon_" ++ toString c.data.anonymousLabelCounter ++ "_" ++ hint,
      setCtxData g (fun d => { d with anonymousLabelCounter := d.anonymousLabelCounter + 1 }))

/-! ### IR generation helpers -/

/-- Modelled from the spec: emitStore stores a value through a storage
location — frame variables get a frame store, global properties a
property store (helper declared in ESTreeIRGen.h, body outside the
provided sources). -/
def emitStoreTo (g : IRGenState) (v : Value) (s : Storage) : Option IRGenState :=
  match s with
  | .frameVar vid => (emit g (.storeFrame v vid)).map (fun p => p.2)
  | .globalProp n => (emit g (.storeGlobalProp v n)).map (fun p => p.2)

/-- Whether the given function is the global (top-level) function,
which stores its hoisted declarations as global properties. -/
def isGlobalFunction (g : IRGenState) (fid : Nat) : Bool :=
  match g.functionContext with
  | some c => decide (c.data.function = fid) && c.oldContext.isNone
  | none => false

/-- Modelled from the spec: declareVariableOrGlobalProperty creates
(first occurrence only) or reuses hoisted storage for a name in a
function — a frame Variable for ordinary functions, a global property
for the global function — registering newly created storage in the
name table; returns the storage and whether it was newly created
(helper outside the provided sources; its result shape follows the
use `res.first` / `res.second` at the call sites). -/
def declareVariableOrGlobalProperty (g : IRGenState) (fid : Nat) (name : String) :
    (Storage × Bool) × IRGenState :=
  match scopeLookup (g.nameTable.headD []) name with
  | some st => ((st, false), g)
  | none =>
    if isGlobalFunction g fid then
      let st := Storage.globalProp name
      (((st, true)),
        { g with globalProps := g.globalProps ++ [name]
                 nameTable := ntInsert g.nameTable name st })
    else
      let (vid, g) := createVariable g fid name
      ((Storage.frameVar vid, true),
        { g with nameTable := ntInsert g.nameTable name (Storage.frameVar vid) })

/-- The hoisted-variable loop of emitFunctionPrologue: declare (or
reuse) storage for each declaration and initialize it to undefined
only when a frame variable was newly created. -/
def declsLoop (g : IRGenState) (fid : Nat) : List String → Option IRGenState
  | [] => some g
  | n :: rest =>
    let r := declareVariableOrGlobalProperty g fid n
    match r.1.1, r.1.2 with
    | .frameVar v, true =>
      match emit r.2 (.storeFrame .litUndefined v) with
      | none => none
      | some p => declsLoop p.2 fid rest
    | _, _ => declsLoop r.2 fid rest

/-- The hoisted-function-declaration loop of emitFunctionPrologue:
reserve a storage slot for each hoisted function declaration without
creating its closure. -/
def closureDeclLoop (g : IRGenState) (fid : Nat) : List FuncNode → Option IRGenState
  | [] => some g
  | fd :: rest =>
    match fd.idName with
    | none => none
    | some n => closureDeclLoop (declareVariableOrGlobalProperty g fid n).2 fid rest

/-- The formal-parameter loop of emitFunctionPrologue: create the
parameter and fresh frame storage, register the storage in the name
table, and store the parameter into it immediately. -/
def paramsLoop (g : IRGenState) (fid : Nat) : List String → Option IRGenState
  | [] => some g
  | n :: rest =>
    let p := (createParameter g fid n).1
    let g1 := (createParameter g fid n).2
    let v := (createVariable g1 fid n).1
    let g2 := (createVariable g1 fid n).2
    let g3 := { g2 with nameTable := ntInsert g2.nameTable n (Storage.frameVar v) }
    match emitStoreTo g3 (.paramRef p) (.frameVar v) with
    | none => none
    | some g4 => paramsLoop g4 fid rest

/-- The lazy-stub parameter loop of genES5Function: create one
parameter per formal. -/
def paramsStubLoop (g : IRGenState) (fid : Nat) : List String → IRGenState
  | [] => g
  | n :: rest => paramsStubLoop (createParameter g fid n).2 fid rest

/-- Modelled from the spec: saveCurrentScope captures the current
lexical scope (variable scope chain) so a lazily compiled body can
re-enter it later (helper outside the provided sources). -/
def saveCurrentScope (g : IRGenState) : List (List (String × Storage)) :=
  g.nameTable

/-- Modelled from the spec: genStatement lowers one statement — or a
block's statements in source order — into the current block; the
lowering of an individual statement is abstracted as one opaque
lowered-statement instruction per statement, preserving source
order. -/
def emitMarkers (g : IRGenState) : List Nat → Option IRGenState
  | [] => some g
  | t :: rest =>
    match emit g (.loweredStmt t) with
    | none => none
    | some p => emitMarkers p.2 rest

def genStatement (g : IRGenState) (body : FuncBody) : Option IRGenState :=
  match body with
  | .block _ _ _ stmts => emitMarkers g stmts
  | .expr tag _ => (emit g (.loweredStmt tag)).map (fun p => p.2)

/-- ESTreeIRGen::initCaptureStateInES5Function: no-op unless the
semantic record flags inner arrow functions; otherwise capture "this"
(the receiver parameter), "new.target" (a fresh GetNewTargetInst) and —
only when an inner arrow uses it — "arguments" (a fresh
CreateArgumentsInst), each into a fresh anonymous frame variable of
the function's scope recorded in the context. -/
def initCaptureStateInES5Function (g : IRGenState) : Option IRGenState :=
  match g.functionContext with
  | none => none
  | some c =>
    match c.data.semInfo with
    | none => none
    | some semInfo =>
      if semInfo.containsArrowFunctions = false then some g
      else
        let fid := c.data.function
        match genAnonymousLabelNameCtx g "this" with
        | none => none
        | some (n1, g0) =>
          let v1 := (createVariable g0 fid n1).1
          let g1 := setCtxData (createVariable g0 fid n1).2
            (fun d => { d with capturedThis := some v1 })
          match builderGetFunction g1 with
          | none => none
          | some bf =>
            match getThisParameter g1 bf with
            | none => none
            | some thisP =>
              match emitStoreTo g1 (.paramRef thisP) (.frameVar v1) with
              | none => none
              | some g2 =>
                match genAnonymousLabelNameCtx g2 "new.target" with
                | none => none
                | some (n2, g3) =>
                  let v2 := (createVariable g3 fid n2).1
                  let g4 := setCtxData (createVariable g3 fid n2).2
                    (fun d => { d with capturedNewTarget := Value.varRef v2 })
                  match emit g4 .getNewTarget with
                  | none => none
                  | some (nt, g5) =>
                    match emitStoreTo g5 (.instRef nt) (.frameVar v2) with
                    | none => none
                    | some g6 =>
                      if semInfo.containsArrowFunctionsUsingArguments then
                        match genAnonymousLabelNameCtx g6 "arguments" with
                        | none => none
                        | some (n3, g7) =>
                          let v3 := (createVariable g7 fid n3).1
                          let g8 := setCtxData (createVariable g7 fid n3).2
                            (fun d => { d with capturedArguments := some v3 })
                          match emit g8 .createArguments with
                          | none => none
                          | some (ca, g9) =>
                            emitStoreTo g9 (.instRef ca) (.frameVar v3)
                      else some g6

/-! ### Function epilogue -/

/-- Number of successors of an instruction (only branches have one
here). -/
def numSuccessors : InstrData → Nat
  | .branch _ => 1
  | _ => 0

/-- Terminator::getSuccessor(0). -/
def getSuccessor0 : InstrData → Nat
  | .branch dest => dest
  | _ => 0

/-- Whether an instruction uses the given basic block. -/
def instrUsesBlock (d : InstrData) (b : Nat) : Bool :=
  match d with
  | .branch dest => dest == b
  | _ => false

/-- The users of a basic block: ids of all instructions referencing
it. -/
def blockUsers (g : IRGenState) (b : Nat) : List Nat :=
  ((g.blocks.map (fun blk => blk.instrs)).flatten.filter
    (fun i => instrUsesBlock i.data b)).map (fun i => i.id)

/-- Insert a list of instructions immediately before the instruction
with id `tid` (first occurrence). -/
def insertListBefore : List Instr → Nat → List Instr → List Instr
  | [], _, _ => []
  | i :: rest, tid, moved =>
    if i.id = tid then moved ++ i :: rest else i :: insertListBefore rest tid moved

/-- Erase the instruction with id `tid` (first occurrence). -/
def eraseInstrFromList : List Instr → Nat → List Instr
  | [], _ => []
  | i :: rest, tid => if i.id = tid then rest else i :: eraseInstrFromList rest tid

/-- Find the data of instruction `iid` inside block `b`. -/
def findInstrInBlock (g : IRGenState) (b : Nat) (iid : Nat) : Option Instr :=
  match findBlock g b with
  | none => none
  | some blk => blk.instrs.find? (fun i => i.id == iid)

/-- The merge step of emitFunctionEpilogue: move all instructions of
`nb` before the entry terminator `tid` (living in block `tb`), erase
the terminator, and delete the now empty block `nb`. -/
def mergeEntryAndNextBlock (g : IRGenState) (tb tid nb : Nat) : IRGenState :=
  match findBlock g nb with
  | none => g
  | some nbBlk =>
    let g := updBlock g tb
      (fun blk => { blk with instrs := insertListBefore blk.instrs tid nbBlk.instrs })
    let g := updBlock g tb
      (fun blk => { blk with instrs := eraseInstrFromList blk.instrs tid })
    { g with blocks := g.blocks.filter (fun blk => blk.id != nb) }

/-- ESTreeIRGen::emitFunctionEpilogue: if a return value is supplied,
emit a return at the end location of the current function's source
range; then, if the entry terminator's sole successor has the
terminator as its only user, merge that successor into the entry block
and delete both the terminator and the successor; finally clear the
function's cached statement count.  The source reads
`nextBlock->getNumUsers()` without a null check after assigning
nextBlock only under `getNumSuccessors() == 1`; the null dereference is
modelled as `none`. -/
def emitFunctionEpilogue (g0 : IRGenState) (returnValue : Option Value) : Option IRGenState :=
  let step1 : Option IRGenState :=
    match returnValue with
    | none => some g0
    | some v =>
      match builderGetFunction g0 with
      | none => none
      | some bf =>
        match findFunction g0 bf with
        | none => none
        | some f =>
          let g := setLocation g0 (convertEndToLocation f.range)
          (emit g (.ret v)).map (fun p => p.2)
  match step1 with
  | none => none
  | some g =>
    match g.functionContext with
    | none => none
    | some c =>
      match c.data.entryTerminator with
      | none => none
      | some (tb, tid) =>
        match findInstrInBlock g tb tid with
        | none => none
        | some t =>
          let nextBlock : Option Nat :=
            if numSuccessors t.data = 1 then some (getSuccessor0 t.data) else none
          match nextBlock with
          | none => none
          | some nb =>
            let users := blockUsers g nb
            let g :=
              if users.length = 1 ∧ tid ∈ users then
                let g := mergeEntryAndNextBlock g tb tid nb
                setCtxData g (fun d => { d with entryTerminator := none })
              else g
            some (clearStatementCount g c.data.function)

/-! ### Function lowering (mutual cluster, by fuel)

The C++ recursion genES5Function → emitFunctionPrologue →
genFunctionDeclaration → genES5Function is presented with an explicit
fuel argument; every call strictly decreases the fuel, and exhausted
fuel yields `none`. -/

mutual

/-- ESTreeIRGen::genES5Function: create the IR function and set its
lazy-closure alias; when the body is a block flagged as a lazy
function body, record the resumption descriptor (captured scope,
buffer id, node kind, node range) and materialize only the stub
parameters; otherwise lower the function fully. -/
def genES5Function (fuel : Nat) (g : IRGenState) (originalName : String)
    (lazyClosureAlias : Option Nat) (node : FuncNode) : Option (Nat × IRGenState) :=
  match fuel with
  | 0 => none
  | fuel + 1 =>
    let r := createFunction g originalName .es5Function node.strict node.body.range
    let fid := r.1
    let g := updFunction r.2 fid (fun f => { f with lazyClosureAlias := lazyClosureAlias })
    match node.body with
    | .block true bufId _ _ =>
      let g := updFunction g fid (fun f =>
        { f with
          lazyScope := some (saveCurrentScope g)
          lazySource := some
            { bufferId := bufId, nodeKind := node.kind, functionRange := node.range } })
      let g := (createParameter g fid "this").2
      let g := paramsStubLoop g fid node.params
      some (fid, g)
    | _ => genES5FunctionRest fuel g fid node

/-- The non-lazy tail of genES5Function: push a lowering context, emit
the prologue, initialize capture state, lower the body, emit the
epilogue, and return the current context's function. -/
def genES5FunctionRest (fuel : Nat) (g : IRGenState) (fid : Nat) (node : FuncNode) :
    Option (Nat × IRGenState) :=
  match fuel with
  | 0 => none
  | fuel + 1 =>
    let g := mkFunctionContext g fid (some node.getSemInfo)
    match emitFunctionPrologue fuel g node.params with
    | none => none
    | some g =>
      match initCaptureStateInES5Function g with
      | none => none
      | some g =>
        match genStatement g node.body with
        | none => none
        | some g =>
          match emitFunctionEpilogue g (some .litUndefined) with
          | none => none
          | some g =>
            match g.functionContext with
            | none => none
            | some c => some (c.data.function, destroyFunctionContext g)

/-- ESTreeIRGen::genFunctionDeclaration: look up the hoisted storage
for the function's name (it must exist), lower the function, create
the closure and store it into that storage. -/
def genFunctionDeclaration (fuel : Nat) (g : IRGenState) (func : FuncNode) :
    Option IRGenState :=
  match fuel with
  | 0 => none
  | fuel + 1 =>
    match func.idName with
    | none => none
    | some functionName =>
      match ntLookup g.nameTable functionName with
      | none => none
      | some funcStorage =>
        match genES5Function fuel g functionName none func with
        | none => none
        | some (newFunc, g) =>
          match emit g (.createFunction newFunc) with
          | none => none
          | some (newClosure, g) =>
            emitStoreTo g (.instRef newClosure) funcStorage

/-- The hoisted-closure generation loop of emitFunctionPrologue. -/
def genClosures (fuel : Nat) (g : IRGenState) (l : List FuncNode) : Option IRGenState :=
  match fuel with
  | 0 => none
  | fuel + 1 =>
    match l with
    | [] => some g
    | fd :: rest =>
      match genFunctionDeclaration fuel g fd with
      | none => none
      | some g => genClosures fuel g rest

/-- ESTreeIRGen::emitFunctionPrologue: create the entry block; declare
and undefined-initialize hoisted variables; reserve storage slots for
hoisted function declarations; create the implicit this parameter and
each formal with its immediately-stored fresh storage; generate the
hoisted function declarations' closures; then open the second block,
recording the branch to it as the entry terminator. -/
def emitFunctionPrologue (fuel : Nat) (g : IRGenState) (params : List String) :
    Option IRGenState :=
  match fuel with
  | 0 => none
  | fuel + 1 =>
    match g.functionContext with
    | none => none
    | some c =>
      match c.data.semInfo with
      | none => none
      | some semInfo =>
        let fid := c.data.function
        match findFunction g fid with
        | none => none
        | some newFunc =>
          let g := setLocation g newFunc.range.startLoc
          let re := createBasicBlock g fid
          let entry := re.1
          let g := setInsertionBlock re.2 (some entry)
          match declsLoop g fid semInfo.decls with
          | none => none
          | some g =>
            match closureDeclLoop g fid semInfo.closures with
            | none => none
            | some g =>
              let g := (createParameter g fid "this").2
              match paramsLoop g fid params with
              | none => none
              | some g =>
                match genClosures fuel g semInfo.closures with
                | none => none
                | some g =>
                  let rn := createBasicBlock g fid
                  let nextB := rn.1
                  match emit rn.2 (.branch nextB) with
                  | none => none
                  | some (tid, g) =>
                    let g := setCtxData g
                      (fun d => { d with entryTerminator := some (entry, tid) })
                    some (setInsertionBlock g (some nextB))

end

/-- ESTreeIRGen::genFunctionExpression: open a fresh name-table scope;
for a named expression synthesize a temporary closure variable bound
under an anonymous generated name in the current function's scope and
under the function's own name in the fresh scope; lower the function
with the temporary as its lazy-closure alias; create the closure and
store it through the temporary; the fresh scope closes on return. -/
def genFunctionExpression (fuel : Nat) (g : IRGenState) (FE : FuncNode)
    (nameHint : String) : Option (Value × IRGenState) :=
  let g := { g with nameTable := ntPush g.nameTable }
  let setup : Option (Option Nat × String × IRGenState) :=
    match FE.idName with
    | none => some (none, nameHint, g)
    | some origName =>
      match g.functionContext with
      | none => none
      | some c =>
        match genAnonymousLabelNameCtx g "closure" with
        | none => none
        | some (closureName, g) =>
          let rv := createVariable g c.data.function closureName
          let tv := rv.1
          let g := { rv.2 with
            nameTable := ntInsertIntoScope rv.2.nameTable c.data.scopeRef closureName
              (Storage.frameVar tv) }
          let g := { g with
            nameTable := ntInsert g.nameTable origName (Storage.frameVar tv) }
          some (some tv, origName, g)
  match setup with
  | none => none
  | some (tempClosureVar, originalNameIden, g) =>
    match genES5Function fuel g originalNameIden tempClosureVar FE with
    | none => none
    | some (newFunc, g) =>
      match emit g (.createFunction newFunc) with
      | none => none
      | some (closure, g) =>
        let after : Option IRGenState :=
          match tempClosureVar with
          | some tv => emitStoreTo g (.instRef closure) (Storage.frameVar tv)
          | none => some g
        match after with
        | none => none
        | some g => some (Value.instRef closure, { g with nameTable := ntPop g.nameTable })

/-- ESTreeIRGen::genArrowFunctionExpression: create an IR function of
arrow kind, push a lowering context, emit the parameter prologue,
copy the captured this/new.target/arguments handles from the
lexically enclosing context, lower the body, emit an epilogue with an
implicit undefined return, and create the closure only after the
context (and with it the builder state) is restored. -/
def genArrowFunctionExpression (fuel : Nat) (g : IRGenState) (AF : FuncNode)
    (nameHint : String) : Option (Value × IRGenState) :=
  let r := createFunction g nameHint .es6Arrow AF.strict AF.range
  let fid := r.1
  let g := mkFunctionContext r.2 fid (some AF.getSemInfo)
  match emitFunctionPrologue fuel g AF.params with
  | none => none
  | some g =>
    match g.functionContext with
    | none => none
    | some c =>
      match c.oldContext with
      | none => none
      | some prev =>
        let g := setCtxData g (fun d =>
          { d with
            capturedThis := prev.data.capturedThis
            capturedNewTarget := prev.data.capturedNewTarget
            capturedArguments := prev.data.capturedArguments })
        match genStatement g AF.body with
        | none => none
        | some g =>
          match emitFunctionEpilogue g (some .litUndefined) with
          | none => none
          | some g =>
            let g := destroyFunctionContext g
            (emit g (.createFunction fid)).map (fun p => (Value.instRef p.1, p.2))

/-! ### Semantic validator (entry points and function context) -/

/-- A node of the AST as seen by semantic validation, carrying whether
the node violates an always-on semantic rule, whether it violates a
strict-mode-only rule, whether it carries a "use strict" directive
prologue, and its children. -/
inductive VNode : Type where
  | mk (errorAlways : Bool) (errorIfStrict : Bool) (useStrictDirective : Bool)
      (children : List VNode) : VNode

mutual

/-- Modelled from the spec: the validator's traversal records every
semantic error it finds at the visited node in the external diagnostic
sink and keeps traversing all children (validation never stops early);
strictness is the inherited strictness or the node's own directive.
The traversal bodies (SemanticValidator.cpp) are outside the provided
sources.  Returns the number of errors recorded. -/
def nodeErrors (strict : Bool) : VNode → Nat
  | .mk ea es d cs =>
    (if ea || (es && (strict || d)) then 1 else 0) + listErrors (strict || d) cs

def listErrors (strict : Bool) : List VNode → Nat
  | [] => 0
  | c :: cs => nodeErrors strict c + listErrors strict cs

end

/-- The semantic validator object: it saves the external sink's error
count at construction (SemanticValidator.h: initialErrorCount_). -/
structure SemanticValidator where
  initialErrorCount : Nat

/-- Modelled from the spec: SemanticValidator::doIt validates the whole
AST, recording errors in the external sink, and succeeds iff no new
error was recorded since the validator's construction.  The body of
doIt is outside the provided sources; only the saved initial error
count (SemanticValidator.h) and the call sites are.  Returns the
success flag and the sink's new error count. -/
def SemanticValidator.doIt (v : SemanticValidator) (sink : Nat) (root : VNode) : Bool × Nat :=
  let sink2 := sink + nodeErrors false root
  (sink2 == v.initialErrorCount, sink2)

/-- Modelled from the spec: SemanticValidator::doFunction validates one
function with the given strictness, same success criterion as doIt. -/
def SemanticValidator.doFunction (v : SemanticValidator) (sink : Nat)
    (functionNode : VNode) (strict : Bool) : Bool × Nat :=
  let sink2 := sink + nodeErrors strict functionNode
  (sink2 == v.initialErrorCount, sink2)

/-- sem::validateAST: constructs a validator against the current sink
count and runs doIt. -/
def validateAST (sinkErrorCount : Nat) (root : VNode) : Bool × Nat :=
  SemanticValidator.doIt { initialErrorCount := sinkErrorCount } sinkErrorCount root

/-- sem::validateFunctionAST: constructs a validator against the
current sink count and runs doFunction. -/
def validateFunctionAST (sinkErrorCount : Nat) (functionNode : VNode) (strict : Bool) :
    Bool × Nat :=
  SemanticValidator.doFunction { initialErrorCount := sinkErrorCount } sinkErrorCount
    functionNode strict

/-- The validator's per-function context chain (sem::FunctionContext):
only the previous-context link matters here. -/
inductive SemFnCtx : Type where
  | mk (strictMode : Bool) (oldContextValue : Option SemFnCtx) : SemFnCtx

def SemFnCtx.oldContextValue : SemFnCtx → Option SemFnCtx
  | .mk _ o => o

/-- The validator state visible to its FunctionContext: the active
context pointer. -/
structure SemValidatorState where
  funcCtx : Option SemFnCtx

/-- Modelled from the spec: sem::FunctionContext's constructor saves
the validator's active context pointer as oldContextValue_ and
installs itself (constructor body is outside the provided sources;
the field and isGlobalScope accessor are in SemanticValidator.h). -/
def semFunctionContextCreate (v : SemValidatorState) (strictMode : Bool) : SemValidatorState :=
  { funcCtx := some (SemFnCtx.mk strictMode v.funcCtx) }

/-- Modelled from the spec: sem::FunctionContext's destructor restores
the validator's active context pointer from oldContextValue_. -/
def semFunctionContextDestroy (v : SemValidatorState) : SemValidatorState :=
  match v.funcCtx with
  | none => v
  | some c => { funcCtx := c.oldContextValue }

/-- sem::FunctionContext::isGlobalScope: true iff there is no saved
previous context. -/
def SemFnCtx.isGlobalScope (c : SemFnCtx) : Bool := c.oldContextValue.isNone

/-! ### GC cell construction contract -/

/-- The shape/behavior descriptor of a heap object; finalize records
whether the descriptor declares a finalizer (finalize_ != nullptr). -/
structure CellVTable where
  finalize : Bool
deriving DecidableEq

/-- The slice of allocator state the construction contract consults. -/
structure GCState where
  mostRecentFinalizable : Option Nat
  nextObjectID : Nat
deriving DecidableEq

/-- GC::isMostRecentFinalizableObj. -/
def GCState.isMostRecentFinalizableObj (gc : GCState) (cell : Nat) : Bool :=
  gc.mostRecentFinalizable == some cell

/-- A constructed GC cell header: descriptor pointer and debug
allocation id. -/
structure GCCell where
  vtp : CellVTable
  debugAllocationId : Nat
deriving DecidableEq

/-- GCCell::GCCell: constructing a cell whose vtable declares a
finalizer asserts that the cell is the allocator's most recently
registered finalizable object; a violation is a program-fatal check,
modelled as `none`. -/
def constructGCCell (gc : GCState) (vtp : CellVTable) (self : Nat) : Option GCCell :=
  if !vtp.finalize || gc.isMostRecentFinalizableObj self then
    some { vtp := vtp, debugAllocationId := gc.nextObjectID }
  else
    none

/-! ### Lemmas about the state primitives -/

theorem find?_cons_eq {α : Type} (p : α → Bool) (a : α) (t : List α) :
    (a :: t).find? p = if p a then some a else t.find? p := by
  cases h : p a <;> simp [h]

theorem find?_map_upd {α : Type} (key : α → Nat) (l : List α) (k k2 : Nat) (u : α → α)
    (hu : ∀ x, key (u x) = key x) :
    (l.map (fun x => if key x == k then u x else x)).find? (fun x => key x == k2)
      = if k2 = k then (l.find? (fun x => key x == k2)).map u
        else l.find? (fun x => key x == k2) := by
  induction l with
  | nil => by_cases h : k2 = k <;> simp [h]
  | cons a t ih =>
    simp only [List.map_cons, find?_cons_eq]
    rw [ih]
    by_cases hak : key a = k
    · by_cases hk2 : k2 = k
      · subst hk2
        simp [hak, hu]
      · have e1 : key (u a) ≠ k2 := by rw [hu, hak]; omega
        have e2 : key a ≠ k2 := by rw [hak]; omega
        have hk2b : k ≠ k2 := fun h => hk2 h.symm
        simp [hak, hk2, e1, e2, hk2b]
    · by_cases hak2 : key a = k2
      · have hne : ¬ k2 = k := by omega
        simp [hak, hak2, hne]
      · simp [hak, hak2]

theorem findFunction_updFunction (g : IRGenState) (fid fid2 : Nat)
    (u : IRFunction → IRFunction) (hu : ∀ f, (u f).id = f.id) :
    findFunction (updFunction g fid u) fid2
      = if fid2 = fid then (findFunction g fid2).map u else findFunction g fid2 := by
  unfold findFunction updFunction
  exact find?_map_upd (fun f => f.id) g.functions fid fid2 u hu

theorem findBlock_updBlock (g : IRGenState) (b b2 : Nat)
    (u : BasicBlock → BasicBlock) (hu : ∀ blk, (u blk).id = blk.id) :
    findBlock (updBlock g b u) b2
      = if b2 = b then (findBlock g b2).map u else findBlock g b2 := by
  unfold findBlock updBlock
  exact find?_map_upd (fun blk => blk.id) g.blocks b b2 u hu

theorem findBlock_updFunction (g : IRGenState) (fid : Nat) (u : IRFunction → IRFunction) :
    findBlock (updFunction g fid u) b = findBlock g b := rfl

theorem findFunction_updBlock (g : IRGenState) (b : Nat) (u : BasicBlock → BasicBlock) :
    findFunction (updBlock g b u) fid = findFunction g fid := rfl

theorem findFunction_append_fresh (g : IRGenState) (f : IRFunction)
    (hwf : findFunction g f.id = none) :
    findFunction { g with nextId := g.nextId + 1, functions := g.functions ++ [f] } f.id
      = some f := by
  unfold findFunction at *
  simp [List.find?_append, hwf]

theorem findBlock_append_fresh (g : IRGenState) (blk : BasicBlock)
    (hwf : findBlock g blk.id = none) :
    findBlock { g with nextId := g.nextId + 1, blocks := g.blocks ++ [blk] } blk.id
      = some blk := by
  unfold findBlock at *
  simp [List.find?_append, hwf]

@[simp] theorem updFunction_blocks (g : IRGenState) (fid : Nat)
    (u : IRFunction → IRFunction) : (updFunction g fid u).blocks = g.blocks := rfl

@[simp] theorem updFunction_nameTable (g : IRGenState) (fid : Nat)
    (u : IRFunction → IRFunction) : (updFunction g fid u).nameTable = g.nameTable := rfl

@[simp] theorem updFunction_functionContext (g : IRGenState) (fid : Nat)
    (u : IRFunction → IRFunction) :
    (updFunction g fid u).functionContext = g.functionContext := rfl

@[simp] theorem updFunction_insertionBlock (g : IRGenState) (fid : Nat)
    (u : IRFunction → IRFunction) :
    (updFunction g fid u).insertionBlock = g.insertionBlock := rfl

@[simp] theorem updFunction_loc (g : IRGenState) (fid : Nat)
    (u : IRFunction → IRFunction) : (updFunction g fid u).loc = g.loc := rfl

@[simp] theorem updFunction_nextId (g : IRGenState) (fid : Nat)
    (u : IRFunction → IRFunction) : (updFunction g fid u).nextId = g.nextId := rfl

@[simp] theorem updFunction_globalProps (g : IRGenState) (fid : Nat)
    (u : IRFunction → IRFunction) : (updFunction g fid u).globalProps = g.globalProps := rfl

@[simp] theorem updFunction_contextPushes (g : IRGenState) (fid : Nat)
    (u : IRFunction → IRFunction) :
    (updFunction g fid u).contextPushes = g.contextPushes := rfl

@[simp] theorem updBlock_functions (g : IRGenState) (b : Nat)
    (u : BasicBlock → BasicBlock) : (updBlock g b u).functions = g.functions := rfl

@[simp] theorem updBlock_nameTable (g : IRGenState) (b : Nat)
    (u : BasicBlock → BasicBlock) : (updBlock g b u).nameTable = g.nameTable := rfl

@[simp] theorem updBlock_functionContext (g : IRGenState) (b : Nat)
    (u : BasicBlock → BasicBlock) :
    (updBlock g b u).functionContext = g.functionContext := rfl

@[simp] theorem updBlock_insertionBlock (g : IRGenState) (b : Nat)
    (u : BasicBlock → BasicBlock) : (updBlock g b u).insertionBlock = g.insertionBlock := rfl

@[simp] theorem updBlock_loc (g : IRGenState) (b : Nat)
    (u : BasicBlock → BasicBlock) : (updBlock g b u).loc = g.loc := rfl

@[simp] theorem updBlock_nextId (g : IRGenState) (b : Nat)
    (u : BasicBlock → BasicBlock) : (updBlock g b u).nextId = g.nextId := rfl

@[simp] theorem updBlock_globalProps (g : IRGenState) (b : Nat)
    (u : BasicBlock → BasicBlock) : (updBlock g b u).globalProps = g.globalProps := rfl

@[simp] theorem updBlock_contextPushes (g : IRGenState) (b : Nat)
    (u : BasicBlock → BasicBlock) : (updBlock g b u).contextPushes = g.contextPushes := rfl

@[simp] theorem setCtxData_functions (g : IRGenState) (u : FnCtxData → FnCtxData) :
    (setCtxData g u).functions = g.functions := by
  unfold setCtxData
  cases h : g.functionContext with
  | none => rfl
  | some c => cases c; rfl

@[simp] theorem setCtxData_blocks (g : IRGenState) (u : FnCtxData → FnCtxData) :
    (setCtxData g u).blocks = g.blocks := by
  unfold setCtxData
  cases h : g.functionContext with
  | none => rfl
  | some c => cases c; rfl

@[simp] theorem setCtxData_nameTable (g : IRGenState) (u : FnCtxData → FnCtxData) :
    (setCtxData g u).nameTable = g.nameTable := by
  unfold setCtxData
  cases h : g.functionContext with
  | none => rfl
  | some c => cases c; rfl

@[simp] theorem setCtxData_insertionBlock (g : IRGenState) (u : FnCtxData → FnCtxData) :
    (setCtxData g u).insertionBlock = g.insertionBlock := by
  unfold setCtxData
  cases h : g.functionContext with
  | none => rfl
  | some c => cases c; rfl

@[simp] theorem setCtxData_loc (g : IRGenState) (u : FnCtxData → FnCtxData) :
    (setCtxData g u).loc = g.loc := by
  unfold setCtxData
  cases h : g.functionContext with
  | none => rfl
  | some c => cases c; rfl

@[simp] theorem setCtxData_nextId (g : IRGenState) (u : FnCtxData → FnCtxData) :
    (setCtxData g u).nextId = g.nextId := by
  unfold setCtxData
  cases h : g.functionContext with
  | none => rfl
  | some c => cases c; rfl

@[simp] theorem setCtxData_globalProps (g : IRGenState) (u : FnCtxData → FnCtxData) :
    (setCtxData g u).globalProps = g.globalProps := by
  unfold setCtxData
  cases h : g.functionContext with
  | none => rfl
  | some c => cases c; rfl

@[simp] theorem setCtxData_contextPushes (g : IRGenState) (u : FnCtxData → FnCtxData) :
    (setCtxData g u).contextPushes = g.contextPushes := by
  unfold setCtxData
  cases h : g.functionContext with
  | none => rfl
  | some c => cases c; rfl

@[simp] theorem setInsertionBlock_nextId (g : IRGenState) (b : Option Nat) :
    (setInsertionBlock g b).nextId = g.nextId := rfl

@[simp] theorem setInsertionBlock_functions (g : IRGenState) (b : Option Nat) :
    (setInsertionBlock g b).functions = g.functions := rfl

@[simp] theorem setInsertionBlock_blocks (g : IRGenState) (b : Option Nat) :
    (setInsertionBlock g b).blocks = g.blocks := rfl

@[simp] theorem setInsertionBlock_nameTable (g : IRGenState) (b : Option Nat) :
    (setInsertionBlock g b).nameTable = g.nameTable := rfl

@[simp] theorem setInsertionBlock_loc (g : IRGenState) (b : Option Nat) :
    (setInsertionBlock g b).loc = g.loc := rfl

@[simp] theorem setInsertionBlock_functionContext (g : IRGenState) (b : Option Nat) :
    (setInsertionBlock g b).functionContext = g.functionContext := rfl

@[simp] theorem setInsertionBlock_globalProps (g : IRGenState) (b : Option Nat) :
    (setInsertionBlock g b).globalProps = g.globalProps := rfl

@[simp] theorem setInsertionBlock_contextPushes (g : IRGenState) (b : Option Nat) :
    (setInsertionBlock g b).contextPushes = g.contextPushes := rfl

@[simp] theorem setInsertionBlock_insertionBlock (g : IRGenState) (b : Option Nat) :
    (setInsertionBlock g b).insertionBlock = b := rfl

@[simp] theorem findBlock_setInsertionBlock (g : IRGenState) (b : Option Nat)
    (b2 : Nat) : findBlock (setInsertionBlock g b) b2 = findBlock g b2 := rfl

@[simp] theorem findFunction_setInsertionBlock (g : IRGenState) (b : Option Nat)
    (fid : Nat) : findFunction (setInsertionBlock g b) fid = findFunction g fid := rfl

@[simp] theorem setLocation_nextId (g : IRGenState) (l : Nat) :
    (setLocation g l).nextId = g.nextId := rfl

@[simp] theorem setLocation_functions (g : IRGenState) (l : Nat) :
    (setLocation g l).functions = g.functions := rfl

@[simp] theorem setLocation_blocks (g : IRGenState) (l : Nat) :
    (setLocation g l).blocks = g.blocks := rfl

@[simp] theorem setLocation_nameTable (g : IRGenState) (l : Nat) :
    (setLocation g l).nameTable = g.nameTable := rfl

@[simp] theorem setLocation_loc (g : IRGenState) (l : Nat) :
    (setLocation g l).loc = l := rfl

@[simp] theorem setLocation_functionContext (g : IRGenState) (l : Nat) :
    (setLocation g l).functionContext = g.functionContext := rfl

@[simp] theorem setLocation_globalProps (g : IRGenState) (l : Nat) :
    (setLocation g l).globalProps = g.globalProps := rfl

@[simp] theorem setLocation_contextPushes (g : IRGenState) (l : Nat) :
    (setLocation g l).contextPushes = g.contextPushes := rfl

@[simp] theorem setLocation_insertionBlock (g : IRGenState) (l : Nat) :
    (setLocation g l).insertionBlock = g.insertionBlock := rfl

@[simp] theorem findBlock_setLocation (g : IRGenState) (l : Nat) (b2 : Nat) :
    findBlock (setLocation g l) b2 = findBlock g b2 := rfl

@[simp] theorem findFunction_setLocation (g : IRGenState) (l : Nat) (fid : Nat) :
    findFunction (setLocation g l) fid = findFunction g fid := rfl

theorem setCtxData_functionContext (g : IRGenState) (u : FnCtxData → FnCtxData)
    (d : FnCtxData) (old : Option FnCtx) (h : g.functionContext = some (FnCtx.mk d old)) :
    (setCtxData g u).functionContext = some (FnCtx.mk (u d) old) := by
  unfold setCtxData
  rw [h]

@[simp] theorem findFunction_updBlock_eq (g : IRGenState) (b fid : Nat)
    (u : BasicBlock → BasicBlock) :
    findFunction (updBlock g b u) fid = findFunction g fid := rfl

@[simp] theorem findBlock_updFunction_eq (g : IRGenState) (fid b : Nat)
    (u : IRFunction → IRFunction) :
    findBlock (updFunction g fid u) b = findBlock g b := rfl

@[simp] theorem findBlock_setCtxData (g : IRGenState) (u : FnCtxData → FnCtxData)
    (b : Nat) : findBlock (setCtxData g u) b = findBlock g b := by
  unfold findBlock
  rw [setCtxData_blocks]

@[simp] theorem findFunction_setCtxData (g : IRGenState) (u : FnCtxData → FnCtxData)
    (fid : Nat) : findFunction (setCtxData g u) fid = findFunction g fid := by
  unfold findFunction
  rw [setCtxData_functions]

@[simp] theorem createFunction_fst (g : IRGenState) (n : String) (k : DefinitionKind)
    (s : Bool) (r : SMRange) : (createFunction g n k s r).1 = g.nextId := rfl

@[simp] theorem createFunction_snd_blocks (g : IRGenState) (n : String)
    (k : DefinitionKind) (s : Bool) (r : SMRange) :
    (createFunction g n k s r).2.blocks = g.blocks := rfl

@[simp] theorem createFunction_snd_nameTable (g : IRGenState) (n : String)
    (k : DefinitionKind) (s : Bool) (r : SMRange) :
    (createFunction g n k s r).2.nameTable = g.nameTable := rfl

@[simp] theorem createFunction_snd_functionContext (g : IRGenState) (n : String)
    (k : DefinitionKind) (s : Bool) (r : SMRange) :
    (createFunction g n k s r).2.functionContext = g.functionContext := rfl

@[simp] theorem createFunction_snd_insertionBlock (g : IRGenState) (n : String)
    (k : DefinitionKind) (s : Bool) (r : SMRange) :
    (createFunction g n k s r).2.insertionBlock = g.insertionBlock := rfl

@[simp] theorem createFunction_snd_loc (g : IRGenState) (n : String)
    (k : DefinitionKind) (s : Bool) (r : SMRange) :
    (createFunction g n k s r).2.loc = g.loc := rfl

@[simp] theorem createFunction_snd_nextId (g : IRGenState) (n : String)
    (k : DefinitionKind) (s : Bool) (r : SMRange) :
    (createFunction g n k s r).2.nextId = g.nextId + 1 := rfl

@[simp] theorem createFunction_snd_globalProps (g : IRGenState) (n : String)
    (k : DefinitionKind) (s : Bool) (r : SMRange) :
    (createFunction g n k s r).2.globalProps = g.globalProps := rfl

@[simp] theorem createFunction_snd_contextPushes (g : IRGenState) (n : String)
    (k : DefinitionKind) (s : Bool) (r : SMRange) :
    (createFunction g n k s r).2.contextPushes = g.contextPushes := rfl

@[simp] theorem createBasicBlock_fst (g : IRGenState) (fid : Nat) :
    (createBasicBlock g fid).1 = g.nextId := rfl

@[simp] theorem createBasicBlock_snd_functions (g : IRGenState) (fid : Nat) :
    (createBasicBlock g fid).2.functions = g.functions := rfl

@[simp] theorem createBasicBlock_snd_blocks (g : IRGenState) (fid : Nat) :
    (createBasicBlock g fid).2.blocks
      = g.blocks ++ [{ id := g.nextId, parent := fid, instrs := [] }] := rfl

@[simp] theorem createBasicBlock_snd_nameTable (g : IRGenState) (fid : Nat) :
    (createBasicBlock g fid).2.nameTable = g.nameTable := rfl

@[simp] theorem createBasicBlock_snd_functionContext (g : IRGenState) (fid : Nat) :
    (createBasicBlock g fid).2.functionContext = g.functionContext := rfl

@[simp] theorem createBasicBlock_snd_insertionBlock (g : IRGenState) (fid : Nat) :
    (createBasicBlock g fid).2.insertionBlock = g.insertionBlock := rfl

@[simp] theorem createBasicBlock_snd_loc (g : IRGenState) (fid : Nat) :
    (createBasicBlock g fid).2.loc = g.loc := rfl

@[simp] theorem createBasicBlock_snd_nextId (g : IRGenState) (fid : Nat) :
    (createBasicBlock g fid).2.nextId = g.nextId + 1 := rfl

@[simp] theorem createBasicBlock_snd_globalProps (g : IRGenState) (fid : Nat) :
    (createBasicBlock g fid).2.globalProps = g.globalProps := rfl

@[simp] theorem createBasicBlock_snd_contextPushes (g : IRGenState) (fid : Nat) :
    (createBasicBlock g fid).2.contextPushes = g.contextPushes := rfl

@[simp] theorem createParameter_fst (g : IRGenState) (fid : Nat) (n : String) :
    (createParameter g fid n).1 = g.nextId := rfl

@[simp] theorem createParameter_snd_blocks (g : IRGenState) (fid : Nat) (n : String) :
    (createParameter g fid n).2.blocks = g.blocks := rfl

@[simp] theorem createParameter_snd_nameTable (g : IRGenState) (fid : Nat) (n : String) :
    (createParameter g fid n).2.nameTable = g.nameTable := rfl

@[simp] theorem createParameter_snd_functionContext (g : IRGenState) (fid : Nat)
    (n : String) : (createParameter g fid n).2.functionContext = g.functionContext := rfl

@[simp] theorem createParameter_snd_insertionBlock (g : IRGenState) (fid : Nat)
    (n : String) : (createParameter g fid n).2.insertionBlock = g.insertionBlock := rfl

@[simp] theorem createParameter_snd_loc (g : IRGenState) (fid : Nat) (n : String) :
    (createParameter g fid n).2.loc = g.loc := rfl

@[simp] theorem createParameter_snd_nextId (g : IRGenState) (fid : Nat) (n : String) :
    (createParameter g fid n).2.nextId = g.nextId + 1 := rfl

@[simp] theorem createParameter_snd_globalProps (g : IRGenState) (fid : Nat)
    (n : String) : (createParameter g fid n).2.globalProps = g.globalProps := rfl

@[simp] theorem createParameter_snd_contextPushes (g : IRGenState) (fid : Nat)
    (n : String) : (createParameter g fid n).2.contextPushes = g.contextPushes := rfl

@[simp] theorem createVariable_fst (g : IRGenState) (fid : Nat) (n : String) :
    (createVariable g fid n).1 = g.nextId := rfl

@[simp] theorem createVariable_snd_blocks (g : IRGenState) (fid : Nat) (n : String) :
    (createVariable g fid n).2.blocks = g.blocks := rfl

@[simp] theorem createVariable_snd_nameTable (g : IRGenState) (fid : Nat) (n : String) :
    (createVariable g fid n).2.nameTable = g.nameTable := rfl

@[simp] theorem createVariable_snd_functionContext (g : IRGenState) (fid : Nat)
    (n : String) : (createVariable g fid n).2.functionContext = g.functionContext := rfl

@[simp] theorem createVariable_snd_insertionBlock (g : IRGenState) (fid : Nat)
    (n : String) : (createVariable g fid n).2.insertionBlock = g.insertionBlock := rfl

@[simp] theorem createVariable_snd_loc (g : IRGenState) (fid : Nat) (n : String) :
    (createVariable g fid n).2.loc = g.loc := rfl

@[simp] theorem createVariable_snd_nextId (g : IRGenState) (fid : Nat) (n : String) :
    (createVariable g fid n).2.nextId = g.nextId + 1 := rfl

@[simp] theorem createVariable_snd_globalProps (g : IRGenState) (fid : Nat)
    (n : String) : (createVariable g fid n).2.globalProps = g.globalProps := rfl

@[simp] theorem createVariable_snd_contextPushes (g : IRGenState) (fid : Nat)
    (n : String) : (createVariable g fid n).2.contextPushes = g.contextPushes := rfl

@[simp] theorem findBlock_createParameter (g : IRGenState) (fid : Nat) (n : String)
    (b : Nat) : findBlock (createParameter g fid n).2 b = findBlock g b := rfl

@[simp] theorem findBlock_createVariable (g : IRGenState) (fid : Nat) (n : String)
    (b : Nat) : findBlock (createVariable g fid n).2 b = findBlock g b := rfl

@[simp] theorem findBlock_createFunction (g : IRGenState) (n : String)
    (k : DefinitionKind) (s : Bool) (r : SMRange) (b : Nat) :
    findBlock (createFunction g n k s r).2 b = findBlock g b := rfl

@[simp] theorem findFunction_createBasicBlock (g : IRGenState) (fid fid2 : Nat) :
    findFunction (createBasicBlock g fid).2 fid2 = findFunction g fid2 := rfl

/-- The (id, name) parameter pairs produced when creating one parameter
per name with consecutive fresh ids starting at `i`. -/
def paramsFrom (i : Nat) : List String → List (Nat × String)
  | [] => []
  | n :: rest => (i, n) :: paramsFrom (i + 1) rest

theorem paramsFrom_names (i : Nat) (names : List String) :
    (paramsFrom i names).map (fun p => p.2) = names := by
  induction names generalizing i with
  | nil => rfl
  | cons n rest ih => simp [paramsFrom, ih]

theorem findFunction_createParameter_self (g : IRGenState) (fid : Nat) (n : String)
    (f : IRFunction) (hf : findFunction g fid = some f) :
    findFunction (createParameter g fid n).2 fid
      = some { f with params := f.params ++ [(g.nextId, n)] } := by
  show findFunction (updFunction { g with nextId := g.nextId + 1 } fid _) fid = _
  have hu : ∀ x : IRFunction,
      ({ x with params := x.params ++ [(g.nextId, n)] } : IRFunction).id = x.id :=
    fun x => rfl
  have hmid : findFunction { g with nextId := g.nextId + 1 } fid = findFunction g fid := rfl
  rw [findFunction_updFunction _ _ _ _ hu, if_pos rfl, hmid, hf]
  rfl

theorem findFunction_createVariable_self (g : IRGenState) (fid : Nat) (n : String)
    (f : IRFunction) (hf : findFunction g fid = some f) :
    findFunction (createVariable g fid n).2 fid
      = some { f with vars := f.vars ++ [(g.nextId, n)] } := by
  show findFunction (updFunction { g with nextId := g.nextId + 1 } fid _) fid = _
  have hu : ∀ x : IRFunction,
      ({ x with vars := x.vars ++ [(g.nextId, n)] } : IRFunction).id = x.id :=
    fun x => rfl
  have hmid : findFunction { g with nextId := g.nextId + 1 } fid = findFunction g fid := rfl
  rw [findFunction_updFunction _ _ _ _ hu, if_pos rfl, hmid, hf]
  rfl

theorem findFunction_createParameter_other (g : IRGenState) (fid fid2 : Nat) (n : String)
    (h : fid2 ≠ fid) :
    findFunction (createParameter g fid n).2 fid2 = findFunction g fid2 := by
  show findFunction (updFunction { g with nextId := g.nextId + 1 } fid _) fid2 = _
  have hu : ∀ x : IRFunction,
      ({ x with params := x.params ++ [(g.nextId, n)] } : IRFunction).id = x.id :=
    fun x => rfl
  rw [findFunction_updFunction _ _ _ _ hu, if_neg h]
  rfl

theorem findFunction_createVariable_other (g : IRGenState) (fid fid2 : Nat) (n : String)
    (h : fid2 ≠ fid) :
    findFunction (createVariable g fid n).2 fid2 = findFunction g fid2 := by
  show findFunction (updFunction { g with nextId := g.nextId + 1 } fid _) fid2 = _
  have hu : ∀ x : IRFunction,
      ({ x with vars := x.vars ++ [(g.nextId, n)] } : IRFunction).id = x.id :=
    fun x => rfl
  rw [findFunction_updFunction _ _ _ _ hu, if_neg h]
  rfl

theorem paramsStubLoop_spec (names : List String) (g : IRGenState) (fid : Nat)
    (f : IRFunction) (hf : findFunction g fid = some f) :
    (paramsStubLoop g fid names).blocks = g.blocks ∧
    (paramsStubLoop g fid names).nameTable = g.nameTable ∧
    (paramsStubLoop g fid names).functionContext = g.functionContext ∧
    (paramsStubLoop g fid names).contextPushes = g.contextPushes ∧
    (paramsStubLoop g fid names).insertionBlock = g.insertionBlock ∧
    (paramsStubLoop g fid names).loc = g.loc ∧
    (paramsStubLoop g fid names).globalProps = g.globalProps ∧
    findFunction (paramsStubLoop g fid names) fid
      = some { f with params := f.params ++ paramsFrom g.nextId names } := by
  induction names generalizing g f with
  | nil =>
    refine ⟨rfl, rfl, rfl, rfl, rfl, rfl, rfl, ?_⟩
    rw [paramsStubLoop, hf]
    simp [paramsFrom]
  | cons n rest ih =>
    have hmid : findFunction {g with nextId := g.nextId + 1} fid = findFunction g fid := rfl
    have hstep : findFunction (createParameter g fid n).2 fid
        = some { f with params := f.params ++ [(g.nextId, n)] } := by
      show findFunction (updFunction { g with nextId := g.nextId + 1 } fid _) fid = _
      have hu : ∀ x : IRFunction,
          ({ x with params := x.params ++ [(g.nextId, n)] } : IRFunction).id = x.id :=
        fun x => rfl
      rw [findFunction_updFunction _ _ _ _ hu, if_pos rfl, hmid, hf]
      rfl
    have hrec := ih (createParameter g fid n).2
      { f with params := f.params ++ [(g.nextId, n)] } hstep
    have hnext : (createParameter g fid n).2.nextId = g.nextId + 1 := rfl
    rw [paramsStubLoop]
    refine ⟨?_, ?_, ?_, ?_, ?_, ?_, ?_, ?_⟩
    · exact hrec.1
    · exact hrec.2.1
    · exact hrec.2.2.1
    · exact hrec.2.2.2.1
    · exact hrec.2.2.2.2.1
    · exact hrec.2.2.2.2.2.1
    · exact hrec.2.2.2.2.2.2.1
    · rw [hrec.2.2.2.2.2.2.2, hnext]
      simp [paramsFrom]

/-! ## Claim C7: GC cell construction contract -/

/-- C7: for every GCCell constructed with a vtable whose descriptor declares a
finalizer, construction succeeds exactly when the cell is the allocator's
most-recently-registered finalizable object (a violation takes the
program-fatal path, modelled as `none`); cells whose vtable declares no
finalizer are never subject to the check and always construct. -/
theorem gccell_finalizer_construction_contract (gc : GCState) (vtp : CellVTable)
    (self : Nat) :
    (vtp.finalize = true →
      ((constructGCCell gc vtp self).isSome = true ↔
        gc.isMostRecentFinalizableObj self = true)) ∧
    (vtp.finalize = false →
      constructGCCell gc vtp self
        = some { vtp := vtp, debugAllocationId := gc.nextObjectID }) := by
  constructor
  · intro h
    cases hm : gc.isMostRecentFinalizableObj self <;>
      simp [constructGCCell, h, hm]
  · intro h
    simp [constructGCCell, h]

/-- Witness for C7 at concrete inputs. -/
theorem gccell_finalizer_construction_contract_witness :
    (constructGCCell ⟨some 3, 7⟩ ⟨true⟩ 3).isSome = true ∧
    constructGCCell ⟨some 3, 7⟩ ⟨false⟩ 9 = some ⟨⟨false⟩, 7⟩ := by
  constructor
  · exact ((gccell_finalizer_construction_contract ⟨some 3, 7⟩ ⟨true⟩ 3).1 rfl).mpr
      (by decide)
  · exact (gccell_finalizer_construction_contract ⟨some 3, 7⟩ ⟨false⟩ 9).2 rfl

@[simp] theorem FnCtx_data_mk (d : FnCtxData) (o : Option FnCtx) :
    (FnCtx.mk d o).data = d := rfl

@[simp] theorem FnCtx_oldContext_mk (d : FnCtxData) (o : Option FnCtx) :
    (FnCtx.mk d o).oldContext = o := rfl

@[simp] theorem findBlock_mk (ni : Nat) (fs : List IRFunction) (bs : List BasicBlock)
    (gp : List String) (l : Nat) (ib : Option Nat)
    (nt : List (List (String × Storage))) (fc : Option FnCtx) (cp : Nat) (b : Nat) :
    findBlock ⟨ni, fs, bs, gp, l, ib, nt, fc, cp⟩ b
      = bs.find? (fun blk => blk.id == b) := rfl

@[simp] theorem find?_blocks_fold (g : IRGenState) (b : Nat) :
    g.blocks.find? (fun blk => blk.id == b) = findBlock g b := rfl

@[simp] theorem findFunction_mk (ni : Nat) (fs : List IRFunction) (bs : List BasicBlock)
    (gp : List String) (l : Nat) (ib : Option Nat)
    (nt : List (List (String × Storage))) (fc : Option FnCtx) (cp : Nat) (fid : Nat) :
    findFunction ⟨ni, fs, bs, gp, l, ib, nt, fc, cp⟩ fid
      = fs.find? (fun f => f.id == fid) := rfl

@[simp] theorem find?_functions_fold (g : IRGenState) (fid : Nat) :
    g.functions.find? (fun f => f.id == fid) = findFunction g fid := rfl

@[simp] theorem findFunction_updFunction_self (g : IRGenState) (fid : Nat)
    (u : IRFunction → IRFunction) (hu : ∀ f, (u f).id = f.id) :
    findFunction (updFunction g fid u) fid = (findFunction g fid).map u := by
  rw [findFunction_updFunction g fid fid u hu, if_pos rfl]

@[simp] theorem findBlock_updBlock_self (g : IRGenState) (b : Nat)
    (u : BasicBlock → BasicBlock) (hu : ∀ blk, (u blk).id = blk.id) :
    findBlock (updBlock g b u) b = (findBlock g b).map u := by
  rw [findBlock_updBlock g b b u hu, if_pos rfl]

@[simp] theorem setCtxData_functionContext_map (g : IRGenState) (u : FnCtxData → FnCtxData) :
    (setCtxData g u).functionContext
      = g.functionContext.map (fun c => FnCtx.mk (u c.data) c.oldContext) := by
  unfold setCtxData
  cases h : g.functionContext with
  | none => simp [h]
  | some c =>
    cases c
    simp [h, FnCtx.data, FnCtx.oldContext]

@[simp] theorem findFunction_createVariable_map (g : IRGenState) (fid fid2 : Nat)
    (n : String) :
    findFunction (createVariable g fid n).2 fid2
      = if fid2 = fid then
          (findFunction g fid2).map (fun x => { x with vars := x.vars ++ [(g.nextId, n)] })
        else findFunction g fid2 := by
  show findFunction (updFunction { g with nextId := g.nextId + 1 } fid _) fid2 = _
  have hu : ∀ x : IRFunction,
      ({ x with vars := x.vars ++ [(g.nextId, n)] } : IRFunction).id = x.id := fun x => rfl
  rw [findFunction_updFunction _ _ _ _ hu]
  rfl

@[simp] theorem findFunction_createParameter_map (g : IRGenState) (fid fid2 : Nat)
    (n : String) :
    findFunction (createParameter g fid n).2 fid2
      = if fid2 = fid then
          (findFunction g fid2).map (fun x => { x with params := x.params ++ [(g.nextId, n)] })
        else findFunction g fid2 := by
  show findFunction (updFunction { g with nextId := g.nextId + 1 } fid _) fid2 = _
  have hu : ∀ x : IRFunction,
      ({ x with params := x.params ++ [(g.nextId, n)] } : IRFunction).id = x.id := fun x => rfl
  rw [findFunction_updFunction _ _ _ _ hu]
  rfl

theorem emit_spec (g : IRGenState) (d : InstrData) (b : Nat) (blk : BasicBlock)
    (hib : g.insertionBlock = some b) (hblk : findBlock g b = some blk) :
    emit g d = some (g.nextId,
      updBlock { g with nextId := g.nextId + 1 } b
        (fun bb =>
          { bb with instrs := bb.instrs ++ [{ id := g.nextId, loc := g.loc, data := d }] })) := by
  simp only [emit, hib, hblk]

theorem emitStoreTo_frameVar_spec (g : IRGenState) (v : Value) (w b : Nat)
    (blk : BasicBlock) (hib : g.insertionBlock = some b) (hblk : findBlock g b = some blk) :
    emitStoreTo g v (.frameVar w) = some
      (updBlock { g with nextId := g.nextId + 1 } b
        (fun bb => { bb with instrs := bb.instrs ++
          [{ id := g.nextId, loc := g.loc, data := .storeFrame v w }] })) := by
  show (emit g (InstrData.storeFrame v w)).map (fun p => p.2) = _
  rw [emit_spec g _ b blk hib hblk]
  rfl

theorem genAnonymousLabelNameCtx_spec (g : IRGenState) (hint : String) (d : FnCtxData)
    (old : Option FnCtx) (hctx : g.functionContext = some (FnCtx.mk d old)) :
    genAnonymousLabelNameCtx g hint
      = some ("?anon_" ++ toString d.anonymousLabelCounter ++ "_" ++ hint,
          setCtxData g
            (fun x => { x with anonymousLabelCounter := x.anonymousLabelCounter + 1 })) := by
  simp only [genAnonymousLabelNameCtx, hctx, FnCtx.data]

@[simp] theorem getThisParameter_setCtxData (g : IRGenState) (u : FnCtxData → FnCtxData)
    (fid : Nat) : getThisParameter (setCtxData g u) fid = getThisParameter g fid := by
  unfold getThisParameter
  rw [findFunction_setCtxData]

@[simp] theorem getThisParameter_createVariable (g : IRGenState) (fid fid2 : Nat)
    (n : String) :
    getThisParameter (createVariable g fid n).2 fid2 = getThisParameter g fid2 := by
  unfold getThisParameter
  have hu : ∀ x : IRFunction,
      ({ x with vars := x.vars ++ [(g.nextId, n)] } : IRFunction).id = x.id := fun x => rfl
  have h : findFunction (createVariable g fid n).2 fid2
      = if fid2 = fid then
          (findFunction g fid2).map (fun x => { x with vars := x.vars ++ [(g.nextId, n)] })
        else findFunction g fid2 := by
    show findFunction (updFunction { g with nextId := g.nextId + 1 } fid _) fid2 = _
    rw [findFunction_updFunction _ _ _ _ hu]
    rfl
  rw [h]
  by_cases hf : fid2 = fid
  · rw [if_pos hf]
    cases findFunction g fid2 <;> rfl
  · rw [if_neg hf]

@[simp] theorem getThisParameter_updBlock (g : IRGenState) (b : Nat)
    (u : BasicBlock → BasicBlock) (fid : Nat) :
    getThisParameter (updBlock g b u) fid = getThisParameter g fid := rfl

theorem setCtxData_setCtxData (g : IRGenState) (u v : FnCtxData → FnCtxData) :
    setCtxData (setCtxData g u) v = setCtxData g (fun d => v (u d)) := by
  unfold setCtxData
  cases h : g.functionContext with
  | none => simp [h]
  | some c =>
    cases c
    simp [h]

@[simp] theorem setCtxData_createVariable_functionContext (g : IRGenState)
    (fid : Nat) (n : String) :
    (createVariable g fid n).2.functionContext = g.functionContext := rfl

/-! ## Claim C1: lazy function stubs -/

/-- C1: for a function-like node whose body is a block flagged as a lazy
function body, genES5Function returns an IR function carrying the implicit
this parameter followed by one parameter per formal, in source order and with
the source parameter names, and a lazy descriptor recording the body's buffer
id, the node's kind, the node's source range, and the saved current scope,
while lowering no body statements (no block and no instruction is created)
and pushing no lowering context. -/
theorem genES5Function_lazy (fuel : Nat) (g : IRGenState) (originalName : String)
    (alias0 : Option Nat) (node : FuncNode) (bufId : Nat) (brange : SMRange)
    (stmts : List Nat)
    (hbody : node.body = FuncBody.block true bufId brange stmts)
    (hfresh : findFunction g g.nextId = none) :
    ∃ g2 f,
      genES5Function (fuel + 1) g originalName alias0 node = some (g.nextId, g2) ∧
      findFunction g2 g.nextId = some f ∧
      f.params.map (fun p => p.2) = "this" :: node.params ∧
      f.lazySource
        = some { bufferId := bufId, nodeKind := node.kind, functionRange := node.range } ∧
      f.lazyScope = some (saveCurrentScope g) ∧
      f.lazyClosureAlias = alias0 ∧
      f.defKind = .es5Function ∧
      f.name = originalName ∧
      f.strict = node.strict ∧
      f.range = brange ∧
      g2.blocks = g.blocks ∧
      g2.contextPushes = g.contextPushes ∧
      g2.functionContext = g.functionContext ∧
      g2.nameTable = g.nameTable := by
  obtain ⟨idn, ps, st, rg, kd, bd, sd, sc, caf, cafu, lb⟩ := node
  simp only [FuncNode.body] at hbody
  subst hbody
  simp only [FuncNode.params, FuncNode.kind, FuncNode.range, FuncNode.strict]
  have hf0 : findFunction
      (createFunction g originalName DefinitionKind.es5Function st brange).2 g.nextId
      = some { id := g.nextId, name := originalName, defKind := .es5Function,
               strict := st, range := brange, params := [], vars := [],
               lazyClosureAlias := none, lazyScope := none, lazySource := none,
               statementCount := none } :=
    findFunction_append_fresh g _ hfresh
  have hu1 : ∀ x : IRFunction,
      ({ x with lazyClosureAlias := alias0 } : IRFunction).id = x.id := fun x => rfl
  have hf1 : findFunction
      (updFunction (createFunction g originalName DefinitionKind.es5Function st brange).2
        g.nextId (fun f => { f with lazyClosureAlias := alias0 })) g.nextId
      = some { id := g.nextId, name := originalName, defKind := .es5Function,
               strict := st, range := brange, params := [], vars := [],
               lazyClosureAlias := alias0, lazyScope := none, lazySource := none,
               statementCount := none } := by
    rw [findFunction_updFunction _ _ _ _ hu1, if_pos rfl, hf0]
    rfl
  have hu2 : ∀ x : IRFunction,
      ({ x with lazyScope := some g.nameTable, lazySource := some { bufferId := bufId, nodeKind := kd, functionRange := rg } } : IRFunction).id = x.id := fun x => rfl
  have hf2 : findFunction
      (updFunction
        (updFunction (createFunction g originalName DefinitionKind.es5Function st brange).2
          g.nextId (fun f => { f with lazyClosureAlias := alias0 }))
        g.nextId (fun f => { f with lazyScope := some g.nameTable, lazySource := some { bufferId := bufId, nodeKind := kd, functionRange := rg } }))
      g.nextId
      = some { id := g.nextId, name := originalName, defKind := .es5Function,
               strict := st, range := brange, params := [], vars := [],
               lazyClosureAlias := alias0, lazyScope := some g.nameTable,
               lazySource := some { bufferId := bufId, nodeKind := kd, functionRange := rg },
               statementCount := none } := by
    rw [findFunction_updFunction _ _ _ _ hu2, if_pos rfl, hf1]
    rfl
  have hf3 : findFunction
      ((createParameter
        (updFunction
          (updFunction (createFunction g originalName DefinitionKind.es5Function st brange).2
            g.nextId (fun f => { f with lazyClosureAlias := alias0 }))
          g.nextId (fun f => { f with lazyScope := some g.nameTable, lazySource := some { bufferId := bufId, nodeKind := kd, functionRange := rg } }))
        g.nextId "this").2) g.nextId
      = some { id := g.nextId, name := originalName, defKind := .es5Function,
               strict := st, range := brange, params := [(g.nextId + 1, "this")], vars := [],
               lazyClosureAlias := alias0, lazyScope := some g.nameTable,
               lazySource := some { bufferId := bufId, nodeKind := kd, functionRange := rg },
               statementCount := none } :=
    findFunction_createParameter_self _ _ _ _ hf2
  have spec := paramsStubLoop_spec ps
    ((createParameter
      (updFunction
        (updFunction (createFunction g originalName DefinitionKind.es5Function st brange).2
          g.nextId (fun f => { f with lazyClosureAlias := alias0 }))
        g.nextId (fun f => { f with lazyScope := some g.nameTable, lazySource := some { bufferId := bufId, nodeKind := kd, functionRange := rg } }))
      g.nextId "this").2) g.nextId _ hf3
  refine ⟨paramsStubLoop
      ((createParameter
        (updFunction
          (updFunction (createFunction g originalName DefinitionKind.es5Function st brange).2
            g.nextId (fun f => { f with lazyClosureAlias := alias0 }))
          g.nextId (fun f => { f with lazyScope := some g.nameTable, lazySource := some { bufferId := bufId, nodeKind := kd, functionRange := rg } }))
        g.nextId "this").2) g.nextId ps,
    { id := g.nextId, name := originalName, defKind := .es5Function, strict := st,
      range := brange,
      params := [(g.nextId + 1, "this")] ++ paramsFrom (g.nextId + 2) ps,
      vars := [], lazyClosureAlias := alias0, lazyScope := some g.nameTable,
      lazySource := some { bufferId := bufId, nodeKind := kd, functionRange := rg },
      statementCount := none },
    rfl, ?_, ?_, rfl, rfl, rfl, rfl, rfl, rfl, rfl, ?_, ?_, ?_, ?_⟩
  · exact spec.2.2.2.2.2.2.2
  · simp [paramsFrom_names]
  · rw [spec.1]
    simp
  · rw [spec.2.2.2.1]
    simp
  · rw [spec.2.2.1]
    simp
  · rw [spec.2.1]
    simp

/-- Concrete inputs for witnesses. -/
def emptyIRGenState : IRGenState :=
  { nextId := 0, functions := [], blocks := [], globalProps := [], loc := 0,
    insertionBlock := none, nameTable := [], functionContext := none, contextPushes := 0 }

def lazyNodeW : FuncNode :=
  .mk (some "f") ["a", "b"] true ⟨3, 9⟩ .functionExpression
    (.block true 5 ⟨4, 8⟩ []) [] [] false false 0

/-- Witness for C1 at a concrete lazy node. -/
theorem genES5Function_lazy_witness :
    ∃ g2 f,
      genES5Function 1 emptyIRGenState "f" (some 9) lazyNodeW = some (0, g2) ∧
      findFunction g2 0 = some f ∧
      f.params.map (fun p => p.2) = ["this", "a", "b"] ∧
      f.lazySource
        = some { bufferId := 5, nodeKind := .functionExpression, functionRange := ⟨3, 9⟩ } ∧
      g2.contextPushes = 0 ∧ g2.blocks = [] := by
  obtain ⟨g2, f, h1, h2, h3, h4, _, _, _, _, _, _, hb, hp, _, _⟩ :=
    genES5Function_lazy 0 emptyIRGenState "f" (some 9) lazyNodeW 5 ⟨4, 8⟩ [] rfl rfl
  refine ⟨g2, f, h1, h2, ?_, h4, hp, hb⟩
  rw [h3]
  rfl

/-! ### Lemmas for the epilogue -/

theorem find?_last_of_pre (pre : List Instr) (x : Instr) (tid : Nat)
    (hpre : ∀ i ∈ pre, i.id ≠ tid) (hx : x.id = tid) :
    (pre ++ [x]).find? (fun i => i.id == tid) = some x := by
  induction pre with
  | nil => simp [hx]
  | cons a rest ih =>
    have ha : (a.id == tid) = false := by
      simp
      exact hpre a (by simp)
    simp only [List.cons_append, List.find?]
    rw [ha]
    exact ih (fun i hi => hpre i (by simp [hi]))

theorem insertListBefore_append (pre : List Instr) (term : Instr) (rest : List Instr)
    (moved : List Instr) (tid : Nat) (hpre : ∀ i ∈ pre, i.id ≠ tid) (ht : term.id = tid) :
    insertListBefore (pre ++ term :: rest) tid moved = pre ++ moved ++ term :: rest := by
  induction pre with
  | nil => simp [insertListBefore, ht]
  | cons a prest ih =>
    have ha : ¬ (a.id = tid) := hpre a (by simp)
    simp only [List.cons_append, insertListBefore, ha, if_neg, if_false]
    exact congrArg (List.cons a) (ih (fun i hi => hpre i (by simp [hi])))

theorem eraseInstrFromList_append (pre : List Instr) (term : Instr) (rest : List Instr)
    (tid : Nat) (hpre : ∀ i ∈ pre, i.id ≠ tid) (ht : term.id = tid) :
    eraseInstrFromList (pre ++ term :: rest) tid = pre ++ rest := by
  induction pre with
  | nil => simp [eraseInstrFromList, ht]
  | cons a prest ih =>
    have ha : ¬ (a.id = tid) := hpre a (by simp)
    simp only [List.cons_append, eraseInstrFromList, ha, if_false]
    exact congrArg (List.cons a) (ih (fun i hi => hpre i (by simp [hi])))

theorem find?_filter_ne_id (l : List BasicBlock) (nb tb : Nat) (h : tb ≠ nb) :
    (l.filter (fun blk => blk.id != nb)).find? (fun blk => blk.id == tb)
      = l.find? (fun blk => blk.id == tb) := by
  induction l with
  | nil => rfl
  | cons a rest ih =>
    by_cases ha : a.id = nb
    · have h1 : (a.id != nb) = false := by simp [ha]
      have h2 : (a.id == tb) = false := by
        simp [ha]
        omega
      simp only [List.filter, h1, find?_cons_eq, h2, if_false]
      exact ih
    · have h1 : (a.id != nb) = true := by simp [ha]
      simp only [List.filter, h1, find?_cons_eq]
      by_cases h2 : a.id = tb
      · simp [h2]
      · have h3 : (a.id == tb) = false := by simp [h2]
        simp only [h3, if_false]
        exact ih

theorem find?_filter_self_id (l : List BasicBlock) (nb : Nat) :
    (l.filter (fun blk => blk.id != nb)).find? (fun blk => blk.id == nb) = none := by
  induction l with
  | nil => rfl
  | cons a rest ih =>
    by_cases ha : a.id = nb
    · have h1 : (a.id != nb) = false := by simp [ha]
      simp only [List.filter, h1]
      exact ih
    · have h1 : (a.id != nb) = true := by simp [ha]
      have h2 : (a.id == nb) = false := by simp [ha]
      simp only [List.filter, h1, find?_cons_eq, h2, if_false]
      exact ih

theorem filter_length_of_found (l : List BasicBlock) (nb : Nat)
    (hnodup : (l.map (fun blk => blk.id)).Nodup)
    (hfound : (l.find? (fun blk => blk.id == nb)).isSome = true) :
    (l.filter (fun blk => blk.id != nb)).length + 1 = l.length := by
  induction l with
  | nil => simp at hfound
  | cons a rest ih =>
    by_cases ha : a.id = nb
    · have h1 : (a.id != nb) = false := by simp [ha]
      simp only [List.filter, h1]
      have hnotin : ∀ blk ∈ rest, blk.id ≠ nb := by
        intro blk hb heq
        have h4 : a.id ∈ List.map (fun blk => blk.id) rest := by
          rw [ha, ← heq]
          exact List.mem_map_of_mem _ hb
        exact (List.nodup_cons.mp hnodup).1 h4
      have : rest.filter (fun blk => blk.id != nb) = rest := by
        apply List.filter_eq_self.mpr
        intro blk hb
        simp [hnotin blk hb]
      rw [this]
      simp
    · have h1 : (a.id != nb) = true := by simp [ha]
      have h2 : (a.id == nb) = false := by simp [ha]
      simp only [List.filter, h1]
      have hfound2 : (rest.find? (fun blk => blk.id == nb)).isSome = true := by
        simp only [List.find?, h2] at hfound
        exact hfound
      have := ih (List.nodup_cons.mp hnodup).2 hfound2
      simp only [List.length_cons]
      omega

theorem blockUsers_updBlock_append (g : IRGenState) (b x : Nat) (i : Instr)
    (h : instrUsesBlock i.data x = false) :
    blockUsers (updBlock g b (fun bb => { bb with instrs := bb.instrs ++ [i] })) x
      = blockUsers g x := by
  unfold blockUsers updBlock
  simp only []
  induction g.blocks with
  | nil => rfl
  | cons a rest ih =>
    simp only [List.map_cons, List.flatten_cons, List.filter_append, List.map_append]
    congr 1
    · by_cases ha : a.id = b
      · have h1 : (a.id == b) = true := by simp [ha]
        simp [h1, h, List.filter_append]
      · have h1 : (a.id == b) = false := by simp [ha]
        simp [h1]

/-! ## Claim C2: capture-state initialization -/

/-- C2: for an ES5 function lowered non-lazily, initCaptureStateInES5Function
allocates no capture storage at all when the semantic record's
containsArrowFunctions flag is false; when the flag is true it allocates
exactly one this capture variable storing the function's receiver parameter
and one new.target capture variable storing a freshly computed new-target
value, and an arguments capture variable storing a freshly created arguments
object if and only if containsArrowFunctionsUsingArguments is also set. -/
theorem initCaptureState_spec (g : IRGenState) (d : FnCtxData) (old : Option FnCtx)
    (si : SemInfo) (b : Nat) (blk : BasicBlock) (f : IRFunction) (thisP : Nat)
    (hctx : g.functionContext = some (FnCtx.mk d old))
    (hsem : d.semInfo = some si)
    (hib : g.insertionBlock = some b)
    (hblk : findBlock g b = some blk)
    (hthis : getThisParameter g blk.parent = some thisP)
    (hf : findFunction g d.function = some f) :
    (si.containsArrowFunctions = false → initCaptureStateInES5Function g = some g) ∧
    (si.containsArrowFunctions = true →
      ∃ g2, initCaptureStateInES5Function g = some g2 ∧
        findFunction g2 d.function = some { f with vars := f.vars ++
          ([(g.nextId, "?anon_" ++ toString d.anonymousLabelCounter ++ "_" ++ "this"),
            (g.nextId + 2,
              "?anon_" ++ toString (d.anonymousLabelCounter + 1) ++ "_" ++ "new.target")]
           ++ (if si.containsArrowFunctionsUsingArguments then
                [(g.nextId + 5,
                  "?anon_" ++ toString (d.anonymousLabelCounter + 2) ++ "_" ++ "arguments")]
              else [])) } ∧
        findBlock g2 b = some { blk with instrs := blk.instrs ++
          ([{ id := g.nextId + 1, loc := g.loc,
              data := .storeFrame (.paramRef thisP) g.nextId },
            { id := g.nextId + 3, loc := g.loc, data := .getNewTarget },
            { id := g.nextId + 4, loc := g.loc,
              data := .storeFrame (.instRef (g.nextId + 3)) (g.nextId + 2) }]
           ++ (if si.containsArrowFunctionsUsingArguments then
                [{ id := g.nextId + 6, loc := g.loc, data := .createArguments },
                 { id := g.nextId + 7, loc := g.loc,
                   data := .storeFrame (.instRef (g.nextId + 6)) (g.nextId + 5) }]
               else [])) } ∧
        g2.functionContext = some (FnCtx.mk { d with
          capturedThis := some g.nextId,
          capturedNewTarget := Value.varRef (g.nextId + 2),
          capturedArguments :=
            (if si.containsArrowFunctionsUsingArguments then some (g.nextId + 5)
             else d.capturedArguments),
          anonymousLabelCounter := d.anonymousLabelCounter +
            (if si.containsArrowFunctionsUsingArguments then 3 else 2) } old) ∧
        g2.nameTable = g.nameTable ∧
        g2.contextPushes = g.contextPushes) := by
  constructor
  · intro hflag
    unfold initCaptureStateInES5Function
    rw [hctx]
    simp only [FnCtx_data_mk]
    rw [hsem]
    simp only []
    rw [if_pos hflag]
  · intro hflag
    by_cases hua : si.containsArrowFunctionsUsingArguments = true
    · unfold initCaptureStateInES5Function
      rw [hctx]
      simp only [FnCtx_data_mk]
      rw [hsem]
      simp only []
      rw [if_neg (by simp [hflag])]
      rw [genAnonymousLabelNameCtx_spec g "this" d old hctx]
      simp only []
      simp only [hua, if_pos rfl]
      simp [builderGetFunction, emitStoreTo, emit, genAnonymousLabelNameCtx,
        hib, hblk, hthis, hctx, hua]
      exact ⟨⟨f, hf, rfl, rfl, rfl, rfl, rfl, rfl, rfl, rfl, rfl, rfl, rfl⟩, hsem⟩
    · have hua2 : si.containsArrowFunctionsUsingArguments = false := by
        cases h : si.containsArrowFunctionsUsingArguments
        · rfl
        · exact absurd h hua
      unfold initCaptureStateInES5Function
      rw [hctx]
      simp only [FnCtx_data_mk]
      rw [hsem]
      simp only []
      rw [if_neg (by simp [hflag])]
      rw [genAnonymousLabelNameCtx_spec g "this" d old hctx]
      simp only []
      simp only [hua2]
      simp [builderGetFunction, emitStoreTo, emit, genAnonymousLabelNameCtx,
        hib, hblk, hthis, hctx, hua2]
      exact ⟨⟨f, hf, rfl, rfl, rfl, rfl, rfl, rfl, rfl, rfl, rfl, rfl, rfl⟩, hsem⟩

/-- Concrete inputs for the C2 witness. -/
def fW : IRFunction :=
  { id := 0, name := "w", defKind := .es5Function, strict := false, range := ⟨0, 0⟩,
    params := [(1, "this")], vars := [], lazyClosureAlias := none, lazyScope := none,
    lazySource := none, statementCount := none }

def dW : FnCtxData :=
  { function := 0, semInfo := some ⟨[], [], true, true, 0⟩, scopeRef := 0,
    capturedThis := none, capturedNewTarget := .litUndefined, capturedArguments := none,
    entryTerminator := none, labelsSize := 0, anonymousLabelCounter := 0,
    savedInsertionBlock := none, savedLoc := 0 }

def gW2 : IRGenState :=
  { nextId := 3, functions := [fW], blocks := [⟨2, 0, []⟩], globalProps := [], loc := 7,
    insertionBlock := some 2, nameTable := [[]], functionContext := some (FnCtx.mk dW none),
    contextPushes := 1 }

/-- Witness for C2 at a concrete function with both capture flags set. -/
theorem initCaptureState_spec_witness :
    ∃ g2, initCaptureStateInES5Function gW2 = some g2 ∧
      findFunction g2 0 = some { fW with vars :=
        [(3, "?anon_0_this"), (5, "?anon_1_new.target"), (8, "?anon_2_arguments")] } ∧
      findBlock g2 2 = some ⟨2, 0,
        [⟨4, 7, .storeFrame (.paramRef 1) 3⟩,
         ⟨6, 7, .getNewTarget⟩,
         ⟨7, 7, .storeFrame (.instRef 6) 5⟩,
         ⟨9, 7, .createArguments⟩,
         ⟨10, 7, .storeFrame (.instRef 9) 8⟩]⟩ := by
  obtain ⟨g2, h1, h2, h3, _⟩ :=
    (initCaptureState_spec gW2 dW none ⟨[], [], true, true, 0⟩ 2 ⟨2, 0, []⟩ fW 1
      rfl rfl rfl rfl rfl rfl).2 rfl
  exact ⟨g2, h1, h2, h3⟩

/-! ## Claim C3: function epilogue -/

theorem blocks_length_updBlock (g : IRGenState) (b : Nat) (u : BasicBlock → BasicBlock) :
    (updBlock g b u).blocks.length = g.blocks.length := by
  simp [updBlock]

theorem blocks_ids_updBlock (g : IRGenState) (b : Nat) (u : BasicBlock → BasicBlock)
    (hu : ∀ blk, (u blk).id = blk.id) :
    (updBlock g b u).blocks.map (fun blk => blk.id)
      = g.blocks.map (fun blk => blk.id) := by
  unfold updBlock
  simp only [List.map_map]
  apply List.map_congr_left
  intro blk _
  by_cases h : blk.id = b
  · simp [h, hu]
  · simp [h]

@[simp] theorem findBlock_clearStatementCount (g : IRGenState) (fid b : Nat) :
    findBlock (clearStatementCount g fid) b = findBlock g b := rfl

@[simp] theorem clearStatementCount_blocks (g : IRGenState) (fid : Nat) :
    (clearStatementCount g fid).blocks = g.blocks := rfl

@[simp] theorem clearStatementCount_functionContext (g : IRGenState) (fid : Nat) :
    (clearStatementCount g fid).functionContext = g.functionContext := rfl

theorem clearStatementCount_spec (g : IRGenState) (fid : Nat) (f2 : IRFunction)
    (h : findFunction (clearStatementCount g fid) fid = some f2) :
    f2.statementCount = none := by
  unfold clearStatementCount at h
  have hu : ∀ x : IRFunction,
      ({ x with statementCount := none } : IRFunction).id = x.id := fun x => rfl
  rw [findFunction_updFunction _ _ _ _ hu, if_pos rfl] at h
  cases hff : findFunction g fid with
  | none =>
    rw [hff] at h
    cases h
  | some f0 =>
    rw [hff] at h
    simp only [Option.map_some'] at h
    cases h
    rfl

/-- C3: when a return value is supplied, emitFunctionEpilogue emits a return
instruction located at the end of the current function's source range (into
the insertion block, which post-prologue is the entry terminator's successor);
then, if the entry terminator's sole successor has the terminator as its only
user, the successor's instructions are all moved into the entry block and both
the branch and the now empty successor block are deleted, leaving one fewer
basic block; if the successor has any other user both blocks remain; in all
cases the function's cached statement count is cleared. -/
theorem emitFunctionEpilogue_spec (g : IRGenState) (v : Value) (d : FnCtxData)
    (old : Option FnCtx) (nb tb tid tl : Nat) (nbblk tbblk : BasicBlock)
    (fIns : IRFunction) (pre : List Instr)
    (hib : g.insertionBlock = some nb)
    (hnbblk : findBlock g nb = some nbblk)
    (hparent : findFunction g nbblk.parent = some fIns)
    (hctx : g.functionContext = some (FnCtx.mk d old))
    (hterm : d.entryTerminator = some (tb, tid))
    (htb : findBlock g tb = some tbblk)
    (htbnb : tb ≠ nb)
    (hshape : tbblk.instrs = pre ++ [⟨tid, tl, .branch nb⟩])
    (hpre : ∀ i ∈ pre, i.id ≠ tid)
    (hmoved : ∀ i ∈ nbblk.instrs, i.id ≠ tid)
    (hretid : g.nextId ≠ tid)
    (hnodup : (g.blocks.map (fun blk => blk.id)).Nodup) :
    ∃ g2, emitFunctionEpilogue g (some v) = some g2 ∧
      (blockUsers g nb = [tid] →
        findBlock g2 tb = some { tbblk with instrs := pre ++ (nbblk.instrs ++
          [⟨g.nextId, convertEndToLocation fIns.range, .ret v⟩]) } ∧
        findBlock g2 nb = none ∧
        g2.blocks.length + 1 = g.blocks.length ∧
        g2.functionContext
          = some (FnCtx.mk { d with entryTerminator := none } old)) ∧
      ((blockUsers g nb).length ≠ 1 ∨ tid ∉ blockUsers g nb →
        findBlock g2 tb = some tbblk ∧
        findBlock g2 nb = some { nbblk with instrs := nbblk.instrs ++
          [⟨g.nextId, convertEndToLocation fIns.range, .ret v⟩] } ∧
        g2.blocks.length = g.blocks.length ∧
        g2.functionContext = some (FnCtx.mk d old)) ∧
      (∀ f2, findFunction g2 d.function = some f2 → f2.statementCount = none) := by
  have huapp : ∀ (i : Instr), ∀ blk : BasicBlock,
      ({ blk with instrs := blk.instrs ++ [i] } : BasicBlock).id = blk.id :=
    fun i blk => rfl
  -- the return-emission step
  have hbf : builderGetFunction g = some nbblk.parent := by
    simp [builderGetFunction, hib, hnbblk]
  have hgl : findBlock (setLocation g (convertEndToLocation fIns.range)) nb = some nbblk :=
    hnbblk
  have hemit := emit_spec (setLocation g (convertEndToLocation fIns.range)) (.ret v) nb
    nbblk hib hgl
  set retInstr : Instr :=
    { id := g.nextId, loc := convertEndToLocation fIns.range, data := .ret v } with hret
  set g1 : IRGenState :=
    updBlock { setLocation g (convertEndToLocation fIns.range) with
      nextId := g.nextId + 1 } nb
      (fun bb => { bb with instrs := bb.instrs ++ [retInstr] }) with hg1
  have hemit2 : emit (setLocation g (convertEndToLocation fIns.range)) (InstrData.ret v)
      = some (g.nextId, g1) := hemit
  unfold emitFunctionEpilogue
  rw [hbf]
  simp only []
  rw [hparent]
  simp only []
  rw [hemit2]
  simp only [Option.map_some']
  have hctx1 : g1.functionContext = some (FnCtx.mk d old) := hctx
  rw [hctx1]
  simp only [FnCtx_data_mk]
  rw [hterm]
  simp only []
  -- the terminator is found in its block
  have hfb1tb : findBlock g1 tb = some tbblk := by
    rw [hg1, findBlock_updBlock _ _ _ _ (huapp retInstr), if_neg htbnb]
    exact htb
  have hfind : findInstrInBlock g1 tb tid = some ⟨tid, tl, .branch nb⟩ := by
    unfold findInstrInBlock
    rw [hfb1tb]
    simp only []
    rw [hshape]
    exact find?_last_of_pre pre _ tid hpre rfl
  rw [hfind]
  simp only []
  simp only [numSuccessors, getSuccessor0]
  rw [if_pos trivial]
  simp only []
  -- users are unchanged by the appended return
  have husers : blockUsers g1 nb = blockUsers g nb := by
    rw [hg1]
    exact blockUsers_updBlock_append _ nb nb retInstr rfl
  rw [husers]
  -- facts about g1's blocks
  have hfb1nb : findBlock g1 nb
      = some { nbblk with instrs := nbblk.instrs ++ [retInstr] } := by
    rw [hg1, findBlock_updBlock_self _ _ _ (huapp retInstr)]
    have hmid : findBlock { setLocation g (convertEndToLocation fIns.range) with
        nextId := g.nextId + 1 } nb = findBlock g nb := rfl
    rw [hmid, hnbblk]
    rfl
  have hlen1 : g1.blocks.length = g.blocks.length := by
    rw [hg1]
    exact blocks_length_updBlock _ nb _
  have hids1 : g1.blocks.map (fun blk => blk.id) = g.blocks.map (fun blk => blk.id) := by
    rw [hg1]
    exact blocks_ids_updBlock _ nb _ (huapp retInstr)
  by_cases hcond : (blockUsers g nb).length = 1 ∧ tid ∈ blockUsers g nb
  · rw [if_pos hcond]
    -- merge happens
    unfold mergeEntryAndNextBlock
    rw [hfb1nb]
    simp only []
    set u1 : BasicBlock → BasicBlock := fun blk =>
      { blk with instrs := insertListBefore blk.instrs tid (nbblk.instrs ++ [retInstr]) } with hu1def
    set u2 : BasicBlock → BasicBlock := fun blk =>
      { blk with instrs := eraseInstrFromList blk.instrs tid } with hu2def
    have hu1 : ∀ blk : BasicBlock, (u1 blk).id = blk.id := fun blk => rfl
    have hu2 : ∀ blk : BasicBlock, (u2 blk).id = blk.id := fun blk => rfl
    set gM : IRGenState := updBlock (updBlock g1 tb u1) tb u2 with hgM
    have hMtb : findBlock gM tb = some { tbblk with instrs := pre ++
        (nbblk.instrs ++ [retInstr]) } := by
      rw [hgM, findBlock_updBlock_self _ _ _ hu2, findBlock_updBlock_self _ _ _ hu1,
        hfb1tb]
      show some (u2 (u1 tbblk)) = _
      rw [hu1def, hu2def]
      simp only []
      rw [hshape]
      rw [insertListBefore_append pre _ [] _ tid hpre rfl]
      have hpre2 : ∀ i ∈ pre ++ (nbblk.instrs ++ [retInstr]), i.id ≠ tid := by
        intro i hi
        rcases List.mem_append.mp hi with h1 | h2
        · exact hpre i h1
        · rcases List.mem_append.mp h2 with h3 | h4
          · exact hmoved i h3
          · rw [List.mem_singleton.mp h4]
            exact hretid
      have := eraseInstrFromList_append (pre ++ (nbblk.instrs ++ [retInstr]))
        ⟨tid, tl, .branch nb⟩ [] tid hpre2 rfl
      simp only [List.append_assoc] at this ⊢
      rw [this]
      simp
    have hMids : gM.blocks.map (fun blk => blk.id) = g.blocks.map (fun blk => blk.id) := by
      rw [hgM, blocks_ids_updBlock _ tb u2 hu2, blocks_ids_updBlock _ tb u1 hu1, hids1]
    have hMlen : gM.blocks.length = g.blocks.length := by
      rw [hgM, blocks_length_updBlock, blocks_length_updBlock, hlen1]
    have hMnb : (findBlock gM nb).isSome = true := by
      rw [hgM, findBlock_updBlock _ _ _ _ hu2, findBlock_updBlock _ _ _ _ hu1]
      rw [if_neg (fun hh => htbnb hh.symm), if_neg (fun hh => htbnb hh.symm), hfb1nb]
      rfl
    refine ⟨_, rfl, fun _ => ?_, fun hk => ?_, fun f2 hf2 => ?_⟩
    · -- merge conclusions
      refine ⟨?_, ?_, ?_, ?_⟩
      · rw [findBlock_clearStatementCount, findBlock_setCtxData, findBlock_mk]
        rw [find?_filter_ne_id _ nb tb htbnb, find?_blocks_fold]
        exact hMtb
      · rw [findBlock_clearStatementCount, findBlock_setCtxData, findBlock_mk]
        exact find?_filter_self_id _ nb
      · rw [clearStatementCount_blocks, setCtxData_blocks]
        show (gM.blocks.filter (fun blk => blk.id != nb)).length + 1 = _
        rw [filter_length_of_found gM.blocks nb (hMids ▸ hnodup) ?hfound, hMlen]
        case hfound =>
          rw [find?_blocks_fold]
          exact hMnb
      · rw [clearStatementCount_functionContext, setCtxData_functionContext_map]
        have hfc2 : ({ gM with blocks := gM.blocks.filter (fun blk => blk.id != nb) }
            : IRGenState).functionContext = g.functionContext := rfl
        rw [hfc2, hctx]
        rfl
    · -- contradiction: the keep-hypothesis denies the merge condition
      exact absurd hcond (by
        rcases hk with h1 | h2
        · exact fun hc => h1 hc.1
        · exact fun hc => h2 hc.2)
    · exact clearStatementCount_spec _ d.function f2 hf2
  · rw [if_neg hcond]
    refine ⟨_, rfl, fun hm => ?_, fun _ => ?_, fun f2 hf2 => ?_⟩
    · -- contradiction: merge hypothesis contradicts hcond
      exact absurd ⟨by rw [hm]; rfl, by rw [hm]; exact List.mem_singleton_self tid⟩ hcond
    · refine ⟨?_, ?_, ?_, ?_⟩
      · rw [findBlock_clearStatementCount]
        exact hfb1tb
      · rw [findBlock_clearStatementCount]
        exact hfb1nb
      · rw [clearStatementCount_blocks]
        exact hlen1
      · rw [clearStatementCount_functionContext]
        exact hctx1
    · exact clearStatementCount_spec _ d.function f2 hf2

/-- Concrete inputs for the C3 witness. -/
def fW3 : IRFunction :=
  { id := 0, name := "e", defKind := .es5Function, strict := false, range := ⟨0, 44⟩,
    params := [], vars := [], lazyClosureAlias := none, lazyScope := none,
    lazySource := none, statementCount := some 2 }

def dW3 : FnCtxData :=
  { function := 0, semInfo := none, scopeRef := 0, capturedThis := none,
    capturedNewTarget := .litUndefined, capturedArguments := none,
    entryTerminator := some (10, 5), labelsSize := 0, anonymousLabelCounter := 0,
    savedInsertionBlock := none, savedLoc := 0 }

def gW3 : IRGenState :=
  { nextId := 30, functions := [fW3],
    blocks := [⟨10, 0, [⟨5, 0, .branch 20⟩]⟩, ⟨20, 0, []⟩], globalProps := [], loc := 3,
    insertionBlock := some 20, nameTable := [], functionContext := some (FnCtx.mk dW3 none),
    contextPushes := 0 }

/-- Witness for C3: a function whose only post-entry block has no other
incoming edge collapses to one basic block on epilogue, with the return
positioned at the end of the source range. -/
theorem emitFunctionEpilogue_spec_witness :
    ∃ g2, emitFunctionEpilogue gW3 (some .litUndefined) = some g2 ∧
      findBlock g2 10 = some ⟨10, 0, [⟨30, 44, .ret .litUndefined⟩]⟩ ∧
      findBlock g2 20 = none ∧
      g2.blocks.length + 1 = gW3.blocks.length := by
  obtain ⟨g2, h1, hmerge, _, _⟩ :=
    emitFunctionEpilogue_spec gW3 .litUndefined dW3 none 20 10 5 0 ⟨20, 0, []⟩
      ⟨10, 0, [⟨5, 0, .branch 20⟩]⟩ fW3 []
      rfl rfl rfl rfl rfl rfl (by decide) rfl (by simp) (by simp) (by decide) (by decide)
  obtain ⟨ha, hb, hc, _⟩ := hmerge rfl
  exact ⟨g2, h1, ha, hb, hc⟩

/-! ## Claim C6: validation success criterion -/

/-- C6: validateAST and validateFunctionAST return success iff no new semantic
error was recorded in the external diagnostic sink since the validator's
construction (the saved initial count is compared against the sink's count);
individual errors never abort the traversal, and re-running over the same
unmodified AST records the same number of errors. -/
theorem validate_success_iff_no_new_errors (sink : Nat) (root fnNode : VNode)
    (strict : Bool) :
    ((validateAST sink root).1 = true ↔ (validateAST sink root).2 = sink) ∧
    (validateAST sink root).2 = sink + nodeErrors false root ∧
    ((validateFunctionAST sink fnNode strict).1 = true ↔
      (validateFunctionAST sink fnNode strict).2 = sink) ∧
    (validateFunctionAST sink fnNode strict).2 = sink + nodeErrors strict fnNode ∧
    (validateAST (validateAST sink root).2 root).2 - (validateAST sink root).2
      = (validateAST sink root).2 - sink ∧
    (∀ es d cs, nodeErrors strict (VNode.mk true es d cs)
      = 1 + listErrors (strict || d) cs) := by
  refine ⟨?_, rfl, ?_, rfl, ?_, ?_⟩
  · simp [validateAST, SemanticValidator.doIt]
  · simp [validateFunctionAST, SemanticValidator.doFunction]
  · simp [validateAST, SemanticValidator.doIt]
  · intro es d cs
    simp [nodeErrors]

/-! ## Claim C9: function-context stacks are strict LIFO -/

/-- C9: constructing a lowering FunctionContext saves the generator's current
context pointer and builder state and installs the new context as current;
destruction restores the saved pointer (and the name-table scope and builder
state), so destruction right after construction is the identity on the
current-context pointer; the validator's FunctionContext keeps the same
discipline through its saved previous-context link. -/
theorem function_context_stack_lifo (g : IRGenState) (fid : Nat) (si : Option SemInfo)
    (v : SemValidatorState) (strict : Bool) :
    (∃ d, (mkFunctionContext g fid si).functionContext
        = some (FnCtx.mk d g.functionContext) ∧ d.function = fid ∧
        d.savedInsertionBlock = g.insertionBlock ∧ d.savedLoc = g.loc) ∧
    (destroyFunctionContext (mkFunctionContext g fid si)).functionContext
      = g.functionContext ∧
    (destroyFunctionContext (mkFunctionContext g fid si)).insertionBlock
      = g.insertionBlock ∧
    (destroyFunctionContext (mkFunctionContext g fid si)).loc = g.loc ∧
    (destroyFunctionContext (mkFunctionContext g fid si)).nameTable = g.nameTable ∧
    (semFunctionContextDestroy (semFunctionContextCreate v strict)).funcCtx
      = v.funcCtx ∧
    (∃ c, (semFunctionContextCreate v strict).funcCtx = some c ∧
      c.oldContextValue = v.funcCtx) := by
  exact ⟨⟨_, rfl, rfl, rfl, rfl⟩, rfl, rfl, rfl, rfl, rfl, ⟨_, rfl, rfl⟩⟩

/-! ### Well-formed generator states and step preservation -/

/-- Every id held by the module (function ids, block ids, instruction
ids) is below the id supply; this is what the freshness of
IRBuilder-created ids means for the embedded state. -/
def WF (g : IRGenState) : Prop :=
  (∀ f ∈ g.functions, f.id < g.nextId) ∧
  (∀ blk ∈ g.blocks, blk.id < g.nextId ∧ ∀ i ∈ blk.instrs, i.id < g.nextId)

theorem findFunction_none_of_ge (g : IRGenState) (k : Nat) (hwf : WF g)
    (hk : g.nextId ≤ k) : findFunction g k = none := by
  apply List.find?_eq_none.mpr
  intro f hf
  have := hwf.1 f hf
  simp only [beq_iff_eq]
  omega

theorem findBlock_none_of_ge (g : IRGenState) (b : Nat) (hwf : WF g)
    (hb : g.nextId ≤ b) : findBlock g b = none := by
  apply List.find?_eq_none.mpr
  intro blk hblk
  have := (hwf.2 blk hblk).1
  simp only [beq_iff_eq]
  omega

theorem WF_congr (g g' : IRGenState) (hn : g'.nextId = g.nextId)
    (hf : g'.functions = g.functions) (hb : g'.blocks = g.blocks) (hwf : WF g) : WF g' := by
  constructor
  · intro f hfm
    rw [hf] at hfm
    rw [hn]
    exact hwf.1 f hfm
  · intro blk hbm
    rw [hb] at hbm
    rw [hn]
    exact hwf.2 blk hbm

theorem WF_mono_nextId (g g' : IRGenState) (hn : g.nextId ≤ g'.nextId)
    (hf : g'.functions = g.functions) (hb : g'.blocks = g.blocks) (hwf : WF g) : WF g' := by
  constructor
  · intro f hfm
    rw [hf] at hfm
    have := hwf.1 f hfm
    omega
  · intro blk hbm
    rw [hb] at hbm
    have := hwf.2 blk hbm
    exact ⟨by omega, fun i hi => by have := this.2 i hi; omega⟩

theorem WF_updFunction (g : IRGenState) (fid : Nat) (u : IRFunction → IRFunction)
    (hu : ∀ f, (u f).id = f.id) (hwf : WF g) : WF (updFunction g fid u) := by
  constructor
  · intro f hf
    obtain ⟨f0, hmem, heq⟩ := List.mem_map.mp hf
    have hlt := hwf.1 f0 hmem
    show f.id < g.nextId
    rw [← heq]
    cases hcase : (f0.id == fid) <;> simp [hcase, hu] <;> omega
  · intro blk hb
    exact hwf.2 blk hb

theorem WF_updFunction_bump (g : IRGenState) (fid : Nat) (u : IRFunction → IRFunction)
    (hu : ∀ f, (u f).id = f.id) (hwf : WF g) :
    WF (updFunction { g with nextId := g.nextId + 1 } fid u) := by
  have h1 : WF { g with nextId := g.nextId + 1 } :=
    WF_mono_nextId g _ (Nat.le_succ _) rfl rfl hwf
  exact WF_updFunction _ fid u hu h1

theorem WF_createParameter (g : IRGenState) (fid : Nat) (n : String) (hwf : WF g) :
    WF (createParameter g fid n).2 :=
  WF_updFunction_bump g fid _ (fun f => rfl) hwf

theorem WF_createVariable (g : IRGenState) (fid : Nat) (n : String) (hwf : WF g) :
    WF (createVariable g fid n).2 :=
  WF_updFunction_bump g fid _ (fun f => rfl) hwf

theorem WF_createFunction (g : IRGenState) (n : String) (k : DefinitionKind) (s : Bool)
    (r : SMRange) (hwf : WF g) : WF (createFunction g n k s r).2 := by
  constructor
  · intro f hf
    have hf' : f ∈ g.functions ++
        [{ id := g.nextId, name := n, defKind := k, strict := s, range := r, params := [],
           vars := [], lazyClosureAlias := none, lazyScope := none, lazySource := none,
           statementCount := none }] := hf
    show f.id < g.nextId + 1
    rcases List.mem_append.mp hf' with h | h
    · have := hwf.1 f h
      omega
    · simp only [List.mem_singleton] at h
      subst h
      simp
  · intro blk hb
    have := hwf.2 blk hb
    show blk.id < g.nextId + 1 ∧ ∀ i ∈ blk.instrs, i.id < g.nextId + 1
    exact ⟨by omega, fun i hi => by have := this.2 i hi; omega⟩

theorem WF_createBasicBlock (g : IRGenState) (fid : Nat) (hwf : WF g) :
    WF (createBasicBlock g fid).2 := by
  constructor
  · intro f hf
    have := hwf.1 f hf
    show f.id < g.nextId + 1
    omega
  · intro blk hb
    have hb' : blk ∈ g.blocks ++ [{ id := g.nextId, parent := fid, instrs := [] }] := hb
    show blk.id < g.nextId + 1 ∧ ∀ i ∈ blk.instrs, i.id < g.nextId + 1
    rcases List.mem_append.mp hb' with h | h
    · have := hwf.2 blk h
      exact ⟨by omega, fun i hi => by have := this.2 i hi; omega⟩
    · simp only [List.mem_singleton] at h
      subst h
      exact ⟨by simp, by simp⟩

theorem WF_updBlock_append_bump (g : IRGenState) (b : Nat) (i : Instr) (hwf : WF g)
    (hi : i.id < g.nextId + 1) :
    WF (updBlock { g with nextId := g.nextId + 1 } b
      (fun bb => { bb with instrs := bb.instrs ++ [i] })) := by
  constructor
  · intro f hf
    have hf' : f ∈ g.functions := hf
    have := hwf.1 f hf'
    show f.id < g.nextId + 1
    omega
  · intro blk hb
    have hb' : blk ∈ g.blocks.map
        (fun bb => if bb.id == b then { bb with instrs := bb.instrs ++ [i] } else bb) := hb
    obtain ⟨bb, hmem, heq⟩ := List.mem_map.mp hb'
    have hwb := hwf.2 bb hmem
    show blk.id < g.nextId + 1 ∧ ∀ j ∈ blk.instrs, j.id < g.nextId + 1
    cases hcase : (bb.id == b) with
    | true =>
      rw [if_pos hcase] at heq
      subst heq
      refine ⟨by have := hwb.1; simp; omega, ?_⟩
      intro j hj
      rcases List.mem_append.mp hj with h | h
      · have := hwb.2 j h
        omega
      · simp only [List.mem_singleton] at h
        subst h
        exact hi
    | false =>
      rw [if_neg (by simp [hcase])] at heq
      subst heq
      exact ⟨by have := hwb.1; omega, fun j hj => by have := hwb.2 j hj; omega⟩

theorem WF_emit (g : IRGenState) (d : InstrData) (i : Nat) (g' : IRGenState)
    (h : emit g d = some (i, g')) (hwf : WF g) :
    WF g' ∧ g'.nextId = g.nextId + 1 ∧ i = g.nextId := by
  unfold emit at h
  cases hib : g.insertionBlock with
  | none => rw [hib] at h; cases h
  | some b =>
    rw [hib] at h
    simp only [] at h
    cases hblk : findBlock g b with
    | none => rw [hblk] at h; cases h
    | some blk =>
      rw [hblk] at h
      simp only [Option.some.injEq, Prod.mk.injEq] at h
      obtain ⟨h1, h2⟩ := h
      subst h1
      rw [← h2]
      exact ⟨WF_updBlock_append_bump g b _ hwf (by simp), rfl, rfl⟩

theorem emit_eq (g : IRGenState) (d : InstrData) (i : Nat) (g' : IRGenState)
    (h : emit g d = some (i, g')) :
    ∃ b blk, g.insertionBlock = some b ∧ findBlock g b = some blk ∧ i = g.nextId ∧
      g' = updBlock { g with nextId := g.nextId + 1 } b
        (fun bb =>
          { bb with instrs := bb.instrs ++ [{ id := g.nextId, loc := g.loc, data := d }] }) := by
  unfold emit at h
  cases hib : g.insertionBlock with
  | none => rw [hib] at h; cases h
  | some b =>
    rw [hib] at h
    simp only [] at h
    cases hblk : findBlock g b with
    | none => rw [hblk] at h; cases h
    | some blk =>
      rw [hblk] at h
      simp only [Option.some.injEq, Prod.mk.injEq] at h
      exact ⟨b, blk, rfl, hblk, h.1.symm, h.2.symm⟩

theorem find?_append_single {α : Type} (l : List α) (x : α) (p : α → Bool)
    (hx : p x = false) : (l ++ [x]).find? p = l.find? p := by
  induction l with
  | nil => simp [List.find?, hx]
  | cons a t ih =>
    by_cases h : p a = true
    · simp [find?_cons_eq, h]
    · have h' : p a = false := by
        cases hpa : p a
        · rfl
        · exact absurd hpa h
      simp only [List.cons_append, find?_cons_eq, h', if_false]
      exact ih

theorem findFunction_createFunction_old (g : IRGenState) (n : String) (k : DefinitionKind)
    (s : Bool) (r : SMRange) (fid : Nat) (hne : fid ≠ g.nextId) :
    findFunction (createFunction g n k s r).2 fid = findFunction g fid := by
  show (g.functions ++ [_]).find? (fun f : IRFunction => f.id == fid) = _
  rw [find?_append_single]
  · rfl
  · show (g.nextId == fid) = false
    simp only [beq_eq_false_iff_ne]
    exact Ne.symm hne

theorem findBlock_createBasicBlock_old (g : IRGenState) (fid b : Nat)
    (hne : b ≠ g.nextId) :
    findBlock (createBasicBlock g fid).2 b = findBlock g b := by
  show (g.blocks ++ [_]).find? (fun blk : BasicBlock => blk.id == b) = _
  rw [find?_append_single]
  · rfl
  · show (g.nextId == b) = false
    simp only [beq_eq_false_iff_ne]
    exact Ne.symm hne

theorem findBlock_createBasicBlock_self (g : IRGenState) (fid : Nat) (hwf : WF g) :
    findBlock (createBasicBlock g fid).2 g.nextId
      = some { id := g.nextId, parent := fid, instrs := [] } := by
  show (g.blocks ++ [_]).find? (fun blk : BasicBlock => blk.id == g.nextId) = _
  have hnone : g.blocks.find? (fun blk => blk.id == g.nextId) = none :=
    findBlock_none_of_ge g g.nextId hwf (Nat.le_refl _)
  rw [List.find?_append, hnone]
  simp

/-- The bundled facts preserved by one builder step: the id supply does
not go backwards; the name table, insertion pointer, source location
and every function other than `fid` are untouched; blocks other than
the insertion block `ib` are untouched; the function record `fid`
keeps its identity fields; well-formedness is transported. -/
def BPres (fid : Nat) (ib : Option Nat) (g g' : IRGenState) : Prop :=
  g.nextId ≤ g'.nextId ∧
  g'.nameTable = g.nameTable ∧
  g'.insertionBlock = g.insertionBlock ∧
  g'.loc = g.loc ∧
  (∀ k, k ≠ fid → findFunction g' k = findFunction g k) ∧
  (∀ b, ib ≠ some b → findBlock g' b = findBlock g b) ∧
  (∀ f, findFunction g fid = some f → ∃ f', findFunction g' fid = some f' ∧
    f'.lazyClosureAlias = f.lazyClosureAlias ∧ f'.name = f.name ∧
    f'.defKind = f.defKind ∧ f'.strict = f.strict ∧ f'.range = f.range) ∧
  (WF g → WF g')

theorem BPres_refl (fid : Nat) (ib : Option Nat) (g : IRGenState) : BPres fid ib g g :=
  ⟨Nat.le_refl _, rfl, rfl, rfl, fun _ _ => rfl, fun _ _ => rfl,
    fun f hf => ⟨f, hf, rfl, rfl, rfl, rfl, rfl⟩, fun h => h⟩

theorem BPres_trans (fid : Nat) (ib : Option Nat) (g g2 g3 : IRGenState)
    (h1 : BPres fid ib g g2) (h2 : BPres fid ib g2 g3) : BPres fid ib g g3 := by
  obtain ⟨a1, a2, a3, a4, a5, a6, a7, a8⟩ := h1
  obtain ⟨b1, b2, b3, b4, b5, b6, b7, b8⟩ := h2
  refine ⟨Nat.le_trans a1 b1, b2.trans a2, b3.trans a3, b4.trans a4,
    fun k hk => (b5 k hk).trans (a5 k hk), fun b hb => (b6 b hb).trans (a6 b hb),
    ?_, fun h => b8 (a8 h)⟩
  intro f hf
  obtain ⟨f2, c1, c2, c3, c4, c5, c6⟩ := a7 f hf
  obtain ⟨f3, e1, e2, e3, e4, e5, e6⟩ := b7 f2 c1
  exact ⟨f3, e1, e2.trans c2, e3.trans c3, e4.trans c4, e5.trans c5, e6.trans c6⟩

theorem BPres_emit (fid : Nat) (g : IRGenState) (d : InstrData) (i : Nat)
    (g' : IRGenState) (h : emit g d = some (i, g')) :
    BPres fid g.insertionBlock g g' := by
  obtain ⟨b, blk, hib, hblk, hi, hg⟩ := emit_eq g d i g' h
  subst hg
  have hu : ∀ bb : BasicBlock,
      ({ bb with instrs := bb.instrs ++ [{ id := g.nextId, loc := g.loc, data := d }] }
        : BasicBlock).id = bb.id := fun bb => rfl
  refine ⟨by simp, rfl, rfl, rfl, fun k _ => rfl, ?_, fun f hf => ⟨f, hf, rfl, rfl, rfl, rfl, rfl⟩,
    fun hwf => WF_updBlock_append_bump g b _ hwf (by simp)⟩
  intro b2 hb2
  have hb2b : b2 ≠ b := by
    intro hcontra
    rw [hib] at hb2
    exact hb2 (by rw [hcontra])
  have step : findBlock (updBlock { g with nextId := g.nextId + 1 } b
      (fun bb => { bb with instrs := bb.instrs ++
        [{ id := g.nextId, loc := g.loc, data := d }] })) b2
      = findBlock { g with nextId := g.nextId + 1 } b2 := by
    rw [findBlock_updBlock _ _ _ _ hu, if_neg hb2b]
  exact step

theorem BPres_emitStoreTo (fid : Nat) (g : IRGenState) (v : Value) (s : Storage)
    (g' : IRGenState) (h : emitStoreTo g v s = some g') :
    BPres fid g.insertionBlock g g' := by
  unfold emitStoreTo at h
  cases s with
  | frameVar w =>
    simp only [] at h
    cases hemit : emit g (.storeFrame v w) with
    | none => rw [hemit] at h; cases h
    | some p =>
      rw [hemit] at h
      simp only [Option.map_some', Option.some.injEq] at h
      subst h
      exact BPres_emit fid g _ p.1 p.2 (by rw [hemit])
  | globalProp n =>
    simp only [] at h
    cases hemit : emit g (.storeGlobalProp v n) with
    | none => rw [hemit] at h; cases h
    | some p =>
      rw [hemit] at h
      simp only [Option.map_some', Option.some.injEq] at h
      subst h
      exact BPres_emit fid g _ p.1 p.2 (by rw [hemit])

theorem BPres_createVariable (fid : Nat) (ib : Option Nat) (g : IRGenState)
    (n : String) : BPres fid ib g (createVariable g fid n).2 := by
  refine ⟨by simp, rfl, rfl, rfl, ?_, fun b _ => rfl, ?_,
    fun hwf => WF_createVariable g fid n hwf⟩
  · intro k hk
    exact findFunction_createVariable_other g fid k n hk
  · intro f hf
    exact ⟨{ f with vars := f.vars ++ [(g.nextId, n)] },
      findFunction_createVariable_self g fid n f hf, rfl, rfl, rfl, rfl, rfl⟩

theorem BPres_createParameter (fid : Nat) (ib : Option Nat) (g : IRGenState)
    (n : String) : BPres fid ib g (createParameter g fid n).2 := by
  refine ⟨by simp, rfl, rfl, rfl, ?_, fun b _ => rfl, ?_,
    fun hwf => WF_createParameter g fid n hwf⟩
  · intro k hk
    exact findFunction_createParameter_other g fid k n hk
  · intro f hf
    exact ⟨{ f with params := f.params ++ [(g.nextId, n)] },
      findFunction_createParameter_self g fid n f hf, rfl, rfl, rfl, rfl, rfl⟩

theorem BPres_setCtxData (fid : Nat) (ib : Option Nat) (g : IRGenState)
    (u : FnCtxData → FnCtxData) : BPres fid ib g (setCtxData g u) := by
  refine ⟨by simp, by simp, by simp, by simp, fun k _ => by simp,
    fun b _ => by simp, fun f hf => ⟨f, by simp [hf], rfl, rfl, rfl, rfl, rfl⟩, ?_⟩
  intro hwf
  exact WF_congr g _ (by simp) (by simp) (by simp) hwf

theorem ntLookup_ntInsert_self (nt : List (List (String × Storage))) (n : String)
    (s : Storage) : ntLookup (ntInsert nt n s) n = some s := by
  cases nt with
  | nil => simp [ntInsert, ntLookup, scopeLookup]
  | cons hd t => simp [ntInsert, ntLookup, scopeLookup]

theorem ntLookup_ntInsert_other (nt : List (List (String × Storage))) (m n : String)
    (s : Storage) (h : m ≠ n) : ntLookup (ntInsert nt m s) n = ntLookup nt n := by
  cases nt with
  | nil => simp [ntInsert, ntLookup, scopeLookup, h]
  | cons hd t =>
    show ntLookup (((m, s) :: hd) :: t) n = ntLookup (hd :: t) n
    show (match scopeLookup ((m, s) :: hd) n with
          | some s2 => some s2
          | none => ntLookup t n) = _
    have hs : scopeLookup ((m, s) :: hd) n = scopeLookup hd n := by
      simp [scopeLookup, h]
    rw [hs]
    rfl

theorem ntInsert_cons (hd : List (String × Storage)) (tl : List (List (String × Storage)))
    (n : String) (s : Storage) : ntInsert (hd :: tl) n s = ((n, s) :: hd) :: tl := rfl

/-- The bundled facts preserved by the prologue's per-name loop steps:
insertion pointer, location and function context are untouched; other
functions are untouched; blocks other than the insertion block are
untouched and every block only ever grows at its end; the current
function keeps its identity fields. -/
def LPres (fid : Nat) (ib : Option Nat) (g g' : IRGenState) : Prop :=
  g.nextId ≤ g'.nextId ∧
  g'.insertionBlock = g.insertionBlock ∧
  g'.loc = g.loc ∧
  g'.functionContext = g.functionContext ∧
  (∀ k, k ≠ fid → findFunction g' k = findFunction g k) ∧
  (∀ b, ib ≠ some b → findBlock g' b = findBlock g b) ∧
  (∀ b blk, findBlock g b = some blk →
    ∃ added, findBlock g' b = some { blk with instrs := blk.instrs ++ added }) ∧
  (∀ f, findFunction g fid = some f → ∃ f', findFunction g' fid = some f' ∧
    f'.lazyClosureAlias = f.lazyClosureAlias ∧ f'.name = f.name ∧
    f'.defKind = f.defKind ∧ f'.strict = f.strict ∧ f'.range = f.range) ∧
  (WF g → WF g')

theorem LPres_refl (fid : Nat) (ib : Option Nat) (g : IRGenState) : LPres fid ib g g :=
  ⟨Nat.le_refl _, rfl, rfl, rfl, fun _ _ => rfl, fun _ _ => rfl,
    fun b blk hb => ⟨[], by simpa using hb⟩,
    fun f hf => ⟨f, hf, rfl, rfl, rfl, rfl, rfl⟩, fun h => h⟩

theorem LPres_trans (fid : Nat) (ib : Option Nat) (g g2 g3 : IRGenState)
    (h1 : LPres fid ib g g2) (h2 : LPres fid ib g2 g3) : LPres fid ib g g3 := by
  obtain ⟨a1, a2, a3, a4, a5, a6, a7, a8, a9⟩ := h1
  obtain ⟨b1, b2, b3, b4, b5, b6, b7, b8, b9⟩ := h2
  refine ⟨Nat.le_trans a1 b1, b2.trans a2, b3.trans a3, b4.trans a4,
    fun k hk => (b5 k hk).trans (a5 k hk), fun b hb => (b6 b hb).trans (a6 b hb),
    ?_, ?_, fun h => b9 (a9 h)⟩
  · intro b blk hb
    obtain ⟨add1, h1'⟩ := a7 b blk hb
    obtain ⟨add2, h2'⟩ := b7 b _ h1'
    refine ⟨add1 ++ add2, ?_⟩
    rw [h2']
    simp [List.append_assoc]
  · intro f hf
    obtain ⟨f2, c1, c2, c3, c4, c5, c6⟩ := a8 f hf
    obtain ⟨f3, e1, e2, e3, e4, e5, e6⟩ := b8 f2 c1
    exact ⟨f3, e1, e2.trans c2, e3.trans c3, e4.trans c4, e5.trans c5, e6.trans c6⟩

theorem LPres_congr (fid : Nat) (ib : Option Nat) (g g' : IRGenState)
    (hn : g'.nextId = g.nextId) (hf : g'.functions = g.functions)
    (hb : g'.blocks = g.blocks) (hib : g'.insertionBlock = g.insertionBlock)
    (hl : g'.loc = g.loc) (hc : g'.functionContext = g.functionContext) :
    LPres fid ib g g' := by
  have hff : ∀ k, findFunction g' k = findFunction g k := by
    intro k
    unfold findFunction
    rw [hf]
  have hbb : ∀ b, findBlock g' b = findBlock g b := by
    intro b
    unfold findBlock
    rw [hb]
  refine ⟨by omega, hib, hl, hc, fun k _ => hff k, fun b _ => hbb b,
    fun b blk hblk => ⟨[], by rw [hbb b, hblk]; simp⟩,
    fun f hff2 => ⟨f, by rw [hff fid]; exact hff2, rfl, rfl, rfl, rfl, rfl⟩,
    fun hwf => WF_congr g g' hn hf hb hwf⟩

theorem LPres_emit (fid : Nat) (g : IRGenState) (d : InstrData) (i : Nat)
    (g' : IRGenState) (h : emit g d = some (i, g')) :
    LPres fid g.insertionBlock g g' := by
  obtain ⟨b, blk, hib, hblk, hi, hg⟩ := emit_eq g d i g' h
  subst hg
  have hu : ∀ bb : BasicBlock,
      ({ bb with instrs := bb.instrs ++ [{ id := g.nextId, loc := g.loc, data := d }] }
        : BasicBlock).id = bb.id := fun bb => rfl
  refine ⟨by simp, rfl, rfl, by simp, fun k _ => rfl, ?_, ?_,
    fun f hf => ⟨f, hf, rfl, rfl, rfl, rfl, rfl⟩,
    fun hwf => WF_updBlock_append_bump g b _ hwf (by simp)⟩
  · intro b2 hb2
    have hb2b : b2 ≠ b := by
      intro hcontra
      rw [hib] at hb2
      exact hb2 (by rw [hcontra])
    show findBlock (updBlock { g with nextId := g.nextId + 1 } b _) b2 = _
    rw [findBlock_updBlock _ _ _ _ hu, if_neg hb2b]
    rfl
  · intro b2 blk2 hblk2
    by_cases hb2b : b2 = b
    · subst hb2b
      refine ⟨[{ id := g.nextId, loc := g.loc, data := d }], ?_⟩
      show findBlock (updBlock { g with nextId := g.nextId + 1 } b2 _) b2 = _
      rw [findBlock_updBlock _ _ _ _ hu, if_pos rfl]
      have : findBlock { g with nextId := g.nextId + 1 } b2 = findBlock g b2 := rfl
      rw [this, hblk2]
      rfl
    · refine ⟨[], ?_⟩
      show findBlock (updBlock { g with nextId := g.nextId + 1 } b _) b2 = _
      rw [findBlock_updBlock _ _ _ _ hu, if_neg hb2b]
      have : findBlock { g with nextId := g.nextId + 1 } b2 = findBlock g b2 := rfl
      rw [this, hblk2]
      simp

theorem LPres_emitStoreTo (fid : Nat) (g : IRGenState) (v : Value) (s : Storage)
    (g' : IRGenState) (h : emitStoreTo g v s = some g') :
    LPres fid g.insertionBlock g g' := by
  unfold emitStoreTo at h
  cases s with
  | frameVar w =>
    simp only [] at h
    cases hemit : emit g (.storeFrame v w) with
    | none => rw [hemit] at h; cases h
    | some p =>
      rw [hemit] at h
      simp only [Option.map_some', Option.some.injEq] at h
      subst h
      exact LPres_emit fid g _ p.1 p.2 (by rw [hemit])
  | globalProp n =>
    simp only [] at h
    cases hemit : emit g (.storeGlobalProp v n) with
    | none => rw [hemit] at h; cases h
    | some p =>
      rw [hemit] at h
      simp only [Option.map_some', Option.some.injEq] at h
      subst h
      exact LPres_emit fid g _ p.1 p.2 (by rw [hemit])

theorem LPres_createVariable (fid : Nat) (ib : Option Nat) (g : IRGenState)
    (n : String) : LPres fid ib g (createVariable g fid n).2 := by
  refine ⟨by simp, by simp, by simp, by simp, ?_, fun b _ => by simp,
    fun b blk hb => ⟨[], by simp [hb]⟩, ?_, fun hwf => WF_createVariable g fid n hwf⟩
  · intro k hk
    exact findFunction_createVariable_other g fid k n hk
  · intro f hf
    exact ⟨{ f with vars := f.vars ++ [(g.nextId, n)] },
      findFunction_createVariable_self g fid n f hf, rfl, rfl, rfl, rfl, rfl⟩

theorem LPres_createParameter (fid : Nat) (ib : Option Nat) (g : IRGenState)
    (n : String) : LPres fid ib g (createParameter g fid n).2 := by
  refine ⟨by simp, by simp, by simp, by simp, ?_, fun b _ => by simp,
    fun b blk hb => ⟨[], by simp [hb]⟩, ?_, fun hwf => WF_createParameter g fid n hwf⟩
  · intro k hk
    exact findFunction_createParameter_other g fid k n hk
  · intro f hf
    exact ⟨{ f with params := f.params ++ [(g.nextId, n)] },
      findFunction_createParameter_self g fid n f hf, rfl, rfl, rfl, rfl, rfl⟩

theorem emit_keeps (g : IRGenState) (d : InstrData) (i : Nat) (g' : IRGenState)
    (h : emit g d = some (i, g')) :
    g'.nameTable = g.nameTable ∧ g'.functions = g.functions ∧
    g'.insertionBlock = g.insertionBlock ∧ g'.loc = g.loc ∧
    g'.functionContext = g.functionContext ∧ g'.globalProps = g.globalProps ∧
    g'.nextId = g.nextId + 1 ∧ i = g.nextId := by
  obtain ⟨b, blk, hib, hblk, hi, hg⟩ := emit_eq g d i g' h
  subst hg
  exact ⟨rfl, rfl, rfl, rfl, rfl, rfl, rfl, hi⟩

theorem emitStoreTo_keeps (g : IRGenState) (v : Value) (s : Storage) (g' : IRGenState)
    (h : emitStoreTo g v s = some g') :
    g'.nameTable = g.nameTable ∧ g'.functions = g.functions ∧
    g'.insertionBlock = g.insertionBlock ∧ g'.loc = g.loc ∧
    g'.functionContext = g.functionContext ∧ g'.nextId = g.nextId + 1 := by
  unfold emitStoreTo at h
  cases s with
  | frameVar w =>
    simp only [] at h
    cases hemit : emit g (.storeFrame v w) with
    | none => rw [hemit] at h; cases h
    | some p =>
      rw [hemit] at h
      simp only [Option.map_some', Option.some.injEq] at h
      subst h
      obtain ⟨k1, k2, k3, k4, k5, _, k7, _⟩ := emit_keeps g _ p.1 p.2 (by rw [hemit])
      exact ⟨k1, k2, k3, k4, k5, k7⟩
  | globalProp n =>
    simp only [] at h
    cases hemit : emit g (.storeGlobalProp v n) with
    | none => rw [hemit] at h; cases h
    | some p =>
      rw [hemit] at h
      simp only [Option.map_some', Option.some.injEq] at h
      subst h
      obtain ⟨k1, k2, k3, k4, k5, _, k7, _⟩ := emit_keeps g _ p.1 p.2 (by rw [hemit])
      exact ⟨k1, k2, k3, k4, k5, k7⟩

theorem declareVariableOrGlobalProperty_pres (fid : Nat) (ib : Option Nat)
    (g : IRGenState) (n : String) :
    LPres fid ib g (declareVariableOrGlobalProperty g fid n).2 ∧
    (∀ hd tl, g.nameTable = hd :: tl →
      ∃ hd2, (declareVariableOrGlobalProperty g fid n).2.nameTable = hd2 :: tl) ∧
    (∀ f, findFunction g fid = some f →
      ∃ f', findFunction (declareVariableOrGlobalProperty g fid n).2 fid = some f' ∧
        f'.params = f.params) ∧
    (declareVariableOrGlobalProperty g fid n).2.blocks = g.blocks ∧
    (declareVariableOrGlobalProperty g fid n).2.functions.length = g.functions.length := by
  cases hs : scopeLookup (g.nameTable.headD []) n with
  | some st =>
    have he : declareVariableOrGlobalProperty g fid n = ((st, false), g) := by
      unfold declareVariableOrGlobalProperty
      rw [hs]
    rw [he]
    exact ⟨LPres_refl _ _ _, fun hd tl hh => ⟨hd, hh⟩, fun f hf => ⟨f, hf, rfl⟩, rfl, rfl⟩
  | none =>
    by_cases hgl : isGlobalFunction g fid = true
    · have he : declareVariableOrGlobalProperty g fid n
          = ((Storage.globalProp n, true),
             { g with globalProps := g.globalProps ++ [n],
                      nameTable := ntInsert g.nameTable n (Storage.globalProp n) }) := by
        unfold declareVariableOrGlobalProperty
        rw [hs]
        simp only []
        rw [if_pos hgl]
      rw [he]
      refine ⟨LPres_congr fid ib g _ rfl rfl rfl rfl rfl rfl, ?_, ?_, rfl, rfl⟩
      · intro hd tl hh
        refine ⟨(n, Storage.globalProp n) :: hd, ?_⟩
        show ntInsert g.nameTable n (Storage.globalProp n) = _
        rw [hh]
        rfl
      · intro f hf
        exact ⟨f, hf, rfl⟩
    · have he : declareVariableOrGlobalProperty g fid n
          = ((Storage.frameVar (createVariable g fid n).1, true),
             { (createVariable g fid n).2 with
               nameTable := ntInsert (createVariable g fid n).2.nameTable n
                 (Storage.frameVar (createVariable g fid n).1) }) := by
        unfold declareVariableOrGlobalProperty
        rw [hs]
        simp only []
        rw [if_neg hgl]
      rw [he]
      have hL1 := LPres_createVariable fid ib g n
      have hL2 : LPres fid ib (createVariable g fid n).2
          { (createVariable g fid n).2 with
            nameTable := ntInsert (createVariable g fid n).2.nameTable n
              (Storage.frameVar (createVariable g fid n).1) } :=
        LPres_congr fid ib _ _ rfl rfl rfl rfl rfl rfl
      refine ⟨LPres_trans fid ib _ _ _ hL1 hL2, ?_, ?_, by simp,
        by simp [createVariable, updFunction]⟩
      · intro hd tl hh
        refine ⟨(n, Storage.frameVar g.nextId) :: hd, ?_⟩
        show ntInsert (createVariable g fid n).2.nameTable n
          (Storage.frameVar (createVariable g fid n).1) = _
        have : (createVariable g fid n).2.nameTable = g.nameTable := by simp
        rw [this, hh]
        rfl
      · intro f hf
        exact ⟨{ f with vars := f.vars ++ [(g.nextId, n)] },
          findFunction_createVariable_self g fid n f hf, rfl⟩

theorem declsLoop_pres (fid : Nat) (names : List String) :
    ∀ g g', declsLoop g fid names = some g' →
      LPres fid g.insertionBlock g g' ∧
      (∀ hd tl, g.nameTable = hd :: tl → ∃ hd2, g'.nameTable = hd2 :: tl) ∧
      (∀ f, findFunction g fid = some f → ∃ f', findFunction g' fid = some f' ∧
        f'.params = f.params) := by
  induction names with
  | nil =>
    intro g g' h
    have h' : some g = some g' := h
    cases h'
    exact ⟨LPres_refl _ _ _, fun hd tl hh => ⟨hd, hh⟩, fun f hf => ⟨f, hf, rfl⟩⟩
  | cons n rest ih =>
    intro g g' h
    obtain ⟨dL, dnt, dpar, dblk, _⟩ := declareVariableOrGlobalProperty_pres fid
      g.insertionBlock g n
    have h' : (match (declareVariableOrGlobalProperty g fid n).1.1,
                     (declareVariableOrGlobalProperty g fid n).1.2 with
               | Storage.frameVar v, true =>
                 match emit (declareVariableOrGlobalProperty g fid n).2
                     (.storeFrame .litUndefined v) with
                 | none => none
                 | some p => declsLoop p.2 fid rest
               | _, _ => declsLoop (declareVariableOrGlobalProperty g fid n).2 fid rest)
              = some g' := h
    have hibd : (declareVariableOrGlobalProperty g fid n).2.insertionBlock
        = g.insertionBlock := dL.2.1
    cases hst : (declareVariableOrGlobalProperty g fid n).1.1 with
    | frameVar v =>
      cases hnew : (declareVariableOrGlobalProperty g fid n).1.2 with
      | true =>
        rw [hst, hnew] at h'
        simp only [] at h'
        cases hemit : emit (declareVariableOrGlobalProperty g fid n).2
            (.storeFrame .litUndefined v) with
        | none => rw [hemit] at h'; cases h'
        | some p =>
          rw [hemit] at h'
          have eL := LPres_emit fid _ _ p.1 p.2 (by rw [hemit])
          rw [hibd] at eL
          obtain ⟨ek1, ek2, _, _, _, _, _, _⟩ := emit_keeps _ _ p.1 p.2 (by rw [hemit])
          obtain ⟨iL, int, ipar⟩ := ih p.2 g' h'
          have hibp : p.2.insertionBlock = g.insertionBlock := eL.2.1.trans hibd
          rw [hibp] at iL
          refine ⟨LPres_trans fid _ _ _ _ (LPres_trans fid _ _ _ _ dL eL) iL, ?_, ?_⟩
          · intro hd tl hh
            obtain ⟨hd2, h2⟩ := dnt hd tl hh
            exact int hd2 tl (by rw [ek1, h2])
          · intro f hf
            obtain ⟨f2, hf2, hp2⟩ := dpar f hf
            have hf2' : findFunction p.2 fid = some f2 := by
              unfold findFunction
              rw [ek2]
              exact hf2
            obtain ⟨f3, hf3, hp3⟩ := ipar f2 hf2'
            exact ⟨f3, hf3, hp3.trans hp2⟩
      | false =>
        rw [hst, hnew] at h'
        simp only [] at h'
        obtain ⟨iL, int, ipar⟩ := ih _ g' h'
        rw [hibd] at iL
        refine ⟨LPres_trans fid _ _ _ _ dL iL, ?_, ?_⟩
        · intro hd tl hh
          obtain ⟨hd2, h2⟩ := dnt hd tl hh
          exact int hd2 tl h2
        · intro f hf
          obtain ⟨f2, hf2, hp2⟩ := dpar f hf
          obtain ⟨f3, hf3, hp3⟩ := ipar f2 hf2
          exact ⟨f3, hf3, hp3.trans hp2⟩
    | globalProp s =>
      rw [hst] at h'
      simp only [] at h'
      obtain ⟨iL, int, ipar⟩ := ih _ g' h'
      rw [hibd] at iL
      refine ⟨LPres_trans fid _ _ _ _ dL iL, ?_, ?_⟩
      · intro hd tl hh
        obtain ⟨hd2, h2⟩ := dnt hd tl hh
        exact int hd2 tl h2
      · intro f hf
        obtain ⟨f2, hf2, hp2⟩ := dpar f hf
        obtain ⟨f3, hf3, hp3⟩ := ipar f2 hf2
        exact ⟨f3, hf3, hp3.trans hp2⟩

theorem closureDeclLoop_pres (fid : Nat) (l : List FuncNode) :
    ∀ g g', closureDeclLoop g fid l = some g' →
      LPres fid g.insertionBlock g g' ∧
      (∀ hd tl, g.nameTable = hd :: tl → ∃ hd2, g'.nameTable = hd2 :: tl) ∧
      (∀ f, findFunction g fid = some f → ∃ f', findFunction g' fid = some f' ∧
        f'.params = f.params) ∧
      g'.blocks = g.blocks ∧ g'.functions.length = g.functions.length := by
  induction l with
  | nil =>
    intro g g' h
    have h' : some g = some g' := h
    cases h'
    exact ⟨LPres_refl _ _ _, fun hd tl hh => ⟨hd, hh⟩, fun f hf => ⟨f, hf, rfl⟩, rfl, rfl⟩
  | cons fd rest ih =>
    intro g g' h
    have h' : (match fd.idName with
               | none => none
               | some n => closureDeclLoop (declareVariableOrGlobalProperty g fid n).2 fid
                   rest) = some g' := h
    cases hid : fd.idName with
    | none => rw [hid] at h'; cases h'
    | some n =>
      rw [hid] at h'
      simp only [] at h'
      obtain ⟨dL, dnt, dpar, dblk, dlen⟩ := declareVariableOrGlobalProperty_pres fid
        g.insertionBlock g n
      obtain ⟨iL, int, ipar, iblk, ilen⟩ := ih _ g' h'
      have hibd : (declareVariableOrGlobalProperty g fid n).2.insertionBlock
          = g.insertionBlock := dL.2.1
      rw [hibd] at iL
      refine ⟨LPres_trans fid _ _ _ _ dL iL, ?_, ?_, iblk.trans dblk, ilen.trans dlen⟩
      · intro hd tl hh
        obtain ⟨hd2, h2⟩ := dnt hd tl hh
        exact int hd2 tl h2
      · intro f hf
        obtain ⟨f2, hf2, hp2⟩ := dpar f hf
        obtain ⟨f3, hf3, hp3⟩ := ipar f2 hf2
        exact ⟨f3, hf3, hp3.trans hp2⟩

theorem paramsLoop_pres (fid : Nat) (names : List String) :
    ∀ g g', paramsLoop g fid names = some g' →
      LPres fid g.insertionBlock g g' ∧
      (∀ hd tl, g.nameTable = hd :: tl → ∃ hd2, g'.nameTable = hd2 :: tl) ∧
      (∀ f, findFunction g fid = some f → ∃ f', findFunction g' fid = some f' ∧
        f'.params.map Prod.snd = f.params.map Prod.snd ++ names) ∧
      (∀ n, n ∈ names →
        ∃ v, ntLookup g'.nameTable n = some (.frameVar v) ∧ g.nextId ≤ v) ∧
      (∀ n, n ∉ names → ntLookup g'.nameTable n = ntLookup g.nameTable n) := by
  induction names with
  | nil =>
    intro g g' h
    have h' : some g = some g' := h
    cases h'
    exact ⟨LPres_refl _ _ _, fun hd tl hh => ⟨hd, hh⟩, fun f hf => ⟨f, hf, by simp⟩,
      fun n hn => absurd hn (List.not_mem_nil n), fun n _ => rfl⟩
  | cons n rest ih =>
    intro g g' h
    have h' : (match emitStoreTo
          { (createVariable (createParameter g fid n).2 fid n).2 with
            nameTable := ntInsert
              (createVariable (createParameter g fid n).2 fid n).2.nameTable n
              (Storage.frameVar (createVariable (createParameter g fid n).2 fid n).1) }
          (.paramRef (createParameter g fid n).1)
          (.frameVar (createVariable (createParameter g fid n).2 fid n).1) with
        | none => none
        | some g4 => paramsLoop g4 fid rest) = some g' := h
    cases hst : emitStoreTo
          { (createVariable (createParameter g fid n).2 fid n).2 with
            nameTable := ntInsert
              (createVariable (createParameter g fid n).2 fid n).2.nameTable n
              (Storage.frameVar (createVariable (createParameter g fid n).2 fid n).1) }
          (.paramRef (createParameter g fid n).1)
          (.frameVar (createVariable (createParameter g fid n).2 fid n).1) with
    | none => rw [hst] at h'; cases h'
    | some g4 =>
      rw [hst] at h'
      simp only [] at h'
      have hL1 := LPres_createParameter fid g.insertionBlock g n
      have hL2 := LPres_createVariable fid g.insertionBlock (createParameter g fid n).2 n
      have hL3 : LPres fid g.insertionBlock
          (createVariable (createParameter g fid n).2 fid n).2
          { (createVariable (createParameter g fid n).2 fid n).2 with
            nameTable := ntInsert
              (createVariable (createParameter g fid n).2 fid n).2.nameTable n
              (Storage.frameVar (createVariable (createParameter g fid n).2 fid n).1) } :=
        LPres_congr fid _ _ _ rfl rfl rfl rfl rfl rfl
      have hL4 := LPres_emitStoreTo fid _ _ _ g4 hst
      have hib3 : ({ (createVariable (createParameter g fid n).2 fid n).2 with
            nameTable := ntInsert
              (createVariable (createParameter g fid n).2 fid n).2.nameTable n
              (Storage.frameVar (createVariable (createParameter g fid n).2 fid n).1)
          } : IRGenState).insertionBlock = g.insertionBlock := by simp
      rw [hib3] at hL4
      obtain ⟨sk1, sk2, sk3, _, _, sk6⟩ := emitStoreTo_keeps _ _ _ g4 hst
      obtain ⟨iL, int, ipar, intL, intO⟩ := ih g4 g' h'
      have hib4 : g4.insertionBlock = g.insertionBlock := by rw [sk3]; exact hib3
      rw [hib4] at iL
      have hnt4 : g4.nameTable
          = ntInsert g.nameTable n (Storage.frameVar (g.nextId + 1)) := by
        rw [sk1]
        show ntInsert (createVariable (createParameter g fid n).2 fid n).2.nameTable n
          (Storage.frameVar (createVariable (createParameter g fid n).2 fid n).1) = _
        have e1 : (createVariable (createParameter g fid n).2 fid n).2.nameTable
            = g.nameTable := by simp
        have e2 : (createVariable (createParameter g fid n).2 fid n).1
            = g.nextId + 1 := by simp
        rw [e1, e2]
      have hmono4 : g.nextId + 3 ≤ g4.nextId + 1 := by
        rw [sk6]
        have : ({ (createVariable (createParameter g fid n).2 fid n).2 with
            nameTable := ntInsert
              (createVariable (createParameter g fid n).2 fid n).2.nameTable n
              (Storage.frameVar (createVariable (createParameter g fid n).2 fid n).1)
          } : IRGenState).nextId = g.nextId + 2 := by simp
        omega
      refine ⟨LPres_trans fid _ _ _ _ hL1
        (LPres_trans fid _ _ _ _ hL2 (LPres_trans fid _ _ _ _ hL3
          (LPres_trans fid _ _ _ _ hL4 iL))), ?_, ?_, ?_, ?_⟩
      · intro hd tl hh
        refine int ((n, Storage.frameVar (g.nextId + 1)) :: hd) tl ?_
        rw [hnt4, hh]
        rfl
      · intro f hf
        have hf1 : findFunction (createParameter g fid n).2 fid
            = some { f with params := f.params ++ [(g.nextId, n)] } :=
          findFunction_createParameter_self g fid n f hf
        have hf2 : findFunction (createVariable (createParameter g fid n).2 fid n).2 fid
            = some { { f with params := f.params ++ [(g.nextId, n)] } with
                vars := { f with params := f.params ++ [(g.nextId, n)] }.vars
                  ++ [((createParameter g fid n).2.nextId, n)] } :=
          findFunction_createVariable_self _ fid n _ hf1
        have hf4 : findFunction g4 fid = some { f with
            params := f.params ++ [(g.nextId, n)],
            vars := f.vars ++ [((createParameter g fid n).2.nextId, n)] } := by
          unfold findFunction
          rw [sk2]
          exact hf2
        obtain ⟨f3, hf3, hp3⟩ := ipar _ hf4
        refine ⟨f3, hf3, ?_⟩
        rw [hp3]
        simp
      · intro m hm
        by_cases hmr : m ∈ rest
        · obtain ⟨v, hv, hvge⟩ := intL m hmr
          exact ⟨v, hv, by have := iL.1; omega⟩
        · have hmn : m = n := by
            rcases List.mem_cons.mp hm with hh | hh
            · exact hh
            · exact absurd hh hmr
          subst hmn
          refine ⟨g.nextId + 1, ?_, by omega⟩
          rw [intO m hmr, hnt4]
          exact ntLookup_ntInsert_self g.nameTable m _
      · intro m hmn
        have hm1 : m ≠ n := fun hh => hmn (by rw [hh]; exact List.mem_cons_self n rest)
        have hm2 : m ∉ rest := fun hh => hmn (List.mem_cons_of_mem n hh)
        rw [intO m hm2, hnt4]
        exact ntLookup_ntInsert_other g.nameTable n m _ (Ne.symm hm1)

theorem emitMarkers_pres (stmts : List Nat) :
    ∀ g g', emitMarkers g stmts = some g' →
      g.nextId ≤ g'.nextId ∧ g'.functions = g.functions ∧ g'.nameTable = g.nameTable ∧
      g'.insertionBlock = g.insertionBlock ∧ g'.loc = g.loc ∧
      g'.functionContext = g.functionContext ∧
      (∀ b, g.insertionBlock ≠ some b → findBlock g' b = findBlock g b) ∧
      (WF g → WF g') := by
  induction stmts with
  | nil =>
    intro g g' h
    have h' : some g = some g' := h
    cases h'
    exact ⟨Nat.le_refl _, rfl, rfl, rfl, rfl, rfl, fun _ _ => rfl, fun hh => hh⟩
  | cons t rest ih =>
    intro g g' h
    have h' : (match emit g (.loweredStmt t) with
               | none => none
               | some p => emitMarkers p.2 rest) = some g' := h
    cases hemit : emit g (.loweredStmt t) with
    | none => rw [hemit] at h'; cases h'
    | some p =>
      rw [hemit] at h'
      simp only [] at h'
      obtain ⟨k1, k2, k3, k4, k5, _, k7, _⟩ := emit_keeps g _ p.1 p.2 (by rw [hemit])
      have eB := BPres_emit 0 g _ p.1 p.2 (by rw [hemit])
      obtain ⟨i1, i2, i3, i4, i5, i6, i7, i8⟩ := ih p.2 g' h'
      refine ⟨by omega, i2.trans k2, i3.trans k1, i4.trans k3, i5.trans k4,
        i6.trans k5, ?_, fun hwf => i8 (eB.2.2.2.2.2.2.2 hwf)⟩
      intro b hb
      have hb' : p.2.insertionBlock ≠ some b := by rw [k3]; exact hb
      exact (i7 b hb').trans (eB.2.2.2.2.2.1 b hb)

theorem genStatement_pres (body : FuncBody) (g g' : IRGenState)
    (h : genStatement g body = some g') :
    g.nextId ≤ g'.nextId ∧ g'.functions = g.functions ∧ g'.nameTable = g.nameTable ∧
    g'.insertionBlock = g.insertionBlock ∧ g'.loc = g.loc ∧
    g'.functionContext = g.functionContext ∧
    (∀ b, g.insertionBlock ≠ some b → findBlock g' b = findBlock g b) ∧
    (WF g → WF g') := by
  cases body with
  | block a bu r stmts =>
    have h' : emitMarkers g stmts = some g' := h
    exact emitMarkers_pres stmts g g' h'
  | expr tag r =>
    have h' : (emit g (.loweredStmt tag)).map (fun p => p.2) = some g' := h
    cases hemit : emit g (.loweredStmt tag) with
    | none => rw [hemit] at h'; cases h'
    | some p =>
      rw [hemit] at h'
      simp only [Option.map_some', Option.some.injEq] at h'
      subst h'
      obtain ⟨k1, k2, k3, k4, k5, _, k7, _⟩ := emit_keeps g _ p.1 p.2 (by rw [hemit])
      have eB := BPres_emit 0 g _ p.1 p.2 (by rw [hemit])
      exact ⟨by omega, k2, k1, k3, k4, k5, eB.2.2.2.2.2.1, eB.2.2.2.2.2.2.2⟩

theorem genAnonymousLabelNameCtx_eq (g g0 : IRGenState) (hint s : String)
    (d : FnCtxData) (old : Option FnCtx)
    (hctx : g.functionContext = some (FnCtx.mk d old))
    (h : genAnonymousLabelNameCtx g hint = some (s, g0)) :
    g0 = setCtxData g
      (fun x => { x with anonymousLabelCounter := x.anonymousLabelCounter + 1 }) := by
  rw [genAnonymousLabelNameCtx_spec g hint d old hctx] at h
  simp only [Option.some.injEq, Prod.mk.injEq] at h
  exact h.2.symm

def capStep (g : IRGenState) (fid : Nat) (n : String)
    (u : Nat → FnCtxData → FnCtxData) : IRGenState :=
  setCtxData (createVariable g fid n).2 (u (createVariable g fid n).1)

theorem capStep_BPres (fid : Nat) (ib : Option Nat) (g : IRGenState) (n : String)
    (u : Nat → FnCtxData → FnCtxData) : BPres fid ib g (capStep g fid n u) :=
  BPres_trans _ _ _ _ _ (BPres_createVariable _ _ _ _) (BPres_setCtxData _ _ _ _)

theorem BPres.cast_ib (fid : Nat) (ib ib2 : Option Nat) (g g' : IRGenState)
    (h : BPres fid ib g g') (he : ib = ib2) : BPres fid ib2 g g' := he ▸ h

/-- The data fields of the current context that the capture-state
initialization never touches, relative to a base context. -/
def FCKeeps (old : Option FnCtx) (d : FnCtxData) (g' : IRGenState) : Prop :=
  ∃ d2, g'.functionContext = some (FnCtx.mk d2 old) ∧ d2.function = d.function ∧
    d2.semInfo = d.semInfo ∧ d2.entryTerminator = d.entryTerminator ∧
    d2.savedInsertionBlock = d.savedInsertionBlock ∧ d2.savedLoc = d.savedLoc

theorem FCKeeps_base (g : IRGenState) (d : FnCtxData) (old : Option FnCtx)
    (h : g.functionContext = some (FnCtx.mk d old)) : FCKeeps old d g :=
  ⟨d, h, rfl, rfl, rfl, rfl, rfl⟩

theorem FCKeeps_of_eq (old : Option FnCtx) (d : FnCtxData) (g g' : IRGenState)
    (hfc : g'.functionContext = g.functionContext) (h : FCKeeps old d g) :
    FCKeeps old d g' := by
  obtain ⟨d2, h0, h1, h2, h3, h4, h5⟩ := h
  exact ⟨d2, by rw [hfc]; exact h0, h1, h2, h3, h4, h5⟩

theorem FCKeeps_setCtxData (old : Option FnCtx) (d : FnCtxData) (g : IRGenState)
    (u : FnCtxData → FnCtxData)
    (hu : ∀ x, (u x).function = x.function ∧ (u x).semInfo = x.semInfo ∧
      (u x).entryTerminator = x.entryTerminator ∧
      (u x).savedInsertionBlock = x.savedInsertionBlock ∧ (u x).savedLoc = x.savedLoc)
    (h : FCKeeps old d g) : FCKeeps old d (setCtxData g u) := by
  obtain ⟨d2, h0, h1, h2, h3, h4, h5⟩ := h
  obtain ⟨u1, u2, u3, u4, u5⟩ := hu d2
  exact ⟨u d2, setCtxData_functionContext g u d2 old h0, u1.trans h1, u2.trans h2,
    u3.trans h3, u4.trans h4, u5.trans h5⟩

theorem FCKeeps_capStep (old : Option FnCtx) (d : FnCtxData) (g : IRGenState)
    (fid : Nat) (n : String) (u : Nat → FnCtxData → FnCtxData)
    (hu : ∀ v x, (u v x).function = x.function ∧ (u v x).semInfo = x.semInfo ∧
      (u v x).entryTerminator = x.entryTerminator ∧
      (u v x).savedInsertionBlock = x.savedInsertionBlock ∧
      (u v x).savedLoc = x.savedLoc)
    (h : FCKeeps old d g) : FCKeeps old d (capStep g fid n u) := by
  apply FCKeeps_setCtxData old d _ _ (hu _)
  exact FCKeeps_of_eq old d g _ (by simp) h

theorem initCaptureState_pres (g g' : IRGenState) (d : FnCtxData) (old : Option FnCtx)
    (hctx : g.functionContext = some (FnCtx.mk d old))
    (h : initCaptureStateInES5Function g = some g') :
    g.nextId ≤ g'.nextId ∧
    g'.nameTable = g.nameTable ∧
    g'.insertionBlock = g.insertionBlock ∧
    g'.loc = g.loc ∧
    FCKeeps old d g' ∧
    (∀ k, k ≠ d.function → findFunction g' k = findFunction g k) ∧
    (∀ b, g.insertionBlock ≠ some b → findBlock g' b = findBlock g b) ∧
    (∀ f, findFunction g d.function = some f →
      ∃ f', findFunction g' d.function = some f' ∧
        f'.lazyClosureAlias = f.lazyClosureAlias ∧ f'.name = f.name ∧
        f'.defKind = f.defKind ∧ f'.strict = f.strict ∧ f'.range = f.range) ∧
    (WF g → WF g') := by
  have hubump : ∀ x : FnCtxData,
      (({ x with anonymousLabelCounter := x.anonymousLabelCounter + 1 }
        : FnCtxData).function = x.function ∧
      ({ x with anonymousLabelCounter := x.anonymousLabelCounter + 1 }
        : FnCtxData).semInfo = x.semInfo ∧
      ({ x with anonymousLabelCounter := x.anonymousLabelCounter + 1 }
        : FnCtxData).entryTerminator = x.entryTerminator ∧
      ({ x with anonymousLabelCounter := x.anonymousLabelCounter + 1 }
        : FnCtxData).savedInsertionBlock = x.savedInsertionBlock ∧
      ({ x with anonymousLabelCounter := x.anonymousLabelCounter + 1 }
        : FnCtxData).savedLoc = x.savedLoc) :=
    fun x => ⟨rfl, rfl, rfl, rfl, rfl⟩
  unfold initCaptureStateInES5Function at h
  rw [hctx] at h
  simp only [FnCtx_data_mk] at h
  cases hsem : d.semInfo with
  | none => rw [hsem] at h; cases h
  | some si =>
    rw [hsem] at h
    simp only [] at h
    by_cases hflag : si.containsArrowFunctions = false
    · rw [if_pos hflag] at h
      have h2 : g = g' := by injection h
      subst h2
      refine ⟨Nat.le_refl _, rfl, rfl, rfl, ⟨d, hctx, rfl, rfl, rfl, rfl, rfl⟩,
        fun _ _ => rfl, fun _ _ => rfl,
        fun f hf => ⟨f, hf, rfl, rfl, rfl, rfl, rfl⟩, fun hh => hh⟩
    · rw [if_neg hflag] at h
      rw [genAnonymousLabelNameCtx_spec g "this" d old hctx] at h
      simp only [] at h
      split at h
      · exact Option.noConfusion h
      · rename_i bf hbf
        split at h
        · exact Option.noConfusion h
        · rename_i thisP hthis
          split at h
          · exact Option.noConfusion h
          · rename_i g2 hst1
            have hB_S1 : BPres d.function g.insertionBlock g
                (capStep (setCtxData g (fun x =>
                    { x with anonymousLabelCounter := x.anonymousLabelCounter + 1 }))
                  d.function
                  ("?anon_" ++ toString d.anonymousLabelCounter ++ "_" ++ "this")
                  (fun v x => { x with capturedThis := some v })) :=
              BPres_trans _ _ _ _ _ (BPres_setCtxData _ _ g _) (capStep_BPres _ _ _ _ _)
            have hK_S1 : FCKeeps old d
                (capStep (setCtxData g (fun x =>
                    { x with anonymousLabelCounter := x.anonymousLabelCounter + 1 }))
                  d.function
                  ("?anon_" ++ toString d.anonymousLabelCounter ++ "_" ++ "this")
                  (fun v x => { x with capturedThis := some v })) :=
              FCKeeps_capStep old d _ _ _ _ (fun v x => ⟨rfl, rfl, rfl, rfl, rfl⟩)
                (FCKeeps_setCtxData old d g _ hubump (FCKeeps_base g d old hctx))
            have hB_g2 : BPres d.function g.insertionBlock g g2 :=
              BPres_trans _ _ _ _ _ hB_S1
                (BPres.cast_ib _ _ _ _ _ (BPres_emitStoreTo d.function _ _ _ g2 hst1)
                  hB_S1.2.2.1)
            have hK_g2 : FCKeeps old d g2 :=
              FCKeeps_of_eq old d _ g2 (emitStoreTo_keeps _ _ _ g2 hst1).2.2.2.2.1 hK_S1
            clear hB_S1 hK_S1 hst1 hbf hthis
            split at h
            · exact Option.noConfusion h
            · rename_i n2 g3 hga2
              obtain ⟨d2v, hfc2, _⟩ := id hK_g2
              have hg3 := genAnonymousLabelNameCtx_eq g2 g3 "new.target" n2 d2v old hfc2
                hga2
              subst hg3
              split at h
              · exact Option.noConfusion h
              · rename_i ntv g5 hemitNT
                split at h
                · exact Option.noConfusion h
                · rename_i g6 hst2
                  have hB_G4 : BPres d.function g.insertionBlock g2
                      (capStep (setCtxData g2 (fun x =>
                          { x with anonymousLabelCounter :=
                            x.anonymousLabelCounter + 1 }))
                        d.function n2
                        (fun v x => { x with capturedNewTarget := Value.varRef v })) :=
                    BPres_trans _ _ _ _ _ (BPres_setCtxData _ _ g2 _)
                      (capStep_BPres _ _ _ _ _)
                  have hK_G4 : FCKeeps old d
                      (capStep (setCtxData g2 (fun x =>
                          { x with anonymousLabelCounter :=
                            x.anonymousLabelCounter + 1 }))
                        d.function n2
                        (fun v x => { x with capturedNewTarget := Value.varRef v })) :=
                    FCKeeps_capStep old d _ _ _ _ (fun v x => ⟨rfl, rfl, rfl, rfl, rfl⟩)
                      (FCKeeps_setCtxData old d g2 _ hubump hK_g2)
                  have hB_g5 : BPres d.function g.insertionBlock g2 g5 :=
                    BPres_trans _ _ _ _ _ hB_G4
                      (BPres.cast_ib _ _ _ _ _ (BPres_emit d.function _ _ _ g5 hemitNT)
                        (hB_G4.2.2.1.trans hB_g2.2.2.1))
                  have hK_g5 : FCKeeps old d g5 :=
                    FCKeeps_of_eq old d _ g5
                      (emit_keeps _ _ _ g5 hemitNT).2.2.2.2.1 hK_G4
                  have hB_g6 : BPres d.function g.insertionBlock g g6 :=
                    BPres_trans _ _ _ _ _ hB_g2
                      (BPres_trans _ _ _ _ _ hB_g5
                        (BPres.cast_ib _ _ _ _ _
                          (BPres_emitStoreTo d.function _ _ _ g6 hst2)
                          (hB_g5.2.2.1.trans hB_g2.2.2.1)))
                  have hK_g6 : FCKeeps old d g6 :=
                    FCKeeps_of_eq old d _ g6
                      (emitStoreTo_keeps _ _ _ g6 hst2).2.2.2.2.1 hK_g5
                  clear hB_G4 hK_G4 hB_g5 hK_g5 hemitNT hst2 hga2 hB_g2 hK_g2 hfc2
                  split at h
                  · split at h
                    · exact Option.noConfusion h
                    · rename_i n3 g7 hga3
                      obtain ⟨d6v, hfc6, _⟩ := id hK_g6
                      have hg7 := genAnonymousLabelNameCtx_eq g6 g7 "arguments" n3 d6v
                        old hfc6 hga3
                      subst hg7
                      split at h
                      · exact Option.noConfusion h
                      · rename_i ca g9 hemitCA
                        have hB_G8 : BPres d.function g.insertionBlock g6
                            (capStep (setCtxData g6 (fun x =>
                                { x with anonymousLabelCounter :=
                                  x.anonymousLabelCounter + 1 }))
                              d.function n3
                              (fun v x => { x with capturedArguments := some v })) :=
                          BPres_trans _ _ _ _ _ (BPres_setCtxData _ _ g6 _)
                            (capStep_BPres _ _ _ _ _)
                        have hK_G8 : FCKeeps old d
                            (capStep (setCtxData g6 (fun x =>
                                { x with anonymousLabelCounter :=
                                  x.anonymousLabelCounter + 1 }))
                              d.function n3
                              (fun v x => { x with capturedArguments := some v })) :=
                          FCKeeps_capStep old d _ _ _ _
                            (fun v x => ⟨rfl, rfl, rfl, rfl, rfl⟩)
                            (FCKeeps_setCtxData old d g6 _ hubump hK_g6)
                        have hB_g9 : BPres d.function g.insertionBlock g6 g9 :=
                          BPres_trans _ _ _ _ _ hB_G8
                            (BPres.cast_ib _ _ _ _ _
                              (BPres_emit d.function _ _ _ g9 hemitCA)
                              (hB_G8.2.2.1.trans hB_g6.2.2.1))
                        have hK_g9 : FCKeeps old d g9 :=
                          FCKeeps_of_eq old d _ g9
                            (emit_keeps _ _ _ g9 hemitCA).2.2.2.2.1 hK_G8
                        have hB_fin : BPres d.function g.insertionBlock g g' :=
                          BPres_trans _ _ _ _ _ hB_g6
                            (BPres_trans _ _ _ _ _ hB_g9
                              (BPres.cast_ib _ _ _ _ _
                                (BPres_emitStoreTo d.function _ _ _ g' h)
                                (hB_g9.2.2.1.trans hB_g6.2.2.1)))
                        have hK_fin : FCKeeps old d g' :=
                          FCKeeps_of_eq old d _ g'
                            (emitStoreTo_keeps _ _ _ g' h).2.2.2.2.1 hK_g9
                        exact ⟨hB_fin.1, hB_fin.2.1, hB_fin.2.2.1, hB_fin.2.2.2.1,
                          hK_fin, hB_fin.2.2.2.2.1, hB_fin.2.2.2.2.2.1,
                          hB_fin.2.2.2.2.2.2.1, hB_fin.2.2.2.2.2.2.2⟩
                  · have h2 : g6 = g' := by injection h
                    subst h2
                    exact ⟨hB_g6.1, hB_g6.2.1, hB_g6.2.2.1, hB_g6.2.2.2.1, hK_g6,
                      hB_g6.2.2.2.2.1, hB_g6.2.2.2.2.2.1, hB_g6.2.2.2.2.2.2.1,
                      hB_g6.2.2.2.2.2.2.2⟩

theorem mem_insertListBefore (l moved : List Instr) (tid : Nat) (i : Instr)
    (h : i ∈ insertListBefore l tid moved) : i ∈ l ∨ i ∈ moved := by
  induction l with
  | nil => simp [insertListBefore] at h
  | cons a rest ih =>
    simp only [insertListBefore] at h
    by_cases ha : a.id = tid
    · rw [if_pos ha] at h
      rcases List.mem_append.mp h with h1 | h1
      · exact Or.inr h1
      · exact Or.inl h1
    · rw [if_neg ha] at h
      rcases List.mem_cons.mp h with h1 | h1
      · exact Or.inl (by simp [h1])
      · rcases ih h1 with h2 | h2
        · exact Or.inl (List.mem_cons_of_mem a h2)
        · exact Or.inr h2

theorem mem_eraseInstrFromList (l : List Instr) (tid : Nat) (i : Instr)
    (h : i ∈ eraseInstrFromList l tid) : i ∈ l := by
  induction l with
  | nil => simp [eraseInstrFromList] at h
  | cons a rest ih =>
    simp only [eraseInstrFromList] at h
    by_cases ha : a.id = tid
    · rw [if_pos ha] at h
      exact List.mem_cons_of_mem a h
    · rw [if_neg ha] at h
      rcases List.mem_cons.mp h with h1 | h1
      · rw [h1]
        exact List.mem_cons_self a rest
      · exact List.mem_cons_of_mem a (ih h1)

theorem WF_mergeEntry (gm : IRGenState) (tb tid nb : Nat) (hwf : WF gm) :
    WF (mergeEntryAndNextBlock gm tb tid nb) := by
  unfold mergeEntryAndNextBlock
  cases hnb : findBlock gm nb with
  | none => exact hwf
  | some nbblk =>
    have hnbmem : nbblk ∈ gm.blocks := List.mem_of_find?_eq_some hnb
    have hnbinstr : ∀ i ∈ nbblk.instrs, i.id < gm.nextId := (hwf.2 nbblk hnbmem).2
    constructor
    · intro f hf
      exact hwf.1 f hf
    · intro blk hb
      show blk.id < gm.nextId ∧ ∀ i ∈ blk.instrs, i.id < gm.nextId
      have hb1 : blk ∈ (updBlock (updBlock gm tb
          (fun bb => { bb with instrs := insertListBefore bb.instrs tid nbblk.instrs })) tb
          (fun bb => { bb with instrs := eraseInstrFromList bb.instrs tid })).blocks :=
        (List.mem_filter.mp hb).1
      obtain ⟨bb1, hmem1, heq1⟩ := List.mem_map.mp hb1
      obtain ⟨bb0, hmem0, heq0⟩ := List.mem_map.mp hmem1
      have hwb0 := hwf.2 bb0 hmem0
      have hbb1 : bb1.id < gm.nextId ∧ ∀ i ∈ bb1.instrs, i.id < gm.nextId := by
        rw [← heq0]
        by_cases hc : (bb0.id == tb) = true
        · rw [if_pos hc]
          refine ⟨hwb0.1, ?_⟩
          intro i hi
          rcases mem_insertListBefore _ _ _ _ hi with h2 | h2
          · exact hwb0.2 i h2
          · exact hnbinstr i h2
        · rw [if_neg (by simp at hc; simp [hc])]
          exact hwb0
      rw [← heq1]
      by_cases hc : (bb1.id == tb) = true
      · rw [if_pos hc]
        refine ⟨hbb1.1, ?_⟩
        intro i hi
        exact hbb1.2 i (mem_eraseInstrFromList _ _ _ hi)
      · rw [if_neg (by simp at hc; simp [hc])]
        exact hbb1

/-- The second half of emitFunctionEpilogue, after the return has been
emitted: the entry-terminator / nextBlock / merge sequence followed by
clearing the statement count. -/
def epilogueTail (g : IRGenState) : Option IRGenState :=
  match g.functionContext with
  | none => none
  | some c =>
    match c.data.entryTerminator with
    | none => none
    | some (tb, tid) =>
      match findInstrInBlock g tb tid with
      | none => none
      | some t =>
        let nextBlock : Option Nat :=
          if numSuccessors t.data = 1 then some (getSuccessor0 t.data) else none
        match nextBlock with
        | none => none
        | some nb =>
          let users := blockUsers g nb
          let g :=
            if users.length = 1 ∧ tid ∈ users then
              let g := mergeEntryAndNextBlock g tb tid nb
              setCtxData g (fun d => { d with entryTerminator := none })
            else g
          some (clearStatementCount g c.data.function)

theorem emitFunctionEpilogue_none_eq (g : IRGenState) :
    emitFunctionEpilogue g none = epilogueTail g := rfl

theorem epilogueTail_total (gm : IRGenState) (d : FnCtxData) (old : Option FnCtx)
    (tb tid nb lo : Nat)
    (hfc : gm.functionContext = some (FnCtx.mk d old))
    (hterm : d.entryTerminator = some (tb, tid))
    (hinstr : findInstrInBlock gm tb tid = some ⟨tid, lo, .branch nb⟩) :
    ∃ g2, epilogueTail gm = some g2 := by
  unfold epilogueTail
  rw [hfc]
  simp only [FnCtx_data_mk]
  rw [hterm]
  simp only []
  rw [hinstr]
  simp only []
  have hred : (if numSuccessors (InstrData.branch nb) = 1
      then some (getSuccessor0 (InstrData.branch nb)) else none) = some nb := rfl
  rw [hred]
  exact ⟨_, rfl⟩

theorem epilogueTail_pres (gm g' : IRGenState) (N : Nat) (d : FnCtxData)
    (old : Option FnCtx) (tb tid nb lo : Nat)
    (h : epilogueTail gm = some g')
    (hwf : WF gm)
    (hfc : gm.functionContext = some (FnCtx.mk d old))
    (hterm : d.entryTerminator = some (tb, tid))
    (hinstr : findInstrInBlock gm tb tid = some ⟨tid, lo, .branch nb⟩)
    (htb : N ≤ tb) (hnb : N ≤ nb) :
    WF g' ∧ gm.nextId ≤ g'.nextId ∧
    g'.nameTable = gm.nameTable ∧
    g'.insertionBlock = gm.insertionBlock ∧
    g'.loc = gm.loc ∧
    (∃ d2, g'.functionContext = some (FnCtx.mk d2 old) ∧
      d2.function = d.function ∧ d2.semInfo = d.semInfo ∧
      d2.savedInsertionBlock = d.savedInsertionBlock ∧ d2.savedLoc = d.savedLoc ∧
      d2.capturedThis = d.capturedThis ∧ d2.capturedNewTarget = d.capturedNewTarget ∧
      d2.capturedArguments = d.capturedArguments) ∧
    (∀ k, k < N → k ≠ d.function → findFunction g' k = findFunction gm k) ∧
    (∀ b, b < N → findBlock g' b = findBlock gm b) ∧
    (∀ f, findFunction gm d.function = some f →
      ∃ f', findFunction g' d.function = some f' ∧
        f'.lazyClosureAlias = f.lazyClosureAlias ∧ f'.name = f.name ∧
        f'.defKind = f.defKind ∧ f'.strict = f.strict ∧ f'.range = f.range) := by
  unfold epilogueTail at h
  rw [hfc] at h
  simp only [FnCtx_data_mk] at h
  rw [hterm] at h
  simp only [] at h
  rw [hinstr] at h
  simp only [] at h
  have hred : (if numSuccessors (InstrData.branch nb) = 1
      then some (getSuccessor0 (InstrData.branch nb)) else none) = some nb := rfl
  rw [hred] at h
  simp only [] at h
  have hclear : ∀ gx : IRGenState, ∀ fid2 : Nat,
      (clearStatementCount gx fid2).nameTable = gx.nameTable ∧
      (clearStatementCount gx fid2).insertionBlock = gx.insertionBlock ∧
      (clearStatementCount gx fid2).loc = gx.loc ∧
      (clearStatementCount gx fid2).nextId = gx.nextId ∧
      (clearStatementCount gx fid2).functionContext = gx.functionContext :=
    fun gx fid2 => ⟨rfl, rfl, rfl, rfl, rfl⟩
  have huSC : ∀ f : IRFunction,
      (({ f with statementCount := none } : IRFunction)).id = f.id := fun f => rfl
  have hclearF : ∀ gx : IRGenState, ∀ fid2 k : Nat, k ≠ fid2 →
      findFunction (clearStatementCount gx fid2) k = findFunction gx k := by
    intro gx fid2 k hk
    unfold clearStatementCount
    rw [findFunction_updFunction _ _ _ _ huSC, if_neg hk]
  have hclearSelf : ∀ gx : IRGenState, ∀ fid2 : Nat, ∀ f : IRFunction,
      findFunction gx fid2 = some f →
      findFunction (clearStatementCount gx fid2) fid2
        = some { f with statementCount := none } := by
    intro gx fid2 f hf
    unfold clearStatementCount
    rw [findFunction_updFunction _ _ _ _ huSC, if_pos rfl, hf]
    rfl
  have hclearWF : ∀ gx : IRGenState, ∀ fid2 : Nat, WF gx → WF (clearStatementCount gx fid2) :=
    fun gx fid2 hx => WF_updFunction gx fid2 _ (fun f => rfl) hx
  split at h
  · -- merge case
    rename_i hcond
    have h2 : clearStatementCount (setCtxData (mergeEntryAndNextBlock gm tb tid nb)
        (fun d2 => { d2 with entryTerminator := none })) d.function = g' := by
      injection h
    subst h2
    have hmergeB : ∀ b, b < N →
        findBlock (mergeEntryAndNextBlock gm tb tid nb) b = findBlock gm b := by
      intro b hb
      have hbtb : b ≠ tb := by omega
      have hbnb : b ≠ nb := by omega
      unfold mergeEntryAndNextBlock
      cases hnbf : findBlock gm nb with
      | none => rfl
      | some nbblk =>
        simp only []
        show ((updBlock (updBlock gm tb _) tb _).blocks.filter
          (fun blk => blk.id != nb)).find? (fun blk => blk.id == b) = _
        rw [find?_filter_ne_id _ nb b hbnb]
        have hu1 : ∀ bb : BasicBlock,
            (({ bb with instrs := insertListBefore bb.instrs tid nbblk.instrs }
              : BasicBlock)).id = bb.id := fun bb => rfl
        have hu2 : ∀ bb : BasicBlock,
            (({ bb with instrs := eraseInstrFromList bb.instrs tid }
              : BasicBlock)).id = bb.id := fun bb => rfl
        have e1 : (updBlock (updBlock gm tb
            (fun bb => { bb with instrs := insertListBefore bb.instrs tid nbblk.instrs }))
            tb (fun bb => { bb with instrs := eraseInstrFromList bb.instrs tid })).blocks.find?
            (fun blk => blk.id == b)
            = findBlock (updBlock (updBlock gm tb
              (fun bb => { bb with instrs := insertListBefore bb.instrs tid nbblk.instrs }))
              tb (fun bb => { bb with instrs := eraseInstrFromList bb.instrs tid })) b := rfl
        rw [e1, findBlock_updBlock _ _ _ _ hu2, if_neg hbtb,
          findBlock_updBlock _ _ _ _ hu1, if_neg hbtb]
    have hmergeK : (mergeEntryAndNextBlock gm tb tid nb).nameTable = gm.nameTable ∧
        (mergeEntryAndNextBlock gm tb tid nb).insertionBlock = gm.insertionBlock ∧
        (mergeEntryAndNextBlock gm tb tid nb).loc = gm.loc ∧
        (mergeEntryAndNextBlock gm tb tid nb).nextId = gm.nextId ∧
        (mergeEntryAndNextBlock gm tb tid nb).functionContext = gm.functionContext ∧
        (mergeEntryAndNextBlock gm tb tid nb).functions = gm.functions := by
      unfold mergeEntryAndNextBlock
      cases hnbf : findBlock gm nb with
      | none => exact ⟨rfl, rfl, rfl, rfl, rfl, rfl⟩
      | some nbblk => exact ⟨rfl, rfl, rfl, rfl, rfl, rfl⟩
    have hfcM : (setCtxData (mergeEntryAndNextBlock gm tb tid nb)
        (fun d2 => { d2 with entryTerminator := none })).functionContext
        = some (FnCtx.mk { d with entryTerminator := none } old) := by
      apply setCtxData_functionContext
      rw [hmergeK.2.2.2.2.1]
      exact hfc
    refine ⟨?_, ?_, ?_, ?_, ?_, ?_, ?_, ?_, ?_⟩
    · apply hclearWF
      exact WF_congr (mergeEntryAndNextBlock gm tb tid nb) _ (by simp) (by simp)
        (by simp) (WF_mergeEntry gm tb tid nb hwf)
    · rw [(hclear _ _).2.2.2.1]
      simp [hmergeK.2.2.2.1]
    · rw [(hclear _ _).1]
      simp [hmergeK.1]
    · rw [(hclear _ _).2.1]
      simp [hmergeK.2.1]
    · rw [(hclear _ _).2.2.1]
      simp [hmergeK.2.2.1]
    · rw [(hclear _ _).2.2.2.2, hfcM]
      exact ⟨{ d with entryTerminator := none }, rfl, rfl, rfl, rfl, rfl, rfl, rfl, rfl⟩
    · intro k hk hkf
      rw [hclearF _ _ k hkf]
      have e2 : findFunction (setCtxData (mergeEntryAndNextBlock gm tb tid nb)
          (fun d2 => { d2 with entryTerminator := none })) k
          = findFunction (mergeEntryAndNextBlock gm tb tid nb) k := by simp
      rw [e2]
      unfold findFunction
      rw [hmergeK.2.2.2.2.2]
    · intro b hb
      have e2 : findBlock (clearStatementCount (setCtxData (mergeEntryAndNextBlock gm
          tb tid nb) (fun d2 => { d2 with entryTerminator := none })) d.function) b
          = findBlock (mergeEntryAndNextBlock gm tb tid nb) b := by simp
      rw [e2]
      exact hmergeB b hb
    · intro f hf
      have e2 : findFunction (setCtxData (mergeEntryAndNextBlock gm tb tid nb)
          (fun d2 => { d2 with entryTerminator := none })) d.function
          = findFunction gm d.function := by
        simp
        unfold findFunction
        rw [hmergeK.2.2.2.2.2]
      refine ⟨{ f with statementCount := none }, ?_, rfl, rfl, rfl, rfl, rfl⟩
      apply hclearSelf
      rw [e2]
      exact hf
  · -- keep case
    rename_i hcond
    have h2 : clearStatementCount gm d.function = g' := by injection h
    subst h2
    refine ⟨hclearWF _ _ hwf, by rw [(hclear _ _).2.2.2.1], (hclear _ _).1,
      (hclear _ _).2.1, (hclear _ _).2.2.1, ?_, ?_, ?_, ?_⟩
    · rw [(hclear _ _).2.2.2.2, hfc]
      exact ⟨d, rfl, rfl, rfl, rfl, rfl, rfl, rfl, rfl⟩
    · intro k hk hkf
      exact hclearF _ _ k hkf
    · intro b hb
      have e2 : findBlock (clearStatementCount gm d.function) b = findBlock gm b := by simp
      exact e2
    · intro f hf
      exact ⟨{ f with statementCount := none }, hclearSelf _ _ f hf, rfl, rfl, rfl,
        rfl, rfl⟩

/-! ### Postconditions of the mutually recursive lowering functions -/

/-- What genES5Function guarantees on success. -/
structure E5Post (g : IRGenState) (nm : String) (lca : Option Nat) (node : FuncNode)
    (fid : Nat) (g' : IRGenState) : Prop where
  mono : g.nextId ≤ g'.nextId
  wf : WF g'
  fid_eq : fid = g.nextId
  fc : g'.functionContext = g.functionContext
  ib : g'.insertionBlock = g.insertionBlock
  nt : g'.nameTable = g.nameTable
  loc : g'.loc = g.loc
  oldF : ∀ k, k < g.nextId → findFunction g' k = findFunction g k
  oldB : ∀ b, b < g.nextId → findBlock g' b = findBlock g b
  newF : ∃ f', findFunction g' fid = some f' ∧ f'.lazyClosureAlias = lca ∧
    f'.name = nm ∧ f'.defKind = .es5Function ∧ f'.strict = node.strict

/-- What genES5FunctionRest guarantees on success. -/
structure RestPost (g : IRGenState) (fid : Nat) (r : Nat) (g' : IRGenState) : Prop where
  mono : g.nextId ≤ g'.nextId
  wf : WF g'
  r_eq : r = fid
  fc : g'.functionContext = g.functionContext
  ib : g'.insertionBlock = g.insertionBlock
  nt : g'.nameTable = g.nameTable
  loc : g'.loc = g.loc
  oldF : ∀ k, k < g.nextId → k ≠ fid → findFunction g' k = findFunction g k
  oldB : ∀ b, b < g.nextId → findBlock g' b = findBlock g b
  fidF : ∀ f, findFunction g fid = some f → ∃ f', findFunction g' fid = some f' ∧
    f'.lazyClosureAlias = f.lazyClosureAlias ∧ f'.name = f.name ∧
    f'.defKind = f.defKind ∧ f'.strict = f.strict ∧ f'.range = f.range

/-- What genFunctionDeclaration and genClosures guarantee on success. -/
structure FDPost (g g' : IRGenState) : Prop where
  mono : g.nextId ≤ g'.nextId
  wf : WF g'
  fc : g'.functionContext = g.functionContext
  ib : g'.insertionBlock = g.insertionBlock
  nt : g'.nameTable = g.nameTable
  loc : g'.loc = g.loc
  oldF : ∀ k, k < g.nextId → findFunction g' k = findFunction g k
  oldB : ∀ b, b < g.nextId → g.insertionBlock ≠ some b → findBlock g' b = findBlock g b
  oldB2 : ∀ b, b < g.nextId → ∃ added, findBlock g' b = (findBlock g b).map
    (fun blk => { blk with instrs := blk.instrs ++ added })

/-- What emitFunctionPrologue guarantees on success. -/
structure ProPost (g : IRGenState) (params : List String) (g' : IRGenState) : Prop where
  mono : g.nextId ≤ g'.nextId
  wf : WF g'
  nt : ∀ hd tl, g.nameTable = hd :: tl → ∃ hd2, g'.nameTable = hd2 :: tl
  oldF : ∀ d old, g.functionContext = some (FnCtx.mk d old) →
    ∀ k, k < g.nextId → k ≠ d.function → findFunction g' k = findFunction g k
  oldB : ∀ b, b < g.nextId → findBlock g' b = findBlock g b
  term : ∀ d old, g.functionContext = some (FnCtx.mk d old) →
    ∃ entry tid nb lo,
      entry = g.nextId ∧ entry < nb ∧ tid = nb + 1 ∧ g'.nextId = tid + 1 ∧
      g'.functionContext
        = some (FnCtx.mk { d with entryTerminator := some (entry, tid) } old) ∧
      g'.insertionBlock = some nb ∧
      findBlock g' nb = some ⟨nb, d.function, []⟩ ∧
      findInstrInBlock g' entry tid = some ⟨tid, lo, .branch nb⟩
  fidP : ∀ d old, g.functionContext = some (FnCtx.mk d old) →
    ∀ f, findFunction g d.function = some f →
      ∃ f', findFunction g' d.function = some f' ∧
        f'.lazyClosureAlias = f.lazyClosureAlias ∧ f'.name = f.name ∧
        f'.defKind = f.defKind ∧ f'.strict = f.strict ∧ f'.range = f.range ∧
        f'.params.map Prod.snd = f.params.map Prod.snd ++ "this" :: params

theorem FDPost_id (g : IRGenState) (hwf : WF g) : FDPost g g := by
  refine ⟨Nat.le_refl _, hwf, rfl, rfl, rfl, rfl, fun _ _ => rfl, fun _ _ _ => rfl, ?_⟩
  intro b _
  refine ⟨[], ?_⟩
  cases hfb : findBlock g b <;> simp

theorem FDPost_trans (g g2 g3 : IRGenState) (h1 : FDPost g g2) (h2 : FDPost g2 g3) :
    FDPost g g3 := by
  refine ⟨Nat.le_trans h1.mono h2.mono, h2.wf, h2.fc.trans h1.fc, h2.ib.trans h1.ib,
    h2.nt.trans h1.nt, h2.loc.trans h1.loc, ?_, ?_, ?_⟩
  · intro k hk
    exact (h2.oldF k (by have := h1.mono; omega)).trans (h1.oldF k hk)
  · intro b hb hib
    have hib2 : g2.insertionBlock ≠ some b := by rw [h1.ib]; exact hib
    exact (h2.oldB b (by have := h1.mono; omega) hib2).trans (h1.oldB b hb hib)
  · intro b hb
    obtain ⟨a1, e1⟩ := h1.oldB2 b hb
    obtain ⟨a2, e2⟩ := h2.oldB2 b (by have := h1.mono; omega)
    refine ⟨a1 ++ a2, ?_⟩
    rw [e2, e1]
    cases hfb : findBlock g b <;> simp [List.append_assoc]

theorem paramsStubLoop_pres2 (names : List String) :
    ∀ g fid, g.nextId ≤ (paramsStubLoop g fid names).nextId ∧
      (∀ k, k ≠ fid → findFunction (paramsStubLoop g fid names) k = findFunction g k) ∧
      (WF g → WF (paramsStubLoop g fid names)) := by
  induction names with
  | nil => exact fun g fid => ⟨Nat.le_refl _, fun _ _ => rfl, fun h => h⟩
  | cons n rest ih =>
    intro g fid
    obtain ⟨i1, i2, i3⟩ := ih (createParameter g fid n).2 fid
    refine ⟨?_, ?_, ?_⟩
    · show g.nextId ≤ (paramsStubLoop (createParameter g fid n).2 fid rest).nextId
      have : (createParameter g fid n).2.nextId = g.nextId + 1 := by simp
      omega
    · intro k hk
      show findFunction (paramsStubLoop (createParameter g fid n).2 fid rest) k = _
      rw [i2 k hk]
      exact findFunction_createParameter_other g fid k n hk
    · intro hwf
      exact i3 (WF_createParameter g fid n hwf)

theorem emit_findBlock_none (g : IRGenState) (d : InstrData) (i : Nat) (g' : IRGenState)
    (b : Nat) (h : emit g d = some (i, g')) (hb : findBlock g b = none) :
    findBlock g' b = none := by
  obtain ⟨b0, blk0, hib, hblk, hi, hg⟩ := emit_eq g d i g' h
  subst hg
  have hu : ∀ bb : BasicBlock,
      ({ bb with instrs := bb.instrs ++ [{ id := g.nextId, loc := g.loc, data := d }] }
        : BasicBlock).id = bb.id := fun bb => rfl
  rw [findBlock_updBlock _ _ _ _ hu]
  by_cases hc : b = b0
  · rw [if_pos hc]
    have : findBlock { g with nextId := g.nextId + 1 } b = findBlock g b := rfl
    rw [this, hb]
    rfl
  · rw [if_neg hc]
    exact hb

theorem emitStoreTo_findBlock_none (g : IRGenState) (v : Value) (s : Storage)
    (g' : IRGenState) (b : Nat) (h : emitStoreTo g v s = some g')
    (hb : findBlock g b = none) : findBlock g' b = none := by
  unfold emitStoreTo at h
  cases s with
  | frameVar w =>
    simp only [] at h
    cases hemit : emit g (.storeFrame v w) with
    | none => rw [hemit] at h; cases h
    | some p =>
      rw [hemit] at h
      simp only [Option.map_some', Option.some.injEq] at h
      subst h
      exact emit_findBlock_none g _ p.1 p.2 b (by rw [hemit]) hb
  | globalProp n =>
    simp only [] at h
    cases hemit : emit g (.storeGlobalProp v n) with
    | none => rw [hemit] at h; cases h
    | some p =>
      rw [hemit] at h
      simp only [Option.map_some', Option.some.injEq] at h
      subst h
      exact emit_findBlock_none g _ p.1 p.2 b (by rw [hemit]) hb

theorem emitFunctionEpilogue_pres_some (g g' : IRGenState) (v : Value) (N : Nat)
    (d : FnCtxData) (old : Option FnCtx) (tb tid nb lo : Nat)
    (h : emitFunctionEpilogue g (some v) = some g')
    (hwf : WF g)
    (hfc : g.functionContext = some (FnCtx.mk d old))
    (hterm : d.entryTerminator = some (tb, tid))
    (hinstr : findInstrInBlock g tb tid = some ⟨tid, lo, .branch nb⟩)
    (hib : g.insertionBlock = some nb)
    (htbnb : tb ≠ nb)
    (htb : N ≤ tb) (hnb : N ≤ nb) :
    WF g' ∧ g.nextId ≤ g'.nextId ∧
    g'.nameTable = g.nameTable ∧
    g'.insertionBlock = g.insertionBlock ∧
    (∃ d2, g'.functionContext = some (FnCtx.mk d2 old) ∧
      d2.function = d.function ∧ d2.semInfo = d.semInfo ∧
      d2.savedInsertionBlock = d.savedInsertionBlock ∧ d2.savedLoc = d.savedLoc ∧
      d2.capturedThis = d.capturedThis ∧ d2.capturedNewTarget = d.capturedNewTarget ∧
      d2.capturedArguments = d.capturedArguments) ∧
    (∀ k, k < N → k ≠ d.function → findFunction g' k = findFunction g k) ∧
    (∀ b, b < N → findBlock g' b = findBlock g b) ∧
    (∀ f, findFunction g d.function = some f →
      ∃ f', findFunction g' d.function = some f' ∧
        f'.lazyClosureAlias = f.lazyClosureAlias ∧ f'.name = f.name ∧
        f'.defKind = f.defKind ∧ f'.strict = f.strict ∧ f'.range = f.range) := by
  have h2 : (match (match builderGetFunction g with
        | none => none
        | some bf =>
          match findFunction g bf with
          | none => none
          | some f =>
            (emit (setLocation g (convertEndToLocation f.range)) (.ret v)).map
              (fun p => p.2)) with
      | none => none
      | some gm => epilogueTail gm) = some g' := h
  clear h
  split at h2
  · exact Option.noConfusion h2
  · rename_i gm hstep1
    split at hstep1
    · exact Option.noConfusion hstep1
    · rename_i bf hbf
      split at hstep1
      · exact Option.noConfusion hstep1
      · rename_i f0 hfind
        cases hemit : emit (setLocation g (convertEndToLocation f0.range)) (.ret v) with
        | none => rw [hemit] at hstep1; cases hstep1
        | some p =>
          rw [hemit] at hstep1
          simp only [Option.map_some', Option.some.injEq] at hstep1
          subst hstep1
          obtain ⟨k1, k2, k3, k4, k5, _, k7, _⟩ := emit_keeps _ _ p.1 p.2 (by rw [hemit])
          have eB := BPres_emit 0 (setLocation g (convertEndToLocation f0.range)) _
            p.1 p.2 (by rw [hemit])
          have hibs : (setLocation g (convertEndToLocation f0.range)).insertionBlock
              = some nb := hib
          rw [hibs] at eB
          have hfcm : p.2.functionContext = some (FnCtx.mk d old) := by
            rw [k5]
            exact hfc
          have hblk_tb : findBlock p.2 tb = findBlock g tb :=
            eB.2.2.2.2.2.1 tb (fun hx => htbnb (Option.some.inj hx).symm)
          have hinstrm : findInstrInBlock p.2 tb tid
              = some ⟨tid, lo, .branch nb⟩ := by
            unfold findInstrInBlock at hinstr ⊢
            rw [hblk_tb]
            exact hinstr
          have hwfm : WF p.2 :=
            eB.2.2.2.2.2.2.2 (WF_congr g _ rfl rfl rfl hwf)
          have T := epilogueTail_pres p.2 g' N d old tb tid nb lo h2 hwfm hfcm hterm
            hinstrm htb hnb
          have hfunm : ∀ k : Nat, findFunction p.2 k = findFunction g k := by
            intro k
            unfold findFunction
            rw [k2]
            rfl
          refine ⟨T.1, ?_, ?_, ?_, T.2.2.2.2.2.1, ?_, ?_, ?_⟩
          · have hk7 : p.2.nextId = g.nextId + 1 := k7
            have := T.2.1
            omega
          · rw [T.2.2.1]
            exact k1
          · rw [T.2.2.2.1]
            exact k3
          · intro k hk hkf
            rw [T.2.2.2.2.2.2.1 k hk hkf]
            exact hfunm k
          · intro b hb
            rw [T.2.2.2.2.2.2.2.1 b hb]
            exact eB.2.2.2.2.2.1 b (fun hx => by
              have := Option.some.inj hx
              omega)
          · intro f hf
            apply T.2.2.2.2.2.2.2.2
            rw [hfunm d.function]
            exact hf

def lazySet (nt : List (List (String × Storage))) (bufId : Nat) (kd : NodeKind)
    (rg : SMRange) : IRFunction → IRFunction :=
  fun f => { f with lazyScope := some nt, lazySource := some { bufferId := bufId, nodeKind := kd, functionRange := rg } }

def lazyStubPre (g : IRGenState) (nm : String) (lca : Option Nat) (st : Bool)
    (br rg : SMRange) (bufId : Nat) (kd : NodeKind) : IRGenState :=
  (createParameter
    (updFunction
      (updFunction (createFunction g nm .es5Function st br).2 g.nextId
        (fun f => { f with lazyClosureAlias := lca }))
      g.nextId (lazySet g.nameTable bufId kd rg))
    g.nextId "this").2

theorem genES5Full_post (fuel : Nat)
    (ihRest : ∀ g fid node r g', WF g →
      genES5FunctionRest fuel g fid node = some (r, g') → RestPost g fid r g')
    (g : IRGenState) (nm : String) (lca : Option Nat) (node : FuncNode)
    (fid : Nat) (g' : IRGenState) (hwf : WF g)
    (h : genES5FunctionRest fuel
      (updFunction (createFunction g nm .es5Function node.strict node.body.range).2
        g.nextId (fun f => { f with lazyClosureAlias := lca }))
      g.nextId node = some (fid, g')) :
    E5Post g nm lca node fid g' := by
  have hu : ∀ x : IRFunction,
      (({ x with lazyClosureAlias := lca } : IRFunction)).id = x.id := fun x => rfl
  have hwf2 : WF (updFunction
      (createFunction g nm .es5Function node.strict node.body.range).2
      g.nextId (fun f => { f with lazyClosureAlias := lca })) :=
    WF_updFunction _ _ _ hu (WF_createFunction g nm _ node.strict _ hwf)
  have P := ihRest _ _ node fid g' hwf2 h
  have hnid : (updFunction
      (createFunction g nm .es5Function node.strict node.body.range).2
      g.nextId (fun f => { f with lazyClosureAlias := lca })).nextId = g.nextId + 1 := rfl
  have hfresh : findFunction g g.nextId = none :=
    findFunction_none_of_ge g _ hwf (Nat.le_refl _)
  have hcf : findFunction (createFunction g nm .es5Function node.strict
      node.body.range).2 g.nextId
      = some { id := g.nextId, name := nm, defKind := .es5Function,
               strict := node.strict, range := node.body.range, params := [], vars := [],
               lazyClosureAlias := none, lazyScope := none, lazySource := none,
               statementCount := none } :=
    findFunction_append_fresh g _ hfresh
  have hG2fid : findFunction (updFunction
      (createFunction g nm .es5Function node.strict node.body.range).2
      g.nextId (fun f => { f with lazyClosureAlias := lca })) g.nextId
      = some { id := g.nextId, name := nm, defKind := .es5Function,
               strict := node.strict, range := node.body.range, params := [], vars := [],
               lazyClosureAlias := lca, lazyScope := none, lazySource := none,
               statementCount := none } := by
    rw [findFunction_updFunction _ _ _ _ hu, if_pos rfl, hcf]
    rfl
  have hGk : ∀ k, k < g.nextId → findFunction (updFunction
      (createFunction g nm .es5Function node.strict node.body.range).2
      g.nextId (fun f => { f with lazyClosureAlias := lca })) k = findFunction g k := by
    intro k hk
    rw [findFunction_updFunction _ _ _ _ hu, if_neg (by omega)]
    exact findFunction_createFunction_old g nm _ node.strict _ k (by omega)
  refine ⟨?_, P.wf, P.r_eq, P.fc.trans rfl, P.ib.trans rfl, P.nt.trans rfl,
    P.loc.trans rfl, ?_, ?_, ?_⟩
  · have := P.mono
    rw [hnid] at this
    omega
  · intro k hk
    have h1 := P.oldF k (by rw [hnid]; omega) (by omega)
    exact h1.trans (hGk k hk)
  · intro b hb
    have h1 := P.oldB b (by rw [hnid]; omega)
    exact h1.trans rfl
  · obtain ⟨f2, e1, e2, e3, e4, e5, e6⟩ := P.fidF _ hG2fid
    refine ⟨f2, ?_, e2, e3, e4, e5⟩
    rw [P.r_eq]
    exact e1

theorem clusterPres : ∀ fuel : Nat,
    (∀ g nm lca node fid g', WF g →
      genES5Function fuel g nm lca node = some (fid, g') → E5Post g nm lca node fid g') ∧
    (∀ g fid node r g', WF g →
      genES5FunctionRest fuel g fid node = some (r, g') → RestPost g fid r g') ∧
    (∀ g node g', WF g → genFunctionDeclaration fuel g node = some g' → FDPost g g') ∧
    (∀ g l g', WF g → genClosures fuel g l = some g' → FDPost g g') ∧
    (∀ g params g', WF g →
      emitFunctionPrologue fuel g params = some g' → ProPost g params g') := by
  intro fuel
  induction fuel with
  | zero =>
    refine ⟨?_, ?_, ?_, ?_, ?_⟩
    · intro g nm lca node fid g' hwf h
      exact Option.noConfusion h
    · intro g fid node r g' hwf h
      exact Option.noConfusion h
    · intro g node g' hwf h
      exact Option.noConfusion h
    · intro g l g' hwf h
      exact Option.noConfusion h
    · intro g params g' hwf h
      exact Option.noConfusion h
  | succ fuel ih =>
    obtain ⟨ihE5, ihRest, ihFD, ihGC, ihPro⟩ := ih
    refine ⟨?_, ?_, ?_, ?_, ?_⟩
    · -- genES5Function
      intro g nm lca node fid g' hwf h
      obtain ⟨idn, ps, st, rg, kd, bd, sd, sc, caf, cafu, lb⟩ := node
      cases bd with
      | block lazyflag bufId br bs =>
        cases lazyflag with
        | false =>
          exact genES5Full_post fuel ihRest g nm lca
            (FuncNode.mk idn ps st rg kd (.block false bufId br bs) sd sc caf cafu lb)
            fid g' hwf h
        | true =>
          have hfresh : findFunction g g.nextId = none :=
            findFunction_none_of_ge g _ hwf (Nat.le_refl _)
          have h3 : some (g.nextId,
              paramsStubLoop (lazyStubPre g nm lca st br rg bufId kd) g.nextId ps)
              = some (fid, g') := h
          simp only [Option.some.injEq, Prod.mk.injEq] at h3
          obtain ⟨hfid, hgs⟩ := h3
          subst hgs
          subst hfid
          have hu1 : ∀ x : IRFunction,
              (({ x with lazyClosureAlias := lca } : IRFunction)).id = x.id :=
            fun x => rfl
          have hu2 : ∀ x : IRFunction, (lazySet g.nameTable bufId kd rg x).id = x.id :=
            fun x => rfl
          have hf0 : findFunction (createFunction g nm DefinitionKind.es5Function st
              br).2 g.nextId
              = some { id := g.nextId, name := nm, defKind := .es5Function,
                       strict := st, range := br, params := [], vars := [],
                       lazyClosureAlias := none, lazyScope := none, lazySource := none,
                       statementCount := none } :=
            findFunction_append_fresh g _ hfresh
          have hf1 : findFunction
              (updFunction (createFunction g nm DefinitionKind.es5Function st br).2
                g.nextId (fun f => { f with lazyClosureAlias := lca })) g.nextId
              = some { id := g.nextId, name := nm, defKind := .es5Function,
                       strict := st, range := br, params := [], vars := [],
                       lazyClosureAlias := lca, lazyScope := none, lazySource := none,
                       statementCount := none } := by
            rw [findFunction_updFunction _ _ _ _ hu1, if_pos rfl, hf0]
            rfl
          have hf2 : findFunction
              (updFunction
                (updFunction (createFunction g nm DefinitionKind.es5Function st br).2
                  g.nextId (fun f => { f with lazyClosureAlias := lca }))
                g.nextId (lazySet g.nameTable bufId kd rg)) g.nextId
              = some { id := g.nextId, name := nm, defKind := .es5Function,
                       strict := st, range := br, params := [], vars := [],
                       lazyClosureAlias := lca, lazyScope := some g.nameTable,
                       lazySource := some { bufferId := bufId, nodeKind := kd, functionRange := rg },
                       statementCount := none } := by
            rw [findFunction_updFunction _ _ _ _ hu2, if_pos rfl, hf1]
            rfl
          have hf3 : findFunction (lazyStubPre g nm lca st br rg bufId kd) g.nextId
              = some { id := g.nextId, name := nm, defKind := .es5Function,
                       strict := st, range := br,
                       params := [(g.nextId + 1, "this")], vars := [],
                       lazyClosureAlias := lca, lazyScope := some g.nameTable,
                       lazySource := some { bufferId := bufId, nodeKind := kd, functionRange := rg },
                       statementCount := none } :=
            findFunction_createParameter_self _ _ _ _ hf2
          have spec := paramsStubLoop_spec ps (lazyStubPre g nm lca st br rg bufId kd)
            g.nextId _ hf3
          have pres2 := paramsStubLoop_pres2 ps (lazyStubPre g nm lca st br rg bufId kd)
            g.nextId
          refine ⟨?_, ?_, rfl, spec.2.2.1.trans rfl, spec.2.2.2.2.1.trans rfl,
            spec.2.1.trans rfl, spec.2.2.2.2.2.1.trans rfl, ?_, ?_, ?_⟩
          · have e1 : (lazyStubPre g nm lca st br rg bufId kd).nextId
                = g.nextId + 2 := rfl
            have := pres2.1
            omega
          · exact pres2.2.2 (WF_createParameter _ _ _ (WF_updFunction _ _ _ hu2
              (WF_updFunction _ _ _ hu1 (WF_createFunction g nm _ st br hwf))))
          · intro k hk
            rw [pres2.2.1 k (by omega)]
            show findFunction
              (createParameter
                (updFunction
                  (updFunction (createFunction g nm DefinitionKind.es5Function st br).2
                    g.nextId (fun f => { f with lazyClosureAlias := lca }))
                  g.nextId (lazySet g.nameTable bufId kd rg))
                g.nextId "this").2 k = findFunction g k
            rw [findFunction_createParameter_other _ _ _ _ (by omega)]
            rw [findFunction_updFunction _ _ _ _ hu2, if_neg (by omega)]
            rw [findFunction_updFunction _ _ _ _ hu1, if_neg (by omega)]
            exact findFunction_createFunction_old g nm _ st br k (by omega)
          · intro b hb
            unfold findBlock
            rw [spec.1]
            rfl
          · exact ⟨_, spec.2.2.2.2.2.2.2, rfl, rfl, rfl, rfl⟩
      | expr t r0 =>
        exact genES5Full_post fuel ihRest g nm lca
          (FuncNode.mk idn ps st rg kd (.expr t r0) sd sc caf cafu lb)
          fid g' hwf h
    · -- genES5FunctionRest
      intro g fid node r g' hwf h
      have h2 : (match emitFunctionPrologue fuel
            (mkFunctionContext g fid (some node.getSemInfo)) node.params with
          | none => none
          | some gP =>
            match initCaptureStateInES5Function gP with
            | none => none
            | some gI =>
              match genStatement gI node.body with
              | none => none
              | some gS =>
                match emitFunctionEpilogue gS (some Value.litUndefined) with
                | none => none
                | some gE =>
                  match gE.functionContext with
                  | none => none
                  | some c => some (c.data.function, destroyFunctionContext gE))
          = some (r, g') := h
      clear h
      split at h2
      · exact Option.noConfusion h2
      · rename_i gP hpro
        split at h2
        · exact Option.noConfusion h2
        · rename_i gI hinit
          split at h2
          · exact Option.noConfusion h2
          · rename_i gS hstmt
            split at h2
            · exact Option.noConfusion h2
            · rename_i gE hepi
              split at h2
              · exact Option.noConfusion h2
              · rename_i c hc
                obtain ⟨D, hfcM, hDfun, hDsib, hDsloc⟩ :
                    ∃ D : FnCtxData,
                      (mkFunctionContext g fid
                        (some node.getSemInfo)).functionContext
                        = some (FnCtx.mk D g.functionContext) ∧
                      D.function = fid ∧
                      D.savedInsertionBlock = g.insertionBlock ∧
                      D.savedLoc = g.loc :=
                  ⟨_, rfl, rfl, rfl, rfl⟩
                have hwfM : WF (mkFunctionContext g fid (some node.getSemInfo)) :=
                  WF_congr g _ rfl rfl rfl hwf
                have P := ihPro (mkFunctionContext g fid (some node.getSemInfo))
                  node.params gP hwfM hpro
                obtain ⟨entry, tid, nb, lo, hentry, hlt, htid, hnxP, hfcP, hibP,
                  hblkP, hinstrP⟩ := P.term D g.functionContext hfcM
                have hentry2 : entry = g.nextId := hentry
                obtain ⟨q1, q2, q3, q4, qK, q6, q7, q8, q9⟩ :=
                  initCaptureState_pres gP gI
                    { D with entryTerminator := some (entry, tid) }
                    g.functionContext hfcP hinit
                obtain ⟨dI, hfcI, hIfun, hIsem, hIterm, hIsib, hIsloc⟩ := qK
                have hIfun2 : dI.function = fid := hIfun.trans hDfun
                have hIterm2 : dI.entryTerminator = some (entry, tid) := hIterm
                have hIsib2 : dI.savedInsertionBlock = g.insertionBlock :=
                  hIsib.trans hDsib
                have hIsloc2 : dI.savedLoc = g.loc := hIsloc.trans hDsloc
                obtain ⟨s1, s2, s3, s4, s5, s6, s7, s8⟩ :=
                  genStatement_pres node.body gI gS hstmt
                have hfcS : gS.functionContext
                    = some (FnCtx.mk dI g.functionContext) := s6.trans hfcI
                have hibI : gI.insertionBlock = some nb := q3.trans hibP
                have hibS : gS.insertionBlock = some nb := s4.trans hibI
                have hwfS : WF gS := s8 (q9 P.wf)
                have hneP : gP.insertionBlock ≠ some entry := by
                  rw [hibP]
                  intro hx
                  have := Option.some.inj hx
                  omega
                have hneI : gI.insertionBlock ≠ some entry := by
                  rw [hibI]
                  intro hx
                  have := Option.some.inj hx
                  omega
                have hinstrI : findInstrInBlock gI entry tid
                    = some ⟨tid, lo, .branch nb⟩ := by
                  unfold findInstrInBlock at hinstrP ⊢
                  rw [q7 entry hneP]
                  exact hinstrP
                have hinstrS : findInstrInBlock gS entry tid
                    = some ⟨tid, lo, .branch nb⟩ := by
                  unfold findInstrInBlock at hinstrI ⊢
                  rw [s7 entry hneI]
                  exact hinstrI
                obtain ⟨e1, e2, e3, e4, e5, e6, e7, e8⟩ :=
                  emitFunctionEpilogue_pres_some gS gE Value.litUndefined g.nextId
                    dI g.functionContext entry tid nb lo hepi hwfS hfcS hIterm2
                    hinstrS hibS (by omega) (by omega) (by omega)
                obtain ⟨dE, hfcE, hEfun, hEsem, hEsib, hEsloc, _, _, _⟩ := e5
                have hceq : c = FnCtx.mk dE g.functionContext :=
                  Option.some.inj (hc.symm.trans hfcE)
                subst hceq
                have hdes : destroyFunctionContext gE
                    = { gE with functionContext := g.functionContext, nameTable := ntPop gE.nameTable, insertionBlock := dE.savedInsertionBlock, loc := dE.savedLoc } := by
                  unfold destroyFunctionContext
                  rw [hfcE]
                  rfl
                have hpair := Option.some.inj h2
                have hr : dE.function = r := congrArg Prod.fst hpair
                have hg2 : destroyFunctionContext gE = g' :=
                  congrArg Prod.snd hpair
                rw [hdes] at hg2
                subst hg2
                have hmP : g.nextId ≤ gP.nextId := P.mono
                obtain ⟨hd2, hntP⟩ := P.nt [] g.nameTable rfl
                have hntE : gE.nameTable = hd2 :: g.nameTable :=
                  e3.trans (s3.trans (q2.trans hntP))
                refine ⟨?_, ?_, ?_, rfl, ?_, ?_, ?_, ?_, ?_, ?_⟩
                · show g.nextId ≤ gE.nextId
                  omega
                · exact WF_congr gE _ rfl rfl rfl e1
                · exact hr.symm.trans (hEfun.trans hIfun2)
                · show dE.savedInsertionBlock = g.insertionBlock
                  exact hEsib.trans hIsib2
                · show ntPop gE.nameTable = g.nameTable
                  rw [hntE]
                  rfl
                · show dE.savedLoc = g.loc
                  exact hEsloc.trans hIsloc2
                · intro k hk hkf
                  show findFunction gE k = findFunction g k
                  rw [e6 k (by omega) (by rw [hIfun2]; exact hkf)]
                  have hSI : findFunction gS k = findFunction gI k := by
                    unfold findFunction
                    rw [s2]
                  rw [hSI, q6 k (fun hx => hkf (hx.trans hDfun)),
                    P.oldF D g.functionContext hfcM k hk
                      (fun hx => hkf (hx.trans hDfun))]
                  rfl
                · intro b hb
                  show findBlock gE b = findBlock g b
                  rw [e7 b (by omega)]
                  rw [s7 b (by
                    rw [hibI]
                    intro hx
                    have := Option.some.inj hx
                    omega)]
                  rw [q7 b (by
                    rw [hibP]
                    intro hx
                    have := Option.some.inj hx
                    omega)]
                  rw [P.oldB b hb]
                  rfl
                · intro f hf
                  have hfM : findFunction (mkFunctionContext g fid
                      (some node.getSemInfo)) D.function = some f := by
                    rw [hDfun]
                    exact hf
                  obtain ⟨f1, hf1, a1, a2, a3, a4, a5, _⟩ :=
                    P.fidP D g.functionContext hfcM f hfM
                  have hf1b : findFunction gP
                      ({ D with entryTerminator := some (entry, tid) }
                        : FnCtxData).function = some f1 := hf1
                  obtain ⟨f2, hf2, b1, b2, b3, b4, b5⟩ := q8 f1 hf1b
                  have hDfun2 : ({ D with entryTerminator := some (entry, tid) }
                      : FnCtxData).function = fid := hDfun
                  have hf2b : findFunction gI fid = some f2 := by
                    rw [← hDfun2]
                    exact hf2
                  have hf3 : findFunction gS fid = some f2 := by
                    unfold findFunction
                    rw [s2]
                    exact hf2b
                  have hf3b : findFunction gS dI.function = some f2 := by
                    rw [hIfun2]
                    exact hf3
                  obtain ⟨f4, hf4, c1, c2, c3, c4, c5⟩ := e8 f2 hf3b
                  have hf4b : findFunction gE fid = some f4 := by
                    rw [← hIfun2]
                    exact hf4
                  exact ⟨f4, hf4b, c1.trans (b1.trans a1), c2.trans (b2.trans a2),
                    c3.trans (b3.trans a3), c4.trans (b4.trans a4),
                    c5.trans (b5.trans a5)⟩
    · -- genFunctionDeclaration
      intro g node g' hwf h
      have h2 : (match node.idName with
          | none => none
          | some functionName =>
            match ntLookup g.nameTable functionName with
            | none => none
            | some funcStorage =>
              match genES5Function fuel g functionName none node with
              | none => none
              | some (newFunc, g2) =>
                match emit g2 (.createFunction newFunc) with
                | none => none
                | some (newClosure, g3) =>
                  emitStoreTo g3 (.instRef newClosure) funcStorage) = some g' := h
      clear h
      split at h2
      · exact Option.noConfusion h2
      · rename_i fn hid
        split at h2
        · exact Option.noConfusion h2
        · rename_i st0 hnt
          split at h2
          · exact Option.noConfusion h2
          · rename_i nf g2 hE5
            split at h2
            · exact Option.noConfusion h2
            · rename_i nc g3 hemit
              have P := ihE5 g fn none node nf g2 hwf hE5
              obtain ⟨k1, k2, k3, k4, k5, _, k7, _⟩ := emit_keeps g2 _ nc g3 hemit
              obtain ⟨s1, s2, s3, s4, s5, s6⟩ := emitStoreTo_keeps g3 _ _ g' h2
              have sL := LPres_emitStoreTo 0 g3 _ _ g' h2
              have eL := LPres_emit 0 g2 _ nc g3 hemit
              have hib2 : g2.insertionBlock = g.insertionBlock := P.ib
              have hib3 : g3.insertionBlock = g.insertionBlock := k3.trans P.ib
              rw [hib2] at eL
              rw [hib3] at sL
              have hfun3 : ∀ k, findFunction g' k = findFunction g2 k := by
                intro k
                unfold findFunction
                rw [s2, k2]
              refine ⟨?_, ?_, ?_, ?_, ?_, ?_, ?_, ?_, ?_⟩
              · have := P.mono
                omega
              · exact sL.2.2.2.2.2.2.2.2 (eL.2.2.2.2.2.2.2.2 P.wf)
              · exact s5.trans (k5.trans P.fc)
              · exact s3.trans hib3
              · exact s1.trans (k1.trans P.nt)
              · exact s4.trans (k4.trans P.loc)
              · intro k hk
                exact (hfun3 k).trans (P.oldF k hk)
              · intro b hb hib
                exact ((sL.2.2.2.2.2.1 b hib).trans (eL.2.2.2.2.2.1 b hib)).trans
                  (P.oldB b hb)
              · intro b hb
                cases hfb : findBlock g b with
                | none =>
                  refine ⟨[], ?_⟩
                  have h2b : findBlock g2 b = none := (P.oldB b hb).trans hfb
                  have h3b : findBlock g3 b = none :=
                    emit_findBlock_none g2 _ nc g3 b hemit h2b
                  rw [emitStoreTo_findBlock_none g3 _ _ g' b h2 h3b]
                  rfl
                | some blk =>
                  have h2b : findBlock g2 b = some blk := (P.oldB b hb).trans hfb
                  obtain ⟨a1, e1⟩ := eL.2.2.2.2.2.2.1 b blk h2b
                  obtain ⟨a2, e2⟩ := sL.2.2.2.2.2.2.1 b _ e1
                  refine ⟨a1 ++ a2, ?_⟩
                  rw [e2]
                  simp [List.append_assoc]
    · -- genClosures
      intro g l g' hwf h
      cases l with
      | nil =>
        have h2 : some g = some g' := h
        have h3 : g = g' := by injection h2
        subst h3
        exact FDPost_id g hwf
      | cons fd rest =>
        have h2 : (match genFunctionDeclaration fuel g fd with
            | none => none
            | some g2 => genClosures fuel g2 rest) = some g' := h
        clear h
        split at h2
        · exact Option.noConfusion h2
        · rename_i g2 hFD
          exact FDPost_trans g g2 g' (ihFD g fd g2 hwf hFD)
            (ihGC g2 rest g' (ihFD g fd g2 hwf hFD).wf h2)
    · -- emitFunctionPrologue
      intro g params g' hwf h
      have h2 : (match g.functionContext with
          | none => none
          | some c =>
            match c.data.semInfo with
            | none => none
            | some semInfo =>
              match findFunction g c.data.function with
              | none => none
              | some newFunc =>
                match declsLoop
                    (setInsertionBlock
                      (createBasicBlock (setLocation g newFunc.range.startLoc)
                        c.data.function).2
                      (some (createBasicBlock (setLocation g newFunc.range.startLoc)
                        c.data.function).1))
                    c.data.function semInfo.decls with
                | none => none
                | some gB =>
                  match closureDeclLoop gB c.data.function semInfo.closures with
                  | none => none
                  | some gC =>
                    match paramsLoop (createParameter gC c.data.function "this").2
                        c.data.function params with
                    | none => none
                    | some gE =>
                      match genClosures fuel gE semInfo.closures with
                      | none => none
                      | some gF =>
                        match emit (createBasicBlock gF c.data.function).2
                            (.branch (createBasicBlock gF c.data.function).1) with
                        | none => none
                        | some (tid, gG) =>
                          some (setInsertionBlock
                            (setCtxData gG (fun d2 => { d2 with entryTerminator := some ((createBasicBlock (setLocation g newFunc.range.startLoc) c.data.function).1, tid) }))
                            (some (createBasicBlock gF c.data.function).1)))
          = some g' := h
      clear h
      split at h2
      · exact Option.noConfusion h2
      · rename_i c hfc
        obtain ⟨d, old⟩ := c
        simp only [FnCtx_data_mk] at h2
        split at h2
        · exact Option.noConfusion h2
        · rename_i si hsem
          split at h2
          · exact Option.noConfusion h2
          · rename_i newFunc hfind
            split at h2
            · exact Option.noConfusion h2
            · rename_i gB hdecls
              split at h2
              · exact Option.noConfusion h2
              · rename_i gC hclo
                split at h2
                · exact Option.noConfusion h2
                · rename_i gE hparam
                  split at h2
                  · exact Option.noConfusion h2
                  · rename_i gF hGC
                    split at h2
                    · exact Option.noConfusion h2
                    · rename_i tid gG hemit
                      have hg' : setInsertionBlock
                          (setCtxData gG (fun d2 => { d2 with entryTerminator := some ((createBasicBlock (setLocation g newFunc.range.startLoc) d.function).1, tid) }))
                          (some (createBasicBlock gF d.function).1) = g' := by
                        injection h2
                      subst hg'
                      obtain ⟨dL, dnt, dpar⟩ :=
                        declsLoop_pres d.function si.decls _ gB hdecls
                      obtain ⟨cL, cnt, cpar, cblk, clen⟩ :=
                        closureDeclLoop_pres d.function si.closures gB gC hclo
                      obtain ⟨pL, pnt, ppar, pin, pout⟩ :=
                        paramsLoop_pres d.function params _ gE hparam
                      have hibA : (setInsertionBlock
                          (createBasicBlock (setLocation g newFunc.range.startLoc)
                            d.function).2
                          (some (createBasicBlock (setLocation g newFunc.range.startLoc)
                            d.function).1)).insertionBlock
                          = some (createBasicBlock (setLocation g newFunc.range.startLoc)
                            d.function).1 := rfl
                      rw [hibA] at dL
                      have hibB : gB.insertionBlock
                          = some (createBasicBlock (setLocation g newFunc.range.startLoc)
                            d.function).1 := dL.2.1.trans hibA
                      rw [hibB] at cL
                      have hibC : gC.insertionBlock
                          = some (createBasicBlock (setLocation g newFunc.range.startLoc)
                            d.function).1 := cL.2.1.trans hibB
                      have hibD : (createParameter gC d.function "this").2.insertionBlock
                          = some (createBasicBlock (setLocation g newFunc.range.startLoc)
                            d.function).1 := by
                        rw [createParameter_snd_insertionBlock]
                        exact hibC
                      rw [hibD] at pL
                      have hibE : gE.insertionBlock
                          = some (createBasicBlock (setLocation g newFunc.range.startLoc)
                            d.function).1 := pL.2.1.trans hibD
                      have hwfL : WF (setLocation g newFunc.range.startLoc) :=
                        WF_congr g _ rfl rfl rfl hwf
                      have hwfA : WF (setInsertionBlock
                          (createBasicBlock (setLocation g newFunc.range.startLoc)
                            d.function).2
                          (some (createBasicBlock (setLocation g newFunc.range.startLoc)
                            d.function).1)) :=
                        WF_congr _ _ rfl rfl rfl (WF_createBasicBlock _ _ hwfL)
                      have hwfB : WF gB := dL.2.2.2.2.2.2.2.2 hwfA
                      have hwfC : WF gC := cL.2.2.2.2.2.2.2.2 hwfB
                      have hwfD : WF (createParameter gC d.function "this").2 :=
                        WF_createParameter gC d.function "this" hwfC
                      have hwfE : WF gE := pL.2.2.2.2.2.2.2.2 hwfD
                      have GCP := ihGC gE si.closures gF hwfE hGC
                      have hwfF : WF gF := GCP.wf
                      have hibF : gF.insertionBlock
                          = some (createBasicBlock (setLocation g newFunc.range.startLoc)
                            d.function).1 := GCP.ib.trans hibE
                      obtain ⟨b0, blk0, hib0, hblk0, hi0, hgG⟩ := emit_eq _ _ tid gG hemit
                      have hib0' : gF.insertionBlock = some b0 := hib0
                      have hb0 : b0 = (createBasicBlock (setLocation g
                          newFunc.range.startLoc) d.function).1 :=
                        Option.some.inj (hib0'.symm.trans hibF)
                      subst hb0
                      have hi0' : tid = gF.nextId + 1 := hi0
                      have hnA : (setInsertionBlock
                          (createBasicBlock (setLocation g newFunc.range.startLoc)
                            d.function).2
                          (some (createBasicBlock (setLocation g newFunc.range.startLoc)
                            d.function).1)).nextId = g.nextId + 1 := rfl
                      have hmB := dL.1
                      have hmC := cL.1
                      have hmD : (createParameter gC d.function "this").2.nextId
                          = gC.nextId + 1 := rfl
                      have hmE := pL.1
                      have hmF := GCP.mono
                      rw [hnA] at hmB
                      rw [hmD] at hmE
                      have hgGn : gG.nextId = gF.nextId + 2 := by rw [hgG]; rfl
                      have hfcG : gG.functionContext = some (FnCtx.mk d old) := by
                        have e1 : gG.functionContext = gF.functionContext := by
                          rw [hgG]
                          rfl
                        rw [e1, GCP.fc, pL.2.2.2.1, createParameter_snd_functionContext,
                          cL.2.2.2.1, dL.2.2.2.1]
                        exact hfc
                      have hentry : (createBasicBlock (setLocation g
                          newFunc.range.startLoc) d.function).1 = g.nextId := rfl
                      -- the entry block through the phases
                      have hbA : findBlock (setInsertionBlock
                          (createBasicBlock (setLocation g newFunc.range.startLoc)
                            d.function).2
                          (some (createBasicBlock (setLocation g newFunc.range.startLoc)
                            d.function).1))
                          (createBasicBlock (setLocation g newFunc.range.startLoc)
                            d.function).1
                          = some { id := g.nextId, parent := d.function, instrs := [] } :=
                        findBlock_createBasicBlock_self (setLocation g
                          newFunc.range.startLoc) d.function hwfL
                      obtain ⟨a1, hbB⟩ := dL.2.2.2.2.2.2.1 _ _ hbA
                      have hbC : findBlock gC (createBasicBlock (setLocation g
                          newFunc.range.startLoc) d.function).1
                          = some { id := g.nextId, parent := d.function, instrs := [] ++ a1 } := by
                        unfold findBlock
                        rw [cblk]
                        exact hbB
                      have hbD : findBlock (createParameter gC d.function "this").2
                          (createBasicBlock (setLocation g newFunc.range.startLoc)
                            d.function).1
                          = some { id := g.nextId, parent := d.function, instrs := [] ++ a1 } := by
                        rw [findBlock_createParameter]
                        exact hbC
                      obtain ⟨a2, hbE⟩ := pL.2.2.2.2.2.2.1 _ _ hbD
                      obtain ⟨a3, hbF0⟩ := GCP.oldB2 (createBasicBlock (setLocation g
                          newFunc.range.startLoc) d.function).1 (by
                        show g.nextId < gE.nextId
                        omega)
                      rw [hbE] at hbF0
                      have hbF : findBlock gF (createBasicBlock (setLocation g
                          newFunc.range.startLoc) d.function).1
                          = some { id := g.nextId, parent := d.function, instrs := (([] ++ a1) ++ a2) ++ a3 } := by
                        rw [hbF0]
                        rfl
                      have hmemF := List.mem_of_find?_eq_some hbF
                      have hboundF : ∀ i ∈ (([] ++ a1) ++ a2) ++ a3,
                          i.id < gF.nextId := by
                        intro i hi
                        exact (hwfF.2 _ hmemF).2 i hi
                      refine ⟨?_, ?_, ?_, ?_, ?_, ?_, ?_⟩
                      · simp only [setInsertionBlock_nextId, setCtxData_nextId]
                        omega
                      · show WF (setInsertionBlock (setCtxData gG _) _)
                        have hwfG : WF gG := by
                          rw [hgG]
                          exact WF_updBlock_append_bump (createBasicBlock gF
                            d.function).2 _ _ (WF_createBasicBlock gF _ hwfF)
                            (by simp)
                        exact WF_congr gG _ (by simp) (by simp) (by simp) hwfG
                      · intro hd tl hnt
                        obtain ⟨hd2, hB⟩ := dnt hd tl hnt
                        obtain ⟨hd3, hC⟩ := cnt hd2 tl hB
                        have hCp : (createParameter gC d.function "this").2.nameTable
                            = hd3 :: tl := by
                          rw [createParameter_snd_nameTable]
                          exact hC
                        obtain ⟨hd4, hE⟩ := pnt hd3 tl hCp
                        have hF : gF.nameTable = hd4 :: tl := by
                          rw [GCP.nt]
                          exact hE
                        refine ⟨hd4, ?_⟩
                        show (setCtxData gG _).nameTable = hd4 :: tl
                        rw [setCtxData_nameTable]
                        have e1 : gG.nameTable = gF.nameTable := by rw [hgG]; rfl
                        rw [e1]
                        exact hF
                      · intro d2 old2 hfc2 k hk hkf
                        have hinj := Option.some.inj (hfc.symm.trans hfc2)
                        injection hinj with hd2 hold2
                        subst hd2
                        subst hold2
                        show findFunction (setInsertionBlock (setCtxData gG _) _) k
                          = findFunction g k
                        have e0 : findFunction (setInsertionBlock (setCtxData gG
                            (fun d2 => { d2 with entryTerminator := some ((createBasicBlock (setLocation g newFunc.range.startLoc) d.function).1, tid) }))
                            (some (createBasicBlock gF d.function).1)) k
                            = findFunction gG k := by
                          show (setCtxData gG _).functions.find? _ = _
                          rw [setCtxData_functions]
                          rfl
                        rw [e0]
                        have e1 : findFunction gG k = findFunction gF k := by
                          rw [hgG]
                          rfl
                        rw [e1, GCP.oldF k (by omega), pL.2.2.2.2.1 k hkf,
                          findFunction_createParameter_other gC d.function k "this" hkf,
                          cL.2.2.2.2.1 k hkf, dL.2.2.2.2.1 k hkf]
                        rfl
                      · intro b hb
                        show findBlock (setInsertionBlock (setCtxData gG _) _) b
                          = findBlock g b
                        have e0 : findBlock (setInsertionBlock (setCtxData gG
                            (fun d2 => { d2 with entryTerminator := some ((createBasicBlock (setLocation g newFunc.range.startLoc) d.function).1, tid) }))
                            (some (createBasicBlock gF d.function).1)) b
                            = findBlock gG b := by
                          show (setCtxData gG _).blocks.find? _ = _
                          rw [setCtxData_blocks]
                          rfl
                        rw [e0, hgG]
                        have hu : ∀ bb : BasicBlock,
                            (({ bb with instrs := bb.instrs ++
                              [{ id := (createBasicBlock gF d.function).2.nextId,
                                 loc := (createBasicBlock gF d.function).2.loc,
                                 data := .branch (createBasicBlock gF d.function).1 }] }
                              : BasicBlock)).id = bb.id := fun bb => rfl
                        rw [findBlock_updBlock _ _ _ _ hu,
                          if_neg (show b ≠ (createBasicBlock (setLocation g
                            newFunc.range.startLoc) d.function).1 from by
                              rw [hentry]; omega)]
                        have e1 : findBlock { (createBasicBlock gF d.function).2 with
                            nextId := (createBasicBlock gF d.function).2.nextId + 1 } b
                            = findBlock (createBasicBlock gF d.function).2 b := rfl
                        rw [e1, findBlock_createBasicBlock_old gF d.function b
                          (by omega)]
                        rw [GCP.oldB b (by omega) (by
                          rw [hibE]
                          intro hx
                          have := Option.some.inj hx
                          rw [hentry] at this
                          omega)]
                        rw [pL.2.2.2.2.2.1 b (by
                          intro hx
                          have := Option.some.inj hx
                          rw [hentry] at this
                          omega)]
                        rw [findBlock_createParameter]
                        rw [cL.2.2.2.2.2.1 b (by
                          intro hx
                          have := Option.some.inj hx
                          rw [hentry] at this
                          omega)]
                        rw [dL.2.2.2.2.2.1 b (by
                          intro hx
                          have := Option.some.inj hx
                          rw [hentry] at this
                          omega)]
                        show ((createBasicBlock (setLocation g newFunc.range.startLoc)
                          d.function).2.blocks).find? (fun blk => blk.id == b)
                          = findBlock g b
                        have e2 := findBlock_createBasicBlock_old (setLocation g
                          newFunc.range.startLoc) d.function b (by
                            show b ≠ (setLocation g newFunc.range.startLoc).nextId
                            simp only [setLocation_nextId]
                            omega)
                        exact e2.trans rfl
                      · intro d2 old2 hfc2
                        have hinj := Option.some.inj (hfc.symm.trans hfc2)
                        injection hinj with hd2 hold2
                        subst hd2
                        subst hold2
                        refine ⟨g.nextId, tid, gF.nextId, gF.loc, rfl, ?_, hi0', ?_,
                          ?_, rfl, ?_, ?_⟩
                        · omega
                        · simp only [setInsertionBlock_nextId, setCtxData_nextId]
                          omega
                        · show (setCtxData gG _).functionContext = _
                          rw [setCtxData_functionContext gG _ d old hfcG]
                          rfl
                        · rw [findBlock_setInsertionBlock, findBlock_setCtxData, hgG]
                          have hu : ∀ bb : BasicBlock,
                              (({ bb with instrs := bb.instrs ++
                                [{ id := (createBasicBlock gF d.function).2.nextId,
                                   loc := (createBasicBlock gF d.function).2.loc,
                                   data := .branch (createBasicBlock gF d.function).1 }] }
                                : BasicBlock)).id = bb.id := fun bb => rfl
                          rw [findBlock_updBlock _ _ _ _ hu,
                            if_neg (show gF.nextId ≠ (createBasicBlock (setLocation g
                              newFunc.range.startLoc) d.function).1 from by
                                rw [hentry]; omega)]
                          have e1 : findBlock { (createBasicBlock gF d.function).2 with
                              nextId := (createBasicBlock gF d.function).2.nextId + 1 }
                              gF.nextId
                              = findBlock (createBasicBlock gF d.function).2
                                gF.nextId := rfl
                          rw [e1]
                          exact findBlock_createBasicBlock_self gF d.function hwfF
                        · show findInstrInBlock (setInsertionBlock (setCtxData gG _) _)
                            (createBasicBlock (setLocation g newFunc.range.startLoc)
                              d.function).1 tid = _
                          unfold findInstrInBlock
                          rw [findBlock_setInsertionBlock, findBlock_setCtxData, hgG]
                          have hu : ∀ bb : BasicBlock,
                              (({ bb with instrs := bb.instrs ++
                                [{ id := (createBasicBlock gF d.function).2.nextId,
                                   loc := (createBasicBlock gF d.function).2.loc,
                                   data := .branch (createBasicBlock gF d.function).1 }] }
                                : BasicBlock)).id = bb.id := fun bb => rfl
                          rw [findBlock_updBlock _ _ _ _ hu,
                            if_pos (rfl : (createBasicBlock (setLocation g
                              newFunc.range.startLoc) d.function).1
                              = (createBasicBlock (setLocation g
                                newFunc.range.startLoc) d.function).1)]
                          have e1 : findBlock { (createBasicBlock gF d.function).2 with
                              nextId := (createBasicBlock gF d.function).2.nextId + 1 }
                              (createBasicBlock (setLocation g newFunc.range.startLoc)
                                d.function).1
                              = findBlock (createBasicBlock gF d.function).2
                                (createBasicBlock (setLocation g newFunc.range.startLoc)
                                  d.function).1 := rfl
                          rw [e1, findBlock_createBasicBlock_old gF d.function _ (by
                            rw [hentry]
                            omega)]
                          rw [hbF]
                          simp only [Option.map_some']
                          have hfind2 : ((([] ++ a1) ++ a2) ++ a3 ++
                              ([{ id := (createBasicBlock gF d.function).2.nextId, loc := (createBasicBlock gF d.function).2.loc, data := .branch (createBasicBlock gF d.function).1 }] : List Instr)).find? (fun i : Instr => i.id == tid)
                              = some { id := (createBasicBlock gF d.function).2.nextId, loc := (createBasicBlock gF d.function).2.loc, data := InstrData.branch (createBasicBlock gF d.function).1 } := by
                            apply find?_last_of_pre
                            · intro i hi
                              have := hboundF i hi
                              omega
                            · show (createBasicBlock gF d.function).2.nextId = tid
                              rw [hi0']
                              rfl
                          exact hfind2.trans (by rw [hi0']; rfl)
                      · intro d2 old2 hfc2 f hf
                        have hinj := Option.some.inj (hfc.symm.trans hfc2)
                        injection hinj with hd2 hold2
                        subst hd2
                        subst hold2
                        have hf0 : List.find?
                            (fun f2 : IRFunction => f2.id == d.function) g.functions
                            = some f := hf
                        have hmem := List.mem_of_find?_eq_some hf0
                        have hpred := List.find?_some hf0
                        have hfid : f.id = d.function := by simpa using hpred
                        have hdlt : d.function < g.nextId := hfid ▸ hwf.1 f hmem
                        have hfA : findFunction (setInsertionBlock
                            (createBasicBlock (setLocation g newFunc.range.startLoc)
                              d.function).2
                            (some (createBasicBlock (setLocation g
                              newFunc.range.startLoc) d.function).1)) d.function
                            = some f := hf
                        obtain ⟨f2, hfB, hparB⟩ := dpar f hfA
                        obtain ⟨f2x, hfBx, e2a, e2b, e2c, e2d, e2e⟩ := dL.2.2.2.2.2.2.2.1 f hfA
                        have hf2x : f2 = f2x := Option.some.inj (hfB.symm.trans hfBx)
                        subst hf2x
                        obtain ⟨f3, hfC, hparC⟩ := cpar f2 hfB
                        obtain ⟨f3x, hfCx, e3a, e3b, e3c, e3d, e3e⟩ := cL.2.2.2.2.2.2.2.1 f2 hfB
                        have hf3x : f3 = f3x := Option.some.inj (hfC.symm.trans hfCx)
                        subst hf3x
                        have hfD : findFunction (createParameter gC d.function "this").2
                            d.function
                            = some { f3 with params := f3.params ++
                                [(gC.nextId, "this")] } :=
                          findFunction_createParameter_self gC d.function "this" f3 hfC
                        obtain ⟨f5, hfE, hmapE⟩ := ppar _ hfD
                        obtain ⟨f5x, hfEx, e5a, e5b, e5c, e5d, e5e⟩ := pL.2.2.2.2.2.2.2.1 _ hfD
                        have hf5x : f5 = f5x := Option.some.inj (hfE.symm.trans hfEx)
                        subst hf5x
                        have hfF : findFunction gF d.function = some f5 := by
                          rw [GCP.oldF d.function (by omega)]
                          exact hfE
                        refine ⟨f5, ?_, ?_, ?_, ?_, ?_, ?_, ?_⟩
                        · show findFunction (setInsertionBlock (setCtxData gG _) _)
                            d.function = some f5
                          have e0 : findFunction (setInsertionBlock (setCtxData gG
                              (fun d2 => { d2 with entryTerminator := some ((createBasicBlock (setLocation g newFunc.range.startLoc) d.function).1, tid) }))
                              (some (createBasicBlock gF d.function).1)) d.function
                              = findFunction gG d.function := by
                            show (setCtxData gG _).functions.find? _ = _
                            rw [setCtxData_functions]
                            rfl
                          rw [e0]
                          have e1 : findFunction gG d.function
                              = findFunction gF d.function := by
                            rw [hgG]
                            rfl
                          rw [e1]
                          exact hfF
                        · exact e5a.trans ((congrArg (fun x => x) rfl).trans
                            (e3a.trans e2a))
                        · exact e5b.trans (e3b.trans e2b)
                        · exact e5c.trans (e3c.trans e2c)
                        · exact e5d.trans (e3d.trans e2d)
                        · exact e5e.trans (e3e.trans e2e)
                        · rw [hmapE, hparC, hparB]
                          simp


/-! ## Claim C10: the epilogue's nextBlock dereference -/

/-- Concrete inputs for the C10 witness. -/
def fW10 : IRFunction :=
  { id := 0, name := "w", defKind := .es5Function, strict := false, range := ⟨0, 9⟩,
    params := [], vars := [], lazyClosureAlias := none, lazyScope := none,
    lazySource := none, statementCount := none }

def dW10 : FnCtxData :=
  { function := 0, semInfo := some ⟨[], [], false, false, 0⟩, scopeRef := 0,
    capturedThis := none, capturedNewTarget := .litUndefined, capturedArguments := none,
    entryTerminator := none, labelsSize := 0, anonymousLabelCounter := 0,
    savedInsertionBlock := none, savedLoc := 0 }

def gW10 : IRGenState :=
  { nextId := 1, functions := [fW10], blocks := [], globalProps := [], loc := 0,
    insertionBlock := none, nameTable := [[]], functionContext := some (FnCtx.mk dW10 none),
    contextPushes := 1 }

/-- C10: emitFunctionEpilogue assigns its local nextBlock — and thereby reaches
the dereference — only under the condition that the recorded entry terminator
has exactly one successor: whenever the terminator instruction does not have
exactly one successor the epilogue returns none without dereferencing.  The
dereference is safe after every successful emitFunctionPrologue in the same
lowering context: the prologue records as entryTerminator an unconditional
branch instruction, which has exactly one successor, so the epilogue that
follows it never takes the null branch. -/
theorem emitFunctionEpilogue_nextBlock_safe (fuel : Nat) (g g2 : IRGenState)
    (params : List String) (d : FnCtxData) (old : Option FnCtx)
    (hwf : WF g)
    (hfc : g.functionContext = some (FnCtx.mk d old))
    (hpro : emitFunctionPrologue fuel g params = some g2) :
    (∀ gx : IRGenState, ∀ c : FnCtx, ∀ tb tid : Nat, ∀ t : Instr,
      gx.functionContext = some c →
      c.data.entryTerminator = some (tb, tid) →
      findInstrInBlock gx tb tid = some t →
      numSuccessors t.data ≠ 1 →
      emitFunctionEpilogue gx none = none) ∧
    (∃ tid nb lo : Nat,
      g2.functionContext
        = some (FnCtx.mk { d with entryTerminator := some (g.nextId, tid) } old) ∧
      findInstrInBlock g2 g.nextId tid = some ⟨tid, lo, InstrData.branch nb⟩ ∧
      numSuccessors (InstrData.branch nb) = 1) ∧
    (emitFunctionEpilogue g2 none).isSome := by
  have P := ((clusterPres fuel).2.2.2.2) g params g2 hwf hpro
  obtain ⟨entry, tid, nb, lo, hentry, hlt, htid, hnx, hfc2, hib2, hblk2, hinstr2⟩ :=
    P.term d old hfc
  subst hentry
  have hentry2 : (g.nextId : Nat) = g.nextId := rfl
  refine ⟨?_, ⟨tid, nb, lo, ?_, hinstr2, rfl⟩, ?_⟩
  · intro gx c tb tid2 t hfcx hterm hinstr hns
    rw [emitFunctionEpilogue_none_eq]
    unfold epilogueTail
    rw [hfcx]
    simp only []
    rw [hterm]
    simp only []
    rw [hinstr]
    simp only []
    rw [if_neg hns]
  · exact hfc2
  · rw [emitFunctionEpilogue_none_eq]
    obtain ⟨gz, hz⟩ := epilogueTail_total g2
      { d with entryTerminator := some (g.nextId, tid) } old g.nextId tid nb lo
      hfc2 rfl hinstr2
    rw [hz]
    rfl

/-- Witness for C10: a concrete prologue run followed by the epilogue. -/
theorem emitFunctionEpilogue_nextBlock_safe_witness :
    ∃ g2, emitFunctionPrologue 2 gW10 [] = some g2 ∧
      (emitFunctionEpilogue g2 none).isSome := by
  have hs : (emitFunctionPrologue 2 gW10 []).isSome = true := by decide
  cases hpro : emitFunctionPrologue 2 gW10 [] with
  | none =>
    rw [hpro] at hs
    exact Bool.noConfusion hs
  | some g2 =>
    exact ⟨g2, rfl,
      (emitFunctionEpilogue_nextBlock_safe 2 gW10 g2 [] dW10 none
        (by unfold WF; decide) rfl hpro).2.2⟩


/-! ## Claim C4: the prologue's phase order -/

theorem declareVariable_reuse (g : IRGenState) (fid : Nat) (n : String)
    (h : (scopeLookup (g.nameTable.headD []) n).isSome) :
    (declareVariableOrGlobalProperty g fid n).1.2 = false ∧
    (declareVariableOrGlobalProperty g fid n).2 = g := by
  unfold declareVariableOrGlobalProperty
  cases hs : scopeLookup (g.nameTable.headD []) n with
  | none =>
    rw [hs] at h
    simp at h
  | some st =>
    exact ⟨rfl, rfl⟩

theorem declsLoop_skip_store (g : IRGenState) (fid : Nat) (n : String)
    (rest : List String)
    (h : (declareVariableOrGlobalProperty g fid n).1.2 = false ∨
      ∀ v, (declareVariableOrGlobalProperty g fid n).1.1 ≠ Storage.frameVar v) :
    declsLoop g fid (n :: rest)
      = declsLoop (declareVariableOrGlobalProperty g fid n).2 fid rest := by
  conv_lhs => unfold declsLoop
  cases hs : (declareVariableOrGlobalProperty g fid n).1.1 with
  | frameVar v =>
    cases hb : (declareVariableOrGlobalProperty g fid n).1.2 with
    | false => simp only [hs, hb]
    | true =>
      rcases h with h | h
      · rw [hb] at h
        exact Bool.noConfusion h
      · exact absurd hs (h v)
  | globalProp m => simp only [hs]

/-- Concrete inputs for the C4 witness: two occurrences of the same
hoisted variable, and a (lazily lowered) hoisted function declaration
sharing its name with the single formal parameter. -/
def nodeW4 : FuncNode :=
  FuncNode.mk (some "p") [] false ⟨0, 1⟩ .functionDeclaration
    (FuncBody.block true 0 ⟨0, 1⟩ []) [] [] false false 0

def siW4 : SemInfo := ⟨["x", "x"], [nodeW4], false, false, 0⟩

def fW4 : IRFunction :=
  { id := 0, name := "w", defKind := .es5Function, strict := false, range := ⟨0, 9⟩,
    params := [], vars := [], lazyClosureAlias := none, lazyScope := none,
    lazySource := none, statementCount := none }

def dW4 : FnCtxData :=
  { function := 0, semInfo := some siW4, scopeRef := 0,
    capturedThis := none, capturedNewTarget := .litUndefined, capturedArguments := none,
    entryTerminator := none, labelsSize := 0, anonymousLabelCounter := 0,
    savedInsertionBlock := none, savedLoc := 0 }

def gW4 : IRGenState :=
  { nextId := 1, functions := [fW4], blocks := [], globalProps := [], loc := 0,
    insertionBlock := none, nameTable := [[]], functionContext := some (FnCtx.mk dW4 none),
    contextPushes := 1 }

/-- C4: a successful emitFunctionPrologue factors into its phases in order:
the entry block is created first and the hoisted-variable loop runs with it
as insertion block; in that loop a name already bound in the innermost scope
reuses its storage (nothing is created and the state is unchanged), and a
step whose storage is not a newly created frame variable emits no
initializing store; the hoisted function declarations then get storage slots
without their closures being created (no function and no block is added);
then the implicit 'this' parameter and the formals are bound, each formal
registered in the name table with fresh frame storage; the hoisted closures
are generated only after that, leaving the name table unchanged, so a formal
sharing a name with a hoisted function declaration still resolves to the
parameter's fresh storage in the final state; finally a fresh second block
is opened, reachable from the entry block by the branch recorded as the
context's entryTerminator. -/
theorem emitFunctionPrologue_phase_order (fuel : Nat) (g g2 : IRGenState)
    (params : List String) (d : FnCtxData) (old : Option FnCtx) (si : SemInfo)
    (newFunc : IRFunction)
    (hwf : WF g)
    (hfc : g.functionContext = some (FnCtx.mk d old))
    (hsem : d.semInfo = some si)
    (hfind : findFunction g d.function = some newFunc)
    (h : emitFunctionPrologue (fuel + 1) g params = some g2) :
    ∃ gB gC gE gF : IRGenState,
      declsLoop (setInsertionBlock
          (createBasicBlock (setLocation g newFunc.range.startLoc) d.function).2
          (some (createBasicBlock (setLocation g newFunc.range.startLoc)
            d.function).1))
        d.function si.decls = some gB ∧
      (∀ gx : IRGenState, ∀ n : String,
        (scopeLookup (gx.nameTable.headD []) n).isSome →
        (declareVariableOrGlobalProperty gx d.function n).1.2 = false ∧
        (declareVariableOrGlobalProperty gx d.function n).2 = gx) ∧
      (∀ gx : IRGenState, ∀ n : String, ∀ rest : List String,
        ((declareVariableOrGlobalProperty gx d.function n).1.2 = false ∨
          ∀ v, (declareVariableOrGlobalProperty gx d.function n).1.1
            ≠ Storage.frameVar v) →
        declsLoop gx d.function (n :: rest)
          = declsLoop (declareVariableOrGlobalProperty gx d.function n).2
              d.function rest) ∧
      closureDeclLoop gB d.function si.closures = some gC ∧
      gC.functions.length = gB.functions.length ∧
      gC.blocks = gB.blocks ∧
      paramsLoop (createParameter gC d.function "this").2 d.function params
        = some gE ∧
      (∀ n ∈ params, ∃ v, ntLookup gE.nameTable n = some (Storage.frameVar v) ∧
        gC.nextId ≤ v) ∧
      genClosures fuel gE si.closures = some gF ∧
      gF.nameTable = gE.nameTable ∧
      g2.nameTable = gE.nameTable ∧
      (∃ f2, findFunction g2 d.function = some f2 ∧
        f2.params.map Prod.snd = newFunc.params.map Prod.snd ++ "this" :: params) ∧
      (∃ tid nb lo : Nat, g.nextId < nb ∧ tid = nb + 1 ∧
        g2.insertionBlock = some nb ∧
        g2.functionContext
          = some (FnCtx.mk { d with entryTerminator := some (g.nextId, tid) } old) ∧
        findBlock g2 nb = some ⟨nb, d.function, []⟩ ∧
        findInstrInBlock g2 g.nextId tid = some ⟨tid, lo, InstrData.branch nb⟩) := by
  have P := ((clusterPres (fuel + 1)).2.2.2.2) g params g2 hwf h
  obtain ⟨entry, tid, nb, lo, hentry, hlt, htid, hnx, hfc2, hib2, hblk2, hinstr2⟩ :=
    P.term d old hfc
  subst hentry
  obtain ⟨f2, hf2find, _, _, _, _, _, hf2params⟩ := P.fidP d old hfc newFunc hfind
  have h2 : (match g.functionContext with
      | none => none
      | some c =>
        match c.data.semInfo with
        | none => none
        | some semInfo =>
          match findFunction g c.data.function with
          | none => none
          | some newFunc =>
            match declsLoop
                (setInsertionBlock
                  (createBasicBlock (setLocation g newFunc.range.startLoc)
                    c.data.function).2
                  (some (createBasicBlock (setLocation g newFunc.range.startLoc)
                    c.data.function).1))
                c.data.function semInfo.decls with
            | none => none
            | some gB =>
              match closureDeclLoop gB c.data.function semInfo.closures with
              | none => none
              | some gC =>
                match paramsLoop (createParameter gC c.data.function "this").2
                    c.data.function params with
                | none => none
                | some gE =>
                  match genClosures fuel gE semInfo.closures with
                  | none => none
                  | some gF =>
                    match emit (createBasicBlock gF c.data.function).2
                        (.branch (createBasicBlock gF c.data.function).1) with
                    | none => none
                    | some (tid, gG) =>
                      some (setInsertionBlock
                        (setCtxData gG (fun d2 => { d2 with entryTerminator := some ((createBasicBlock (setLocation g newFunc.range.startLoc) c.data.function).1, tid) }))
                        (some (createBasicBlock gF c.data.function).1)))
      = some g2 := h
  clear h
  split at h2
  · exact Option.noConfusion h2
  · rename_i c hfc0
    obtain ⟨d0, old0⟩ := c
    simp only [FnCtx_data_mk] at h2
    have hinj := Option.some.inj (hfc.symm.trans hfc0)
    injection hinj with hd0 hold0
    subst hd0
    subst hold0
    split at h2
    · exact Option.noConfusion h2
    · rename_i si0 hsem0
      have hsi0 : si = si0 := Option.some.inj (hsem.symm.trans hsem0)
      subst hsi0
      split at h2
      · exact Option.noConfusion h2
      · rename_i newFunc0 hfind0
        have hnf0 : newFunc = newFunc0 := Option.some.inj (hfind.symm.trans hfind0)
        subst hnf0
        split at h2
        · exact Option.noConfusion h2
        · rename_i gB hdecls
          split at h2
          · exact Option.noConfusion h2
          · rename_i gC hclo
            split at h2
            · exact Option.noConfusion h2
            · rename_i gE hparam
              split at h2
              · exact Option.noConfusion h2
              · rename_i gF hGC
                split at h2
                · exact Option.noConfusion h2
                · rename_i tid0 gG hemit
                  have hg2 := Option.some.inj h2
                  obtain ⟨dL, dnt, dpar⟩ :=
                    declsLoop_pres d.function si.decls _ gB hdecls
                  obtain ⟨cL, cnt, cpar, cblk, clen⟩ :=
                    closureDeclLoop_pres d.function si.closures gB gC hclo
                  obtain ⟨pL, pnt, ppar, pin, pout⟩ :=
                    paramsLoop_pres d.function params _ gE hparam
                  have hwfL : WF (setLocation g newFunc.range.startLoc) :=
                    WF_congr g _ rfl rfl rfl hwf
                  have hwfA : WF (setInsertionBlock
                      (createBasicBlock (setLocation g newFunc.range.startLoc)
                        d.function).2
                      (some (createBasicBlock (setLocation g newFunc.range.startLoc)
                        d.function).1)) :=
                    WF_congr _ _ rfl rfl rfl (WF_createBasicBlock _ _ hwfL)
                  have hwfB : WF gB := dL.2.2.2.2.2.2.2.2 hwfA
                  have hwfC : WF gC := cL.2.2.2.2.2.2.2.2 hwfB
                  have hwfD : WF (createParameter gC d.function "this").2 :=
                    WF_createParameter gC d.function "this" hwfC
                  have hwfE : WF gE := pL.2.2.2.2.2.2.2.2 hwfD
                  have GCP := ((clusterPres fuel).2.2.2.1) gE si.closures gF hwfE hGC
                  obtain ⟨k1, _, _, _, _, _, _, _⟩ := emit_keeps _ _ tid0 gG hemit
                  have hnt2 : g2.nameTable = gE.nameTable := by
                    rw [← hg2]
                    simp only [setInsertionBlock_nameTable, setCtxData_nameTable]
                    rw [k1]
                    exact GCP.nt
                  refine ⟨gB, gC, gE, gF, hdecls,
                    fun gx n hx => declareVariable_reuse gx d.function n hx,
                    fun gx n rest hx => declsLoop_skip_store gx d.function n rest hx,
                    hclo, clen, cblk, hparam, ?_, hGC, GCP.nt, hnt2,
                    ⟨f2, hf2find, hf2params⟩,
                    ⟨tid, nb, lo, hlt, htid, hib2, hfc2, hblk2, hinstr2⟩⟩
                  intro n hn
                  obtain ⟨v, hv, hge⟩ := pin n hn
                  refine ⟨v, hv, ?_⟩
                  have he : (createParameter gC d.function "this").2.nextId
                      = gC.nextId + 1 := rfl
                  omega

/-- Witness for C4: the formal parameter "p" shadows the hoisted function
declaration of the same name after the prologue. -/
theorem emitFunctionPrologue_phase_order_witness :
    ∃ g2 v, emitFunctionPrologue 4 gW4 ["p"] = some g2 ∧
      ntLookup g2.nameTable "p" = some (Storage.frameVar v) := by
  have hs : (emitFunctionPrologue 4 gW4 ["p"]).isSome = true := by decide
  cases hpro : emitFunctionPrologue 4 gW4 ["p"] with
  | none =>
    rw [hpro] at hs
    exact Bool.noConfusion hs
  | some g2 =>
    obtain ⟨gB, gC, gE, gF, _, _, _, _, _, _, _, hpin, _, _, hnt2, _, _⟩ :=
      emitFunctionPrologue_phase_order 3 gW4 g2 ["p"] dW4 none siW4 fW4
        (by unfold WF; decide) rfl rfl rfl hpro
    obtain ⟨v, hv, _⟩ := hpin "p" (by simp)
    refine ⟨g2, v, rfl, ?_⟩
    rw [hnt2]
    exact hv



/-! ## Claim C5: arrow function expressions -/

/-- The capture-copy step of genArrowFunctionExpression: set the current
context's captured this/new.target/arguments to the handles of the given
enclosing context. -/
def copyCaptures (g : IRGenState) (prev : FnCtx) : IRGenState :=
  setCtxData g (fun d => { d with capturedThis := prev.data.capturedThis, capturedNewTarget := prev.data.capturedNewTarget, capturedArguments := prev.data.capturedArguments })

/-- Concrete inputs for the C5 witness. -/
def nodeW5 : FuncNode :=
  FuncNode.mk none [] false ⟨0, 1⟩ .arrowFunctionExpression
    (FuncBody.expr 0 ⟨0, 1⟩) [] [] false false 0

def fW5 : IRFunction :=
  { id := 0, name := "outer", defKind := .es5Function, strict := false,
    range := ⟨0, 9⟩, params := [], vars := [], lazyClosureAlias := none,
    lazyScope := none, lazySource := none, statementCount := none }

def dW5 : FnCtxData :=
  { function := 0, semInfo := some ⟨[], [], false, false, 0⟩, scopeRef := 0,
    capturedThis := some 77, capturedNewTarget := .varRef 78,
    capturedArguments := some 79, entryTerminator := none, labelsSize := 0,
    anonymousLabelCounter := 0, savedInsertionBlock := none, savedLoc := 0 }

def gW5 : IRGenState :=
  { nextId := 3, functions := [fW5], blocks := [⟨2, 0, []⟩], globalProps := [],
    loc := 0, insertionBlock := some 2, nameTable := [[]],
    functionContext := some (FnCtx.mk dW5 none), contextPushes := 1 }

/-- C5: a successful genArrowFunctionExpression factors as: create an IR
function of arrow definition kind; push a lowering context over it and run
the parameter prologue; set the new context's capturedThis, capturedNewTarget
and capturedArguments to exactly the handles of the lexically enclosing
lowering context, allocating no storage of its own (ids, functions, blocks
and name table are unchanged by the copy); lower the body; emit the epilogue
with an implicit undefined return; and only after the builder state (context,
insertion block, location, name table) is restored, create the closure, which
is the returned value. -/
theorem genArrowFunctionExpression_spec (fuel : Nat) (g g' : IRGenState)
    (AF : FuncNode) (nameHint : String) (v : Value)
    (hwf : WF g)
    (h : genArrowFunctionExpression fuel g AF nameHint = some (v, g')) :
    ∃ (prev : FnCtx) (gP : IRGenState) (dP : FnCtxData) (gS gE : IRGenState)
      (cid : Nat),
      g.functionContext = some prev ∧
      emitFunctionPrologue fuel
        (mkFunctionContext
          (createFunction g nameHint DefinitionKind.es6Arrow AF.strict AF.range).2
          g.nextId (some AF.getSemInfo)) AF.params = some gP ∧
      gP.functionContext = some (FnCtx.mk dP (some prev)) ∧
      (copyCaptures gP prev).functionContext
        = some (FnCtx.mk { dP with capturedThis := prev.data.capturedThis, capturedNewTarget := prev.data.capturedNewTarget, capturedArguments := prev.data.capturedArguments } (some prev)) ∧
      (copyCaptures gP prev).nextId = gP.nextId ∧
      (copyCaptures gP prev).functions = gP.functions ∧
      (copyCaptures gP prev).blocks = gP.blocks ∧
      (copyCaptures gP prev).nameTable = gP.nameTable ∧
      genStatement (copyCaptures gP prev) AF.body = some gS ∧
      emitFunctionEpilogue gS (some Value.litUndefined) = some gE ∧
      (destroyFunctionContext gE).functionContext = g.functionContext ∧
      (destroyFunctionContext gE).insertionBlock = g.insertionBlock ∧
      (destroyFunctionContext gE).loc = g.loc ∧
      (destroyFunctionContext gE).nameTable = g.nameTable ∧
      emit (destroyFunctionContext gE) (.createFunction g.nextId)
        = some (cid, g') ∧
      v = Value.instRef cid ∧
      (∃ f, findFunction g' g.nextId = some f ∧
        f.defKind = DefinitionKind.es6Arrow ∧ f.name = nameHint ∧
        f.strict = AF.strict) := by
  have h2 : (match emitFunctionPrologue fuel
        (mkFunctionContext
          (createFunction g nameHint DefinitionKind.es6Arrow AF.strict AF.range).2
          g.nextId (some AF.getSemInfo)) AF.params with
      | none => none
      | some gP =>
        match gP.functionContext with
        | none => none
        | some c =>
          match c.oldContext with
          | none => none
          | some prev =>
            match genStatement (setCtxData gP (fun d2 => { d2 with capturedThis := prev.data.capturedThis, capturedNewTarget := prev.data.capturedNewTarget, capturedArguments := prev.data.capturedArguments })) AF.body with
            | none => none
            | some gS =>
              match emitFunctionEpilogue gS (some Value.litUndefined) with
              | none => none
              | some gE =>
                (emit (destroyFunctionContext gE) (.createFunction g.nextId)).map
                  (fun p => (Value.instRef p.1, p.2)))
      = some (v, g') := h
  clear h
  split at h2
  · exact Option.noConfusion h2
  · rename_i gP hpro
    split at h2
    · exact Option.noConfusion h2
    · rename_i c hfcP0
      split at h2
      · exact Option.noConfusion h2
      · rename_i prev hold
        split at h2
        · exact Option.noConfusion h2
        · rename_i gS hstmt
          split at h2
          · exact Option.noConfusion h2
          · rename_i gE hepi
            cases hemit : emit (destroyFunctionContext gE)
                (.createFunction g.nextId) with
            | none =>
              rw [hemit] at h2
              exact Option.noConfusion h2
            | some p =>
              rw [hemit] at h2
              simp only [Option.map_some'] at h2
              obtain ⟨cid, gFin⟩ := p
              have hpair := Option.some.inj h2
              have hv : Value.instRef cid = v := congrArg Prod.fst hpair
              have hgf : gFin = g' := congrArg Prod.snd hpair
              subst hv
              subst hgf
              obtain ⟨D, hfcM, hDfun, hDsib, hDsloc⟩ : ∃ D : FnCtxData,
                  (mkFunctionContext
                    (createFunction g nameHint DefinitionKind.es6Arrow
                      AF.strict AF.range).2
                    g.nextId (some AF.getSemInfo)).functionContext
                    = some (FnCtx.mk D g.functionContext) ∧
                  D.function = g.nextId ∧
                  D.savedInsertionBlock = g.insertionBlock ∧
                  D.savedLoc = g.loc :=
                ⟨_, rfl, rfl, rfl, rfl⟩
              have hwfA : WF (createFunction g nameHint DefinitionKind.es6Arrow
                  AF.strict AF.range).2 :=
                WF_createFunction g nameHint _ AF.strict AF.range hwf
              have hwfM : WF (mkFunctionContext
                  (createFunction g nameHint DefinitionKind.es6Arrow
                    AF.strict AF.range).2
                  g.nextId (some AF.getSemInfo)) :=
                WF_congr _ _ rfl rfl rfl hwfA
              have P := ((clusterPres fuel).2.2.2.2)
                (mkFunctionContext
                  (createFunction g nameHint DefinitionKind.es6Arrow
                    AF.strict AF.range).2
                  g.nextId (some AF.getSemInfo)) AF.params gP hwfM hpro
              obtain ⟨entry, tid, nb, lo, hentry, hlt, htid, hnxP, hfcP, hibP,
                hblkP, hinstrP⟩ := P.term D g.functionContext hfcM
              have hceq : c = FnCtx.mk
                  { D with entryTerminator := some (entry, tid) }
                  g.functionContext :=
                Option.some.inj (hfcP0.symm.trans hfcP)
              subst hceq
              have hgfc : g.functionContext = some prev := hold
              have hfcP2 := hfcP
              rw [hgfc] at hfcP2
              have hfcC := setCtxData_functionContext gP
                (fun d2 => { d2 with capturedThis := prev.data.capturedThis, capturedNewTarget := prev.data.capturedNewTarget, capturedArguments := prev.data.capturedArguments })
                { D with entryTerminator := some (entry, tid) } (some prev) hfcP2
              obtain ⟨s1, s2, s3, s4, s5, s6, s7, s8⟩ :=
                genStatement_pres AF.body _ gS hstmt
              have hibC : (copyCaptures gP prev).insertionBlock = some nb := by
                unfold copyCaptures
                rw [setCtxData_insertionBlock]
                exact hibP
              have hibS : gS.insertionBlock = some nb := s4.trans hibC
              have hwfC : WF (copyCaptures gP prev) := by
                unfold copyCaptures
                exact WF_congr gP _ (by simp) (by simp) (by simp) P.wf
              have hwfS : WF gS := s8 hwfC
              have hinstrC : findInstrInBlock (copyCaptures gP prev) entry tid
                  = some ⟨tid, lo, .branch nb⟩ := by
                unfold findInstrInBlock at hinstrP ⊢
                unfold copyCaptures
                rw [findBlock_setCtxData]
                exact hinstrP
              have hneC : (copyCaptures gP prev).insertionBlock ≠ some entry := by
                rw [hibC]
                intro hx
                have := Option.some.inj hx
                omega
              have hinstrS : findInstrInBlock gS entry tid
                  = some ⟨tid, lo, .branch nb⟩ := by
                unfold findInstrInBlock at hinstrC ⊢
                rw [s7 entry hneC]
                exact hinstrC
              have hfcS : gS.functionContext
                  = some (FnCtx.mk { { D with entryTerminator := some (entry, tid) } with capturedThis := prev.data.capturedThis, capturedNewTarget := prev.data.capturedNewTarget, capturedArguments := prev.data.capturedArguments } (some prev)) :=
                s6.trans hfcC
              obtain ⟨e1, e2, e3, e4, e5, e6, e7, e8⟩ :=
                emitFunctionEpilogue_pres_some gS gE Value.litUndefined entry _
                  (some prev) entry tid nb lo hepi hwfS hfcS rfl hinstrS hibS
                  (by omega) (Nat.le_refl entry) (by omega)
              obtain ⟨dE, hfcE, hEfun, hEsem, hEsib, hEsloc, _, _, _⟩ := e5
              have hsib2 : dE.savedInsertionBlock = g.insertionBlock :=
                hEsib.trans hDsib
              have hsloc2 : dE.savedLoc = g.loc := hEsloc.trans hDsloc
              have hdes : destroyFunctionContext gE
                  = { gE with functionContext := some prev, nameTable := ntPop gE.nameTable, insertionBlock := dE.savedInsertionBlock, loc := dE.savedLoc } := by
                unfold destroyFunctionContext
                rw [hfcE]
                rfl
              obtain ⟨hd2, hntP⟩ := P.nt [] g.nameTable rfl
              have hntE : gE.nameTable = hd2 :: g.nameTable :=
                e3.trans (s3.trans ((setCtxData_nameTable gP _).trans hntP))
              have hfresh : findFunction g g.nextId = none :=
                findFunction_none_of_ge g g.nextId hwf (Nat.le_refl _)
              have hf0 : findFunction
                  (createFunction g nameHint DefinitionKind.es6Arrow
                    AF.strict AF.range).2 g.nextId
                  = some { id := g.nextId, name := nameHint, defKind := .es6Arrow, strict := AF.strict, range := AF.range, params := [], vars := [], lazyClosureAlias := none, lazyScope := none, lazySource := none, statementCount := none } :=
                findFunction_append_fresh g _ hfresh
              have hfM : findFunction
                  (mkFunctionContext
                    (createFunction g nameHint DefinitionKind.es6Arrow
                      AF.strict AF.range).2
                    g.nextId (some AF.getSemInfo)) D.function
                  = some { id := g.nextId, name := nameHint, defKind := .es6Arrow, strict := AF.strict, range := AF.range, params := [], vars := [], lazyClosureAlias := none, lazyScope := none, lazySource := none, statementCount := none } := by
                rw [hDfun]
                exact hf0
              obtain ⟨f1, hf1, a1, a2, a3, a4, a5, _⟩ :=
                P.fidP D g.functionContext hfcM _ hfM
              have hf1C : findFunction (copyCaptures gP prev) D.function
                  = some f1 := by
                unfold copyCaptures
                rw [findFunction_setCtxData]
                exact hf1
              have hf1S : findFunction gS D.function = some f1 := by
                unfold findFunction
                rw [s2]
                exact hf1C
              obtain ⟨f4, hf4, c1, c2, c3, c4, c5⟩ := e8 f1 hf1S
              have hf4fin : findFunction gFin g.nextId = some f4 := by
                have k := emit_keeps _ _ cid gFin hemit
                unfold findFunction
                rw [k.2.1, hdes]
                rw [← hDfun]
                exact hf4
              have hkind : f4.defKind = DefinitionKind.es6Arrow := c3.trans a3
              have hname : f4.name = nameHint := c2.trans a2
              have hstrict : f4.strict = AF.strict := c4.trans a4
              refine ⟨prev, gP, { D with entryTerminator := some (entry, tid) },
                gS, gE, cid, hgfc, hpro, hfcP2, hfcC, ?_, ?_, ?_, ?_, hstmt,
                hepi, ?_, ?_, ?_, ?_, hemit, rfl,
                ⟨f4, hf4fin, hkind, hname, hstrict⟩⟩
              · exact setCtxData_nextId gP _
              · exact setCtxData_functions gP _
              · exact setCtxData_blocks gP _
              · exact setCtxData_nameTable gP _
              · rw [hdes]
                exact hgfc.symm
              · rw [hdes]
                exact hsib2
              · rw [hdes]
                exact hsloc2
              · rw [hdes]
                show ntPop gE.nameTable = g.nameTable
                rw [hntE]
                rfl

/-- Witness for C5 at a concrete arrow function inside an enclosing
context with concrete capture handles. -/
theorem genArrowFunctionExpression_spec_witness :
    ∃ cid g2, genArrowFunctionExpression 2 gW5 nodeW5 "arrow"
        = some (Value.instRef cid, g2) ∧
      ∃ f, findFunction g2 gW5.nextId = some f ∧
        f.defKind = DefinitionKind.es6Arrow := by
  have hs : (genArrowFunctionExpression 2 gW5 nodeW5 "arrow").isSome = true := by
    decide
  cases hres : genArrowFunctionExpression 2 gW5 nodeW5 "arrow" with
  | none =>
    rw [hres] at hs
    exact Bool.noConfusion hs
  | some pr =>
    obtain ⟨v, g2⟩ := pr
    obtain ⟨prev, gP, dP, gS, gE, cid, _, _, _, _, _, _, _, _, _, _, _, _, _, _,
      _, hveq, f, hffind, hkind, _, _⟩ :=
      genArrowFunctionExpression_spec 2 gW5 g2 nodeW5 "arrow" v
        (by unfold WF; decide) hres
    subst hveq
    exact ⟨cid, g2, rfl, f, hffind, hkind⟩


/-! ## Claim C8: function expressions -/

theorem scopeLookup_cons_ne (sc : List (String × Storage)) (cn : String)
    (st : Storage) (m : String) (h : m ≠ cn) :
    scopeLookup ((cn, st) :: sc) m = scopeLookup sc m := by
  show (if cn = m then some st else scopeLookup sc m) = scopeLookup sc m
  rw [if_neg (Ne.symm h)]

theorem ntLookup_mapIdx_insens (m : String) :
    ∀ (t : List (List (String × Storage)))
      (f : Nat → List (String × Storage) → List (String × Storage)),
      (∀ i sc, scopeLookup (f i sc) m = scopeLookup sc m) →
      ntLookup (List.mapIdx f t) m = ntLookup t m := by
  intro t
  induction t with
  | nil =>
    intro f hf
    rfl
  | cons a rest ih =>
    intro f hf
    rw [List.mapIdx_cons]
    unfold ntLookup
    rw [hf 0 a]
    cases scopeLookup a m with
    | some st => rfl
    | none => exact ih _ (fun i sc => hf (i + 1) sc)

/-- Popping the synthetic scope of genFunctionExpression restores every
lookup except possibly the anonymous closure name, which stays registered
in the function's scope. -/
theorem ntLookup_fe_restored (nt : List (List (String × Storage))) (ref : Nat)
    (cn origName : String) (s1 s2 : Storage) (m : String) (hm : m ≠ cn) :
    ntLookup (ntPop (ntInsert (ntInsertIntoScope (ntPush nt) ref cn s1)
      origName s2)) m = ntLookup nt m := by
  unfold ntPush ntInsertIntoScope
  by_cases href : ref < ([] :: nt : List (List (String × Storage))).length
  · rw [if_pos href, List.mapIdx_cons]
    show ntLookup (List.mapIdx _ nt) m = ntLookup nt m
    apply ntLookup_mapIdx_insens
    intro i sc
    by_cases hp : i + 1 = ([] :: nt : List (List (String × Storage))).length - 1 - ref
    · rw [if_pos hp]
      exact scopeLookup_cons_ne sc cn s1 m hm
    · rw [if_neg hp]
  · rw [if_neg href]
    rfl

/-- Concrete inputs for the C8 witness. -/
def nodeW8 : FuncNode :=
  FuncNode.mk (some "f") [] false ⟨0, 1⟩ .functionExpression
    (FuncBody.block true 0 ⟨0, 1⟩ []) [] [] false false 0

def dW8 : FnCtxData :=
  { function := 0, semInfo := some ⟨[], [], false, false, 0⟩, scopeRef := 0,
    capturedThis := none, capturedNewTarget := .litUndefined,
    capturedArguments := none, entryTerminator := none, labelsSize := 0,
    anonymousLabelCounter := 0, savedInsertionBlock := none, savedLoc := 0 }

def gW8 : IRGenState :=
  { nextId := 3, functions := [fW5], blocks := [⟨2, 0, []⟩], globalProps := [],
    loc := 0, insertionBlock := some 2, nameTable := [[]],
    functionContext := some (FnCtx.mk dW8 none), contextPushes := 1 }

/-- C8: genFunctionExpression opens a fresh name-table scope.  For a named
function expression it synthesizes a temporary closure variable (an
anonymous generated name) bound in the current function's scope under the
generated name and in the fresh scope under the function's own name; the
function is lowered with that variable as its lazy-closure alias, and the
created closure is stored through the temporary; after the call returns
every name other than the generated one — in particular the function's own
name — resolves exactly as before the call.  For an unnamed function
expression no binding is added and no temporary store is emitted: the
closure-creating emit's output state is returned directly with the fresh
scope popped, leaving the name table as it was. -/
theorem genFunctionExpression_spec (fuel : Nat) (g g' : IRGenState)
    (FE : FuncNode) (nameHint : String) (v : Value)
    (hwf : WF g)
    (h : genFunctionExpression fuel g FE nameHint = some (v, g')) :
    (∀ origName, FE.idName = some origName →
      ∃ (c : FnCtx) (closureName : String) (tv : Nat) (gSetup : IRGenState)
        (newFunc : Nat) (gMid : IRGenState) (closure : Nat)
        (gEmit gStore : IRGenState),
        g.functionContext = some c ∧
        closureName
          = "?anon_" ++ toString c.data.anonymousLabelCounter ++ "_" ++ "closure" ∧
        genES5Function fuel gSetup origName (some tv) FE = some (newFunc, gMid) ∧
        tv = g.nextId ∧
        gSetup.nameTable
          = ntInsert (ntInsertIntoScope (ntPush g.nameTable) c.data.scopeRef
              closureName (Storage.frameVar tv)) origName (Storage.frameVar tv) ∧
        ntLookup gSetup.nameTable origName = some (Storage.frameVar tv) ∧
        (∃ fl, findFunction gMid newFunc = some fl ∧
          fl.lazyClosureAlias = some tv) ∧
        emit gMid (.createFunction newFunc) = some (closure, gEmit) ∧
        emitStoreTo gEmit (.instRef closure) (Storage.frameVar tv) = some gStore ∧
        v = Value.instRef closure ∧
        g' = { gStore with nameTable := ntPop gStore.nameTable } ∧
        (∀ m, m ≠ closureName →
          ntLookup g'.nameTable m = ntLookup g.nameTable m)) ∧
    (FE.idName = none →
      ∃ (newFunc : Nat) (gMid : IRGenState) (closure : Nat) (gEmit : IRGenState),
        genES5Function fuel { g with nameTable := ntPush g.nameTable } nameHint
          none FE = some (newFunc, gMid) ∧
        emit gMid (.createFunction newFunc) = some (closure, gEmit) ∧
        v = Value.instRef closure ∧
        g' = { gEmit with nameTable := ntPop gEmit.nameTable } ∧
        g'.nameTable = g.nameTable) := by
  cases hID : FE.idName with
  | none =>
    refine ⟨?_, ?_⟩
    · intro origName hcontra
      exact Option.noConfusion hcontra
    · intro _
      unfold genFunctionExpression at h
      rw [hID] at h
      simp only [] at h
      split at h
      · exact Option.noConfusion h
      · rename_i newFunc gMid hE5
        split at h
        · exact Option.noConfusion h
        · rename_i closure gEmit hemit
          have hpair := Option.some.inj h
          have hveq : Value.instRef closure = v := congrArg Prod.fst hpair
          have hgeq : ({ gEmit with nameTable := ntPop gEmit.nameTable }
              : IRGenState) = g' := congrArg Prod.snd hpair
          subst hveq
          subst hgeq
          have hwf1 : WF ({ g with nameTable := ntPush g.nameTable }
              : IRGenState) := WF_congr g _ rfl rfl rfl hwf
          have E := ((clusterPres fuel).1)
            { g with nameTable := ntPush g.nameTable } nameHint none FE
            newFunc gMid hwf1 hE5
          obtain ⟨k1, _, _, _, _, _, _, _⟩ := emit_keeps _ _ closure gEmit hemit
          refine ⟨newFunc, gMid, closure, gEmit, hE5, hemit, rfl, rfl, ?_⟩
          show ntPop gEmit.nameTable = g.nameTable
          rw [k1, E.nt]
          rfl
  | some origName0 =>
    refine ⟨?_, ?_⟩
    · intro origName hsome
      have horig : origName0 = origName := Option.some.inj hsome
      subst horig
      unfold genFunctionExpression at h
      rw [hID] at h
      simp only [] at h
      split at h
      · exact Option.noConfusion h
      · rename_i tcv ni g4 heq
        split at heq
        · exact Option.noConfusion heq
        · rename_i c hfc
          obtain ⟨cd, cold⟩ := c
          rw [genAnonymousLabelNameCtx_spec
            { g with nameTable := ntPush g.nameTable } "closure" cd cold hfc]
            at heq
          simp only [FnCtx_data_mk] at heq
          have hpr := Option.some.inj heq
          have htcv : some (createVariable
              (setCtxData { g with nameTable := ntPush g.nameTable }
                (fun x => { x with anonymousLabelCounter := x.anonymousLabelCounter + 1 }))
              cd.function
              ("?anon_" ++ toString cd.anonymousLabelCounter ++ "_" ++ "closure")).1
              = tcv := congrArg Prod.fst hpr
          have hni : origName0 = ni := congrArg (fun p => p.2.1) hpr
          have hg4 := congrArg (fun p => p.2.2) hpr
          subst htcv
          subst hni
          subst hg4
          simp only [] at h
          split at h
          · exact Option.noConfusion h
          · rename_i newFunc gMid hE5
            split at h
            · exact Option.noConfusion h
            · rename_i closure gEmit hemit
              split at h
              · exact Option.noConfusion h
              · rename_i gStore hstore
                have hpair := Option.some.inj h
                have hveq : Value.instRef closure = v := congrArg Prod.fst hpair
                have hgeq : ({ gStore with nameTable := ntPop gStore.nameTable }
                    : IRGenState) = g' := congrArg Prod.snd hpair
                subst hveq
                subst hgeq
                have hwf1 : WF ({ g with nameTable := ntPush g.nameTable }
                    : IRGenState) := WF_congr g _ rfl rfl rfl hwf
                have hwfX : WF (setCtxData
                    { g with nameTable := ntPush g.nameTable }
                    (fun x => { x with anonymousLabelCounter := x.anonymousLabelCounter + 1 })) :=
                  WF_congr _ _ (by simp) (by simp) (by simp) hwf1
                have hwfV : WF (createVariable (setCtxData
                    { g with nameTable := ntPush g.nameTable }
                    (fun x => { x with anonymousLabelCounter := x.anonymousLabelCounter + 1 }))
                    cd.function
                    ("?anon_" ++ toString cd.anonymousLabelCounter ++ "_" ++ "closure")).2 :=
                  WF_createVariable _ _ _ hwfX
                have hwfS := WF_congr _ _ rfl rfl rfl hwfV
                have E := ((clusterPres fuel).1) _ origName0 _ FE newFunc gMid
                  (by exact hwfS) hE5
                obtain ⟨fl, hfl, hlca, _, _, _⟩ := E.newF
                obtain ⟨k1, _, _, _, _, _, _, _⟩ :=
                  emit_keeps _ _ closure gEmit hemit
                obtain ⟨s1, _, _, _, _, _⟩ :=
                  emitStoreTo_keeps _ _ _ gStore hstore
                have hnt5 : (createVariable (setCtxData
                    { g with nameTable := ntPush g.nameTable }
                    (fun x => { x with anonymousLabelCounter := x.anonymousLabelCounter + 1 }))
                    cd.function
                    ("?anon_" ++ toString cd.anonymousLabelCounter ++ "_" ++ "closure")).2.nameTable
                    = ntPush g.nameTable := by
                  show (setCtxData { g with nameTable := ntPush g.nameTable }
                    (fun x => { x with anonymousLabelCounter := x.anonymousLabelCounter + 1 })).nameTable
                    = ntPush g.nameTable
                  rw [setCtxData_nameTable]
                refine ⟨FnCtx.mk cd cold, _, _, _, _, _, _, _, _, hfc, rfl,
                  hE5, ?_, ?_, ?_, ⟨fl, hfl, hlca⟩, hemit, hstore, rfl, rfl, ?_⟩
                · show (setCtxData { g with nameTable := ntPush g.nameTable }
                    (fun x => { x with anonymousLabelCounter := x.anonymousLabelCounter + 1 })).nextId
                    = g.nextId
                  rw [setCtxData_nextId]
                · show ntInsert (ntInsertIntoScope (createVariable (setCtxData
                      { g with nameTable := ntPush g.nameTable }
                      (fun x => { x with anonymousLabelCounter := x.anonymousLabelCounter + 1 }))
                      cd.function
                      ("?anon_" ++ toString cd.anonymousLabelCounter ++ "_" ++ "closure")).2.nameTable
                      cd.scopeRef _ _) origName0 _ = _
                  rw [hnt5]
                  rfl
                · show ntLookup (ntInsert _ origName0 _) origName0 = _
                  rw [ntLookup_ntInsert_self]
                · intro m hm
                  show ntLookup (ntPop gStore.nameTable) m = ntLookup g.nameTable m
                  have hchain : gStore.nameTable
                      = ntInsert (ntInsertIntoScope (ntPush g.nameTable)
                          cd.scopeRef
                          ("?anon_" ++ toString cd.anonymousLabelCounter ++ "_" ++ "closure")
                          (Storage.frameVar (createVariable (setCtxData
                            { g with nameTable := ntPush g.nameTable }
                            (fun x => { x with anonymousLabelCounter := x.anonymousLabelCounter + 1 }))
                            cd.function
                            ("?anon_" ++ toString cd.anonymousLabelCounter ++ "_" ++ "closure")).1))
                        origName0
                        (Storage.frameVar (createVariable (setCtxData
                          { g with nameTable := ntPush g.nameTable }
                          (fun x => { x with anonymousLabelCounter := x.anonymousLabelCounter + 1 }))
                          cd.function
                          ("?anon_" ++ toString cd.anonymousLabelCounter ++ "_" ++ "closure")).1) := by
                    rw [s1, k1, E.nt]
                    show ntInsert (ntInsertIntoScope (createVariable (setCtxData
                        { g with nameTable := ntPush g.nameTable }
                        (fun x => { x with anonymousLabelCounter := x.anonymousLabelCounter + 1 }))
                        cd.function
                        ("?anon_" ++ toString cd.anonymousLabelCounter ++ "_" ++ "closure")).2.nameTable
                        cd.scopeRef _ _) origName0 _ = _
                    rw [hnt5]
                  rw [hchain]
                  exact ntLookup_fe_restored g.nameTable cd.scopeRef _ origName0
                    _ _ m hm
    · intro hcontra
      exact Option.noConfusion hcontra

/-- Witness for C8: a named function expression whose name is not visible
after the call returns. -/
theorem genFunctionExpression_spec_witness :
    ∃ closure g2, genFunctionExpression 2 gW8 nodeW8 "hint"
        = some (Value.instRef closure, g2) ∧
      ntLookup g2.nameTable "f" = ntLookup gW8.nameTable "f" := by
  have hs : (genFunctionExpression 2 gW8 nodeW8 "hint").isSome = true := by decide
  cases hres : genFunctionExpression 2 gW8 nodeW8 "hint" with
  | none =>
    rw [hres] at hs
    exact Bool.noConfusion hs
  | some pr =>
    obtain ⟨v, g2⟩ := pr
    have S := genFunctionExpression_spec 2 gW8 g2 nodeW8 "hint" v
      (by unfold WF; decide) hres
    obtain ⟨c, cn, tv, gSetup, nf, gMid, cl, gEmit, gStore, h1, h2, _, _, _, _,
      _, _, _, hveq, _, hrest⟩ := S.1 "f" rfl
    have h1b : some (FnCtx.mk dW8 none) = some c := h1
    have hceq := Option.some.inj h1b
    subst hceq
    have hne : "f" ≠ cn := by
      rw [h2]
      decide
    subst hveq
    exact ⟨cl, g2, rfl, hrest "f" hne⟩

end Hermes
